import Mathlib

/-!
# Verification of the message-dispatch pipeline of `aiseeq/log`

Shallow embedding of `log.go`. The wrappers of `interface.go` (`Debug`, `Debugf`, ...) only
call `outputMessage` with their level and depth 2; the sample calls below do the same.

* Package-level variables become the fields of `State`.
* Everything the code obtains from outside (the wall clock, `runtime.Caller`, the
  result of each console / syslog / file call) is an explicit input, `Env`.
* Every call on a sink is recorded as an `Effect`, in program order.
* `Level` is Go's `uint8`; the code only compares levels, so a `Nat` carries it.
* Go strings are Lean strings (valid UTF-8); byte buffers handed to the regular
  expression are lists of runes.
-/

namespace GoLog

/-! ## Severity model (log.go 15-66) -/

/-- Go: `type Level uint8`.  No arithmetic is done on levels, only comparisons. -/
abbrev Level := Nat

abbrev L_fatal : Level := 0
abbrev L_alert : Level := 1
abbrev L_critical : Level := 2
abbrev L_error : Level := 3
abbrev L_warning : Level := 4
abbrev L_notice : Level := 5
abbrev L_info : Level := 6
abbrev L_debug : Level := 7

/-- Go: `func (l Level) String() string`; the `default` case falls through to `L_fatal`. -/
def Level.String (l : Level) : String :=
  match l with
  | 1 => "Alert"
  | 2 => "Critical"
  | 3 => "Error"
  | 4 => "Warning"
  | 5 => "Notice"
  | 6 => "Info"
  | 7 => "Debug"
  | _ => "Fatal"

/-! ## Values supplied by the Go runtime and libraries -/

/-- Go `error` values returned by the sinks. -/
abbrev Error := String

/-- The `interface{}` arguments the tests and the adapter pass to the logger. -/
inductive Arg where
  | str (s : String)
  | int (n : Int)
deriving DecidableEq, Repr

/-- The two `fmt` entry points `getText` calls on the user arguments, with the two facts
about them that the repository relies on (a lone string operand prints as itself). -/
structure Fmt where
  Sprint : List Arg → String
  Sprintf : String → List Arg → String
  sprint_str : ∀ s : String, Sprint [Arg.str s] = s
  sprintf_s : ∀ s : String, Sprintf "%s" [Arg.str s] = s

/-- Operand rendering of `%v`: strings as they are, integers in decimal. -/
def Arg.render : Arg → String
  | Arg.str s => s
  | Arg.int n => toString n

/-- `fmt.Sprint`: operands are concatenated, a space is added between two operands when
neither is a string. -/
def sprintArgs : List Arg → String
  | [] => ""
  | [a] => a.render
  | Arg.int n :: Arg.int m :: rest => toString n ++ " " ++ sprintArgs (Arg.int m :: rest)
  | a :: b :: rest => a.render ++ sprintArgs (b :: rest)

/-- `fmt.Sprintf` on a list of runes, for the verbs `%s`, `%d`, `%v` and `%%`, each verb
with its operand present. -/
def sprintfChars : List Char → List Arg → List Char
  | [], _ => []
  | '%' :: '%' :: cs, as => '%' :: sprintfChars cs as
  | '%' :: _ :: cs, a :: as => a.render.data ++ sprintfChars cs as
  | c :: cs, as => c :: sprintfChars cs as

/-- A concrete `fmt`, enough to evaluate the calls of the tests of the repository. -/
def goFmt : Fmt where
  Sprint := sprintArgs
  Sprintf := fun p as => String.mk (sprintfChars p.data as)
  sprint_str := fun _ => rfl
  sprintf_s := fun s => by
    show String.mk (sprintfChars ['%', 's'] [Arg.str s]) = s
    simp [sprintfChars, Arg.render]

/-- What one call of `outputMessage` reads from its surroundings. -/
structure Env where
  /-- The first `time.Now().Unix()` of `checkMessagesLimit` (line 84). -/
  now1 : Int
  /-- The second `time.Now().Unix()` of `checkMessagesLimit` (line 85). -/
  now2 : Int
  /-- The result of `time.Now().Format("2006-01-02 15:04:05 ")`. -/
  stamp : String
  /-- The result of `runtime.Caller(depth)`: file and line. -/
  Caller : Nat → String × Int
  /-- Result of `fmt.Fprint` on the console stream. -/
  consoleErr : Option Error
  /-- Result of the syslog call. -/
  syslogErr : Option Error
  /-- Result of `os.OpenFile`. -/
  openErr : Option Error
  /-- Result of `f.WriteString`. -/
  writeErr : Option Error
  /-- Result of `f.Close`. -/
  closeErr : Option Error

/-- Native syslog severities used by `outputMessage`. -/
inductive Severity where
  | Emerg | Alert | Crit | Err | Warning | Notice | Info | Debug
deriving DecidableEq, Repr

/-- A call on a sink. -/
inductive Effect where
  | stderr (msg : String)
  | stdout (msg : String)
  | syslog (sev : Severity) (text : String)
  | fileOpen (path : String)
  | fileWrite (path : String) (msg : String)
  | fileClose (path : String)
deriving DecidableEq, Repr

/-- Calls on the console sink. -/
def Effect.isConsole : Effect → Bool
  | Effect.stderr _ => true
  | Effect.stdout _ => true
  | _ => false

/-- Calls on the syslog sink. -/
def Effect.isSyslog : Effect → Bool
  | Effect.syslog _ _ => true
  | _ => false

/-- Calls on the file sink. -/
def Effect.isFile : Effect → Bool
  | Effect.fileOpen _ => true
  | Effect.fileWrite _ _ => true
  | Effect.fileClose _ => true
  | _ => false

/-! ## Package state (log.go 29-42) -/

structure State where
  /-- Is `sys != nil`. -/
  sys : Bool
  maxConsoleLevel : Level
  maxSyslogLevel : Level
  maxFileLevel : Level
  maxMessagesPerSecond : Int
  thisSecond : Int
  messagesThisSecond : Int
  logFile : String
  lastMessage : String
  isRepeated : Bool
deriving DecidableEq, Repr

/-- The values of the package variables at program start. -/
def State.init : State where
  sys := false
  maxConsoleLevel := L_debug
  maxSyslogLevel := L_debug
  maxFileLevel := L_debug
  maxMessagesPerSecond := 0
  thisSecond := 0
  messagesThisSecond := 0
  logFile := ""
  lastMessage := ""
  isRepeated := false

/-! ## The pipeline (log.go 68-178) -/

/-- Lines 70-75 of `getText`: the local `msg`. -/
def messageOf (F : Fmt) (args : List Arg) (pattern : String) : String :=
  if pattern = "" then F.Sprint args else F.Sprintf pattern args

/-- Go: `getText`. The last line is `fmt.Sprintf("[%s] %s:%d - %s\n", level, file, line, msg)`;
`%s` of a `Level` prints `level.String()`. -/
def getText (F : Fmt) (args : List Arg) (pattern : String) (level : Level) (file : String)
    (line : Int) : String :=
  "[" ++ Level.String level ++ "] " ++ file ++ ":" ++ toString line ++ " - " ++
    messageOf F args pattern ++ "\n"

/-- Go: `checkMessagesLimit`; returns true if the limit is hit. The clock is read twice. -/
def checkMessagesLimit (st : State) (now1 now2 : Int) : Bool × State :=
  if st.maxMessagesPerSecond < 1 then (false, st)
  else if st.thisSecond ≠ now1 then
    (false, { st with thisSecond := now2, messagesThisSecond := 1 })
  else if st.messagesThisSecond < st.maxMessagesPerSecond then
    (false, { st with messagesThisSecond := st.messagesThisSecond + 1 })
  else (true, st)

/-- The loop of lines 105-111 with loop variable `i = n`: stops at the last `/` whose
index is positive. -/
def shortLoop (file : List Char) : Nat → List Char
  | 0 => file
  | i + 1 => if file.get? (i + 1) = some '/' then file.drop (i + 2) else shortLoop file i

/-- The value of `short` after lines 105-111. -/
def shortName (file : String) : String :=
  String.mk (shortLoop file.data (file.data.length - 1))

/-- The level pre-check of line 98. -/
def ignored (st : State) (level : Level) : Prop :=
  level > st.maxConsoleLevel ∧ level > st.maxSyslogLevel ∧ level > st.maxFileLevel

instance (st : State) (level : Level) : Decidable (ignored st level) := by
  unfold ignored; infer_instance

/-- Lines 114-126: the line to write (`msg`) and the new repeat state. -/
def collapse (st : State) (stamp text : String) : String × State :=
  if text ≠ st.lastMessage then
    if st.isRepeated then
      ("\n" ++ stamp ++ text, { st with isRepeated := false, lastMessage := text })
    else
      (stamp ++ text, { st with lastMessage := text })
  else
    (".", { st with isRepeated := true })

/-- The `switch level` of lines 139-158. -/
def syslogSeverity (level : Level) : Severity :=
  match level with
  | 1 => Severity.Alert
  | 2 => Severity.Crit
  | 3 => Severity.Err
  | 4 => Severity.Warning
  | 5 => Severity.Notice
  | 6 => Severity.Info
  | 7 => Severity.Debug
  | _ => Severity.Emerg

/-- What a call of `outputMessage` leaves behind: the package state, the sink calls made
(in order), the returned error, and `line`, the value of the local `msg` when the call
got past the pre-check and the rate limiter (`none` when it returned before). -/
structure Outcome where
  state : State
  effects : List Effect
  err : Option Error
  line : Option String
deriving DecidableEq, Repr

/-- Lines 163-177: the file sink. -/
def fileSink (st : State) (env : Env) (level : Level) (msg : String) (pre : List Effect) :
    Outcome :=
  if st.logFile ≠ "" ∧ level ≤ st.maxFileLevel then
    match env.openErr with
    | some e => ⟨{ st with logFile := "" }, pre ++ [Effect.fileOpen st.logFile], some e, some msg⟩
    | none =>
      match env.writeErr with
      | some e =>
        ⟨{ st with logFile := "" },
          pre ++ [Effect.fileOpen st.logFile, Effect.fileWrite st.logFile msg], some e, some msg⟩
      | none =>
        ⟨st, pre ++ [Effect.fileOpen st.logFile, Effect.fileWrite st.logFile msg,
          Effect.fileClose st.logFile], env.closeErr, some msg⟩
  else ⟨st, pre, none, some msg⟩

/-- Lines 138-162: the syslog sink, then on to the file sink. -/
def syslogSink (st : State) (env : Env) (level : Level) (text msg : String)
    (pre : List Effect) : Outcome :=
  if st.sys = true ∧ level ≤ st.maxSyslogLevel then
    match env.syslogErr with
    | some e => ⟨st, pre ++ [Effect.syslog (syslogSeverity level) text], some e, some msg⟩
    | none => fileSink st env level msg (pre ++ [Effect.syslog (syslogSeverity level) text])
  else fileSink st env level msg pre

/-- Lines 128-137: the console sink, then on to the other sinks. -/
def consoleSink (st : State) (env : Env) (level : Level) (text msg : String) : Outcome :=
  if level ≤ st.maxConsoleLevel then
    let ev := if level ≤ L_warning then Effect.stderr msg else Effect.stdout msg
    match env.consoleErr with
    | some e => ⟨st, [ev], some e, some msg⟩
    | none => syslogSink st env level text msg [ev]
  else syslogSink st env level text msg []

/-- Go: `outputMessage`. -/
def outputMessage (F : Fmt) (st : State) (env : Env) (pattern : String) (args : List Arg)
    (level : Level) (depth : Nat) : Outcome :=
  if ignored st level then ⟨st, [], none, none⟩
  else
    match checkMessagesLimit st env.now1 env.now2 with
    | (true, st1) => ⟨st1, [], none, none⟩
    | (false, st1) =>
      let short := shortName (env.Caller depth).1
      let text := getText F args pattern level short (env.Caller depth).2
      let r := collapse st1 env.stamp text
      consoleSink r.2 env level text r.1

/-- A call of `outputMessage`: what it reads from outside and its arguments. -/
structure Dispatch where
  env : Env
  pattern : String
  args : List Arg
  level : Level
  depth : Nat

/-- The outcome of one dispatch. -/
def Dispatch.run (F : Fmt) (st : State) (d : Dispatch) : Outcome :=
  outputMessage F st d.env d.pattern d.args d.level d.depth

/-- The rendered text of a dispatch (the local `text` of `outputMessage`). -/
def Dispatch.text (F : Fmt) (d : Dispatch) : String :=
  getText F d.args d.pattern d.level (shortName (d.env.Caller d.depth).1) (d.env.Caller d.depth).2

/-- Successive calls of `outputMessage`, each on the state the previous one left. -/
def runDispatches (F : Fmt) : State → List Dispatch → List Outcome
  | _, [] => []
  | st, d :: ds => d.run F st :: runDispatches F (d.run F st).state ds

/-- The package state after successive calls of `outputMessage`. -/
def stateAfter (F : Fmt) : State → List Dispatch → State
  | st, [] => st
  | st, d :: ds => stateAfter F (d.run F st).state ds

/-! ## Configuration surface (log.go 231-259) -/

/-- Go: `InitSyslog`; `dial` is the error of `syslog.New` (the writer is nil when it fails). -/
def InitSyslog (st : State) (_tag : String) (level : Level) (dial : Option Error) :
    State × Option Error :=
  ({ st with maxSyslogLevel := level, sys := dial.isNone }, dial)

/-- Go: `SetSyslogLevel`; the body assigns `maxConsoleLevel`. -/
def SetSyslogLevel (st : State) (level : Level) : State :=
  { st with maxConsoleLevel := level }

/-- Go: `InitFile`. -/
def InitFile (st : State) (file : String) (level : Level) : State :=
  { st with logFile := file, maxFileLevel := level }

/-- Go: `SetConsoleLevel`. -/
def SetConsoleLevel (st : State) (level : Level) : State :=
  { st with maxConsoleLevel := level }

/-- Go: `SetMaxMessagesPerSecond`. -/
def SetMaxMessagesPerSecond (st : State) (m : Int) : State :=
  { st with maxMessagesPerSecond := m }

/-! ## The level pattern (log.go 38-40)

Go's `regexp` returns the match a backtracking matcher finds first (leftmost, then by
priority of alternatives, greedy repetition first). `Re` holds the constructs the pattern
uses; `Re.run` is that backtracking matcher, in continuation-passing style. -/

/-- The Unicode tables behind `\p{L}` and `\p{M}` (Go package `unicode`), with what they
say on ASCII: the letters are the 52 Latin letters, and there is no mark. -/
structure UnicodeTables where
  isL : Char → Bool
  isM : Char → Bool
  ascii_L : ∀ c : Char, c.val < 128 → isL c = c.isAlpha
  ascii_M : ∀ c : Char, c.val < 128 → isM c = false

/-- Tables that know the ASCII letters only; used to evaluate ASCII inputs. -/
def asciiTables : UnicodeTables where
  isL := fun c => c.isAlpha
  isM := fun _ => false
  ascii_L := fun _ _ => rfl
  ascii_M := fun _ _ => rfl

/-- An item of a bracket expression. -/
inductive ClassItem where
  | L
  | M
  | digit
  | chr (c : Char)
deriving DecidableEq, Repr

/-- Membership of a rune in a class item; `\d` is ASCII-only in Go. -/
def ClassItem.has (U : UnicodeTables) : ClassItem → Char → Bool
  | ClassItem.L, x => U.isL x
  | ClassItem.M, x => U.isM x
  | ClassItem.digit, x => x.isDigit
  | ClassItem.chr c, x => x = c

/-- The negated bracket expression `[^items]`. -/
def notIn (U : UnicodeTables) (items : List ClassItem) (x : Char) : Bool :=
  !(items.any fun i => i.has U x)

/-- Matching of a lower-case ASCII pattern letter under `(?i)`: Go folds with
`unicode.SimpleFold`, whose orbits on these letters are the two cases, plus U+017F for `s`
and U+212A for `k`. -/
def foldEq (a x : Char) : Bool :=
  x.toLower = a || (a = 's' && x.val = 0x17F) || (a = 'k' && x.val = 0x212A)

/-- Regular expressions, as far as the level pattern needs them. -/
inductive Re where
  /-- `^` -/
  | bol
  /-- The empty expression. -/
  | empty
  /-- A literal letter, under `(?i)`. -/
  | chr (a : Char)
  /-- Concatenation. -/
  | cat (a b : Re)
  /-- Alternation `a|b`, `a` preferred. -/
  | alt (a b : Re)
  /-- Greedy `a?`. -/
  | opt (a : Re)
  /-- Greedy `[^items]*`. -/
  | starNot (items : List ClassItem)
  /-- Greedy `[^items]+`. -/
  | plusNot (items : List ClassItem)
  /-- Capturing group number `i`. -/
  | group (i : Nat) (a : Re)

/-- The submatches found so far: entry `i` is the text of group `i`. -/
abbrev Caps := List (List Char)

/-- Greedy repetition of a one-rune class: one more rune first, stopping here second. -/
def starRun (cls : Char → Bool) :
    Nat → List Char → Caps → (Nat → List Char → Caps → Option Caps) → Option Caps
  | p, [], c, k => k p [] c
  | p, x :: xs, c, k =>
    if cls x then
      match starRun cls (p + 1) xs c k with
      | some r => some r
      | none => k p (x :: xs) c
    else k p (x :: xs) c

/-- The backtracking matcher: `r.run p s c k` matches `r` at position `p`, where `s` is the
rest of the input, and hands position, rest and submatches to `k`; the first success in
priority order is the result. -/
def Re.run (U : UnicodeTables) :
    Re → Nat → List Char → Caps → (Nat → List Char → Caps → Option Caps) → Option Caps
  | Re.bol, p, s, c, k => if p = 0 then k p s c else none
  | Re.empty, p, s, c, k => k p s c
  | Re.chr a, p, s, c, k =>
    match s with
    | [] => none
    | x :: xs => if foldEq a x then k (p + 1) xs c else none
  | Re.cat a b, p, s, c, k => a.run U p s c (fun p1 s1 c1 => b.run U p1 s1 c1 k)
  | Re.alt a b, p, s, c, k =>
    match a.run U p s c k with
    | some r => some r
    | none => b.run U p s c k
  | Re.opt a, p, s, c, k =>
    match a.run U p s c k with
    | some r => some r
    | none => k p s c
  | Re.starNot items, p, s, c, k => starRun (notIn U items) p s c k
  | Re.plusNot items, p, s, c, k =>
    match s with
    | [] => none
    | x :: xs => if notIn U items x then starRun (notIn U items) (p + 1) xs c k else none
  | Re.group i a, p, s, c, k =>
    a.run U p s c (fun p1 s1 c1 => k p1 s1 (c1.set i (s.take (p1 - p))))

/-- A word of literal letters. -/
def Re.word : List Char → Re
  | [] => Re.empty
  | [a] => Re.chr a
  | a :: as => Re.cat (Re.chr a) (Re.word as)

/-- The alternation of a list of expressions, in order. -/
def Re.alts : List Re → Re
  | [] => Re.empty
  | [r] => r
  | r :: rs => Re.alt r (Re.alts rs)

/-- The level words of the pattern, in the order of the alternation. -/
def levelWords : List (List Char) :=
  ["fatal".data, "alert".data, "critical".data, "crit".data, "error".data, "err".data,
   "e".data, "warning".data, "warn".data, "w".data, "notice".data, "info".data, "debug".data]

/-- The class `[^\p{L}\p{M}\d]`. -/
def nonLetter : List ClassItem := [ClassItem.L, ClassItem.M, ClassItem.digit]

/-- The class of line 40: everything but `\p{L}`, `\p{M}`, `\d`, `_`, `/` and `-`. -/
def separator : List ClassItem :=
  [ClassItem.L, ClassItem.M, ClassItem.digit, ClassItem.chr '_', ClassItem.chr '/',
   ClassItem.chr '-']

/-- Go: `msgLevelCheck`, the pattern `(?i)^(N*(W)s?S+)` where `N` is `[^\p{L}\p{M}\d]`,
`W` is `fatal|alert|critical|crit|error|err|e|warning|warn|w|notice|info|debug` and `S` is
the separator class of line 40. -/
def msgLevelCheck : Re :=
  Re.cat Re.bol
    (Re.group 1
      (Re.cat (Re.starNot nonLetter)
        (Re.cat (Re.group 2 (Re.alts (levelWords.map Re.word)))
          (Re.cat (Re.opt (Re.chr 's')) (Re.plusNot separator)))))

/-- The search of `FindSubmatch` from start position `p` on: the leftmost start at which
the expression matches wins; group 0 is the whole match. -/
def findFrom (U : UnicodeTables) (re : Re) : Nat → List Char → Option Caps
  | p, [] => re.run U p [] [[], [], []] (fun _ _ c => some (c.set 0 []))
  | p, x :: xs =>
    match re.run U p (x :: xs) [[], [], []]
        (fun p1 _ c => some (c.set 0 ((x :: xs).take (p1 - p)))) with
    | some c => some c
    | none => findFrom U re (p + 1) xs

/-- Go: `(*Regexp).FindSubmatch` for an expression with two groups: the whole match and the
two submatches, or nil (the empty list) when there is no match. -/
def FindSubmatch (U : UnicodeTables) (re : Re) (buf : List Char) : List (List Char) :=
  match findFrom U re 0 buf with
  | some c => c
  | none => []

/-- The shape of a match of the level pattern on `buf`, `m` being the submatches: leading
non-letters, a level word (up to case), an optional `s`, and the longest run of separators
that follows; group 0 and group 1 are all of that, group 2 is the level word. -/
inductive LevelMatch (U : UnicodeTables) (buf : List Char) (m : List (List Char)) : Prop where
  | intro (lead word plural seps rest w : List Char)
      (split : buf = lead ++ word ++ plural ++ seps ++ rest)
      (lead_ok : ∀ x ∈ lead, notIn U nonLetter x = true)
      (w_mem : w ∈ levelWords)
      (word_ok : List.Forall₂ (fun a x => foldEq a x = true) w word)
      (plural_ok : plural = [] ∨ ∃ x, plural = [x] ∧ foldEq 's' x = true)
      (seps_ne : seps ≠ [])
      (seps_ok : ∀ x ∈ seps, notIn U separator x = true)
      (rest_ok : ∀ x, rest.head? = some x → notIn U separator x = false)
      (caps : m = [lead ++ word ++ plural ++ seps, lead ++ word ++ plural ++ seps, word]) :
      LevelMatch U buf m

/-! ### A leading level word, in the words of the specification -/

/-- Does the rune list `m` spell the pattern word `w`, up to case. -/
def spells (w m : List Char) : Bool :=
  match w, m with
  | [], [] => true
  | a :: as, x :: xs => foldEq a x && spells as xs
  | _, _ => false

/-- Spec wording, "one of the level words (optionally pluralised)": the run spells a level
word, or it ends in an `s` (up to case) and what is before spells one. -/
def isLevelWord (run : List Char) : Bool :=
  levelWords.any fun w =>
    spells w run ||
      (match run.getLast? with
       | some y => foldEq 's' y && spells w run.dropLast
       | none => false)

/-- Spec wording: the first letter-or-digit run of the line (what follows the leading
runes that are no letter, mark or digit) is a level word, optionally pluralised, and is
followed by at least one separator character. -/
def leadsWithLevel (U : UnicodeTables) (buf : List Char) : Bool :=
  let afterLead := buf.dropWhile (notIn U nonLetter)
  let run := afterLead.takeWhile fun x => !notIn U nonLetter x
  let tail := afterLead.dropWhile fun x => !notIn U nonLetter x
  isLevelWord run &&
    (match tail with
     | [] => false
     | y :: _ => notIn U separator y)

/-! ## The foreign-stream adapter (log.go 180-215) -/

/-- Go: `bytes.Replace(s, old, new, 1)`: the first occurrence of `old` is replaced. -/
def replaceFirst (s old new : List Char) : List Char :=
  if old.isPrefixOf s then new ++ s.drop old.length
  else
    match s with
    | [] => []
    | x :: xs => x :: replaceFirst xs old new

/-- Go: `unicode.IsSpace`, the White_Space property. -/
def isSpace (x : Char) : Bool :=
  let n := x.val.toNat
  (9 ≤ n && n ≤ 13) || n = 32 || n = 0x85 || n = 0xA0 || n = 0x1680 ||
  (0x2000 ≤ n && n ≤ 0x200A) || n = 0x2028 || n = 0x2029 || n = 0x202F || n = 0x205F ||
  n = 0x3000

/-- Go: `bytes.TrimSpace`. -/
def TrimSpace (s : List Char) : List Char :=
  ((s.dropWhile isSpace).reverse.dropWhile isSpace).reverse

/-- Go: `len` of a byte slice holding these runes. -/
def byteLen (s : List Char) : Nat := (s.map Char.utf8Size).sum

/-- The `switch letter[0]` of lines 188-206, the level before it being `level`. -/
def letterLevel (level : Level) (letter : Char) : Level :=
  if letter = 'f' then L_fatal
  else if letter = 'a' then L_alert
  else if letter = 'c' then L_critical
  else if letter = 'e' then L_error
  else if letter = 'w' then L_warning
  else if letter = 'n' then L_notice
  else if letter = 'i' then L_info
  else if letter = 'd' then L_debug
  else level

/-- Lines 183-207 of `Write`: the buffer and the level after the pattern was applied; `none`
is the run-time panic of indexing an empty `m[2]`. -/
def stripLevel (U : UnicodeTables) (buf : List Char) : Option (List Char × Level) :=
  let m := FindSubmatch U msgLevelCheck buf
  if m.length = 3 then
    match m.getD 2 [] with
    | [] => none
    | x :: _ => some (replaceFirst buf (m.getD 1 []) [], letterLevel L_notice x.toLower)
  else some (buf, L_notice)

/-- What a call of `Write` leaves behind: the outcome of its dispatch, and the returned
`(ln, err)`, which is `none` when the process exited at line 212. -/
structure WriteResult where
  out : Outcome
  ret : Option (Nat × Option Error)
deriving DecidableEq, Repr

/-- Go: `(*logger).Write`; `none` is a run-time panic. -/
def Write (U : UnicodeTables) (F : Fmt) (st : State) (env : Env) (buf : List Char) :
    Option WriteResult :=
  match stripLevel U buf with
  | none => none
  | some (buf1, level) =>
    let ln := byteLen buf1
    let o := outputMessage F st env "" [Arg.str (String.mk (TrimSpace buf1))] level 4
    if level = L_fatal then some ⟨o, none⟩ else some ⟨o, some (ln, o.err)⟩


/-! ## Sequences of calls -/

/-- A call of the package that changes its state: a dispatch or a configuration call. -/
inductive Op where
  | output (d : Dispatch)
  | initSyslog (tag : String) (level : Level) (dial : Option Error)
  | setSyslogLevel (level : Level)
  | initFile (file : String) (level : Level)
  | setConsoleLevel (level : Level)
  | setMaxMessagesPerSecond (m : Int)

/-- Is the call `InitFile`. -/
def Op.isInitFile : Op → Bool
  | Op.initFile _ _ => true
  | _ => false

/-- The package state after a call. -/
def Op.apply (F : Fmt) (st : State) : Op → State
  | Op.output d => (d.run F st).state
  | Op.initSyslog tag level dial => (InitSyslog st tag level dial).1
  | Op.setSyslogLevel level => SetSyslogLevel st level
  | Op.initFile file level => InitFile st file level
  | Op.setConsoleLevel level => SetConsoleLevel st level
  | Op.setMaxMessagesPerSecond m => SetMaxMessagesPerSecond st m

/-- The package state after a sequence of calls. -/
def applyOps (F : Fmt) : State → List Op → State
  | st, [] => st
  | st, op :: ops => applyOps F (Op.apply F st op) ops

/-! ## Sample inputs -/

/-- A surrounding in which every sink call succeeds, the clock reads second `sec` and the
caller is line `line` of `log_test.go`. -/
def envAt (sec : Int) (line : Int) : Env where
  now1 := sec
  now2 := sec
  stamp := "2020-02-21 12:34:56 "
  Caller := fun _ => ("/home/user/go/src/log/log_test.go", line)
  consoleErr := none
  syslogErr := none
  openErr := none
  writeErr := none
  closeErr := none

/-- The state `initTempLogFile` of the tests sets up, the file being `/tmp/logTest1`. -/
def testState : State :=
  SetMaxMessagesPerSecond (SetConsoleLevel (InitFile State.init "/tmp/logTest1" L_debug) L_debug) 0

/-- A state with all three thresholds at `Error`, syslog connected and a file registered. -/
def quietState : State :=
  SetConsoleLevel (InitFile (InitSyslog State.init "app" L_error none).1 "/tmp/app.log" L_error)
    L_error

/-- A call `Info(n)` of the tests, made at second `sec` from line `line`. -/
def infoCall (sec : Int) (line : Int) (n : Int) : Dispatch where
  env := envAt sec line
  pattern := ""
  args := [Arg.int n]
  level := L_info
  depth := 2

/-- The call `Error("x")` made while the registered path cannot be opened. -/
def failedOpenCall : Dispatch where
  env := { envAt 5 40 with openErr := some "is a directory" }
  pattern := ""
  args := [Arg.str "x"]
  level := L_error
  depth := 2

/-- The maximum `TestSetMaxMessagesPerSecond` sets. -/
def testMax : Int := 2

/-- The state of `TestSetMaxMessagesPerSecond` before its first message. -/
def limitedState : State := SetMaxMessagesPerSecond testState testMax

/-- The three calls of `TestSetMaxMessagesPerSecond`, made within second 100. -/
def limitedCalls : List Dispatch := [infoCall 100 57 1, infoCall 100 58 2, infoCall 100 59 3]

/-- A plain call at level `level` with the one string argument `msg`, made at second 100
from line `line` of `log_test.go`, every sink call succeeding. -/
def callAt (level : Level) (line : Int) (msg : String) : Dispatch where
  env := envAt 100 line
  pattern := ""
  args := [Arg.str msg]
  level := level
  depth := 2

/-- A state with all three thresholds at `Error`, syslog connected, a file registered and at
most one message per second. -/
def strictState : State := SetMaxMessagesPerSecond quietState 1

/-- A `Debug` call and two `Error` calls, made within second 100 from lines 40 to 42. -/
def mixedCalls : List Dispatch :=
  [callAt L_debug 40 "a", callAt L_error 41 "b", callAt L_error 42 "c"]

/-- The state of the tests after the same `Notice("old")` was made twice from line 30: the
second call was collapsed, `isRepeated` is set. -/
def repeatedState : State :=
  stateAfter goFmt testState [callAt L_notice 30 "old", callAt L_notice 30 "old"]

/-- The state of the tests with a syslog connection, after `Error("x")` from line 40. -/
def syslogState : State :=
  stateAfter goFmt (InitSyslog testState "app" L_debug none).1 [callAt L_error 40 "x"]

/-- A formatted call at level `level` with pattern `%s` and the one string argument `msg`,
made at second 100 from line `line` of `log_test.go`, every sink call succeeding. -/
def callfAt (level : Level) (line : Int) (msg : String) : Dispatch where
  env := envAt 100 line
  pattern := "%s"
  args := [Arg.str msg]
  level := level
  depth := 2

/-- The fourteen calls of `TestInterfaces`, lines 81 to 94 of `log_test.go`. -/
def testInterfacesCalls : List Dispatch :=
  [callfAt L_debug 81 "test", callAt L_debug 82 "test",
   callfAt L_info 83 "test", callAt L_info 84 "test",
   callfAt L_notice 85 "test", callAt L_notice 86 "test",
   callfAt L_warning 87 "test", callAt L_warning 88 "test",
   callfAt L_error 89 "test", callAt L_error 90 "test",
   callfAt L_critical 91 "test", callAt L_critical 92 "test",
   callfAt L_alert 93 "test", callAt L_alert 94 "test"]

/-- The state of the tests after `Debug("test")` was made from line 82. -/
def afterDebug : State := stateAfter goFmt testState [callAt L_debug 82 "test"]

/-- The configuration of the claim on silent messages: console threshold `Error`, no syslog
connection, no file registered, the other thresholds at their default, at most 2 messages a
second, one message already counted in second 100. -/
def silentState : State :=
  { SetMaxMessagesPerSecond (SetConsoleLevel State.init L_error) 2 with
    thisSecond := 100, messagesThisSecond := 1 }

/-- A state of the limiter: at most 2 messages a second, second 0 stored. -/
def clockState : State := SetMaxMessagesPerSecond State.init 2

/-! ## The entry points of interface.go and the end-to-end scenario -/

/-- Go, interface.go: the formatted entry point of a level, `Debugf(pattern, args...)` and
the like: `outputMessage(pattern, args, level, 2)`. -/
def formatCall (env : Env) (level : Level) (pattern : String) (args : List Arg) : Dispatch where
  env := env
  pattern := pattern
  args := args
  level := level
  depth := 2

/-- Go, interface.go: the plain entry point of a level, `Debug(args...)` and the like:
`outputMessage("", args, level, 2)`. -/
def plainCall (env : Env) (level : Level) (args : List Arg) : Dispatch where
  env := env
  pattern := ""
  args := args
  level := level
  depth := 2

/-- The fourteen calls of `TestInterfaces` (log_test.go 81-94) with message `msg`, the
`i`-th made in the surrounding `envs i`. -/
def interfacesCalls (envs : Nat → Env) (msg : String) : List Dispatch :=
  [formatCall (envs 0) L_debug "%s" [Arg.str msg], plainCall (envs 1) L_debug [Arg.str msg],
   formatCall (envs 2) L_info "%s" [Arg.str msg], plainCall (envs 3) L_info [Arg.str msg],
   formatCall (envs 4) L_notice "%s" [Arg.str msg], plainCall (envs 5) L_notice [Arg.str msg],
   formatCall (envs 6) L_warning "%s" [Arg.str msg], plainCall (envs 7) L_warning [Arg.str msg],
   formatCall (envs 8) L_error "%s" [Arg.str msg], plainCall (envs 9) L_error [Arg.str msg],
   formatCall (envs 10) L_critical "%s" [Arg.str msg],
   plainCall (envs 11) L_critical [Arg.str msg],
   formatCall (envs 12) L_alert "%s" [Arg.str msg], plainCall (envs 13) L_alert [Arg.str msg]]

/-- The text a file write puts into the file. -/
def Effect.written : Effect → Option String
  | Effect.fileWrite _ m => some m
  | _ => none

/-- What a sequence of calls wrote into the log file, in order. -/
def fileLines : List Outcome → List String
  | [] => []
  | o :: os => o.effects.filterMap Effect.written ++ fileLines os

/-- Spec wording, the line format of a full line:
`<timestamp>[LevelName] file:line - message` and a line feed. -/
def fullLine (stamp name file : String) (line : Int) (msg : String) : String :=
  stamp ++ ("[" ++ name ++ "] " ++ file ++ ":" ++ toString line ++ " - " ++ msg ++ "\n")
/-! ## Frame and shape lemmas for the pipeline -/

theorem checkMessagesLimit_frame (st : State) (a b : Int) :
    (checkMessagesLimit st a b).2.sys = st.sys ∧
    (checkMessagesLimit st a b).2.maxConsoleLevel = st.maxConsoleLevel ∧
    (checkMessagesLimit st a b).2.maxSyslogLevel = st.maxSyslogLevel ∧
    (checkMessagesLimit st a b).2.maxFileLevel = st.maxFileLevel ∧
    (checkMessagesLimit st a b).2.maxMessagesPerSecond = st.maxMessagesPerSecond ∧
    (checkMessagesLimit st a b).2.logFile = st.logFile ∧
    (checkMessagesLimit st a b).2.lastMessage = st.lastMessage ∧
    (checkMessagesLimit st a b).2.isRepeated = st.isRepeated := by
  unfold checkMessagesLimit
  split_ifs <;> simp

theorem collapse_frame (st : State) (stamp text : String) :
    (collapse st stamp text).2.sys = st.sys ∧
    (collapse st stamp text).2.maxConsoleLevel = st.maxConsoleLevel ∧
    (collapse st stamp text).2.maxSyslogLevel = st.maxSyslogLevel ∧
    (collapse st stamp text).2.maxFileLevel = st.maxFileLevel ∧
    (collapse st stamp text).2.maxMessagesPerSecond = st.maxMessagesPerSecond ∧
    (collapse st stamp text).2.logFile = st.logFile ∧
    (collapse st stamp text).2.thisSecond = st.thisSecond ∧
    (collapse st stamp text).2.messagesThisSecond = st.messagesThisSecond := by
  unfold collapse
  split_ifs <;> simp

theorem mem_fileSink {st : State} {env : Env} {L : Level} {msg : String} {pre : List Effect}
    {e : Effect} (h : e ∈ (fileSink st env L msg pre).effects) :
    e ∈ pre ∨ ((st.logFile ≠ "" ∧ L ≤ st.maxFileLevel) ∧
      (e = Effect.fileOpen st.logFile ∨ e = Effect.fileWrite st.logFile msg ∨
        e = Effect.fileClose st.logFile)) := by
  unfold fileSink at h
  split_ifs at h with hc
  · rcases ho : env.openErr with _ | eo
    · rcases hw : env.writeErr with _ | ew
      · simp only [ho, hw, List.mem_append, List.mem_cons, List.mem_singleton,
          List.not_mem_nil, or_false] at h
        tauto
      · simp only [ho, hw, List.mem_append, List.mem_cons, List.mem_singleton,
          List.not_mem_nil, or_false] at h
        tauto
    · simp only [ho, List.mem_append, List.mem_singleton] at h
      tauto
  · exact Or.inl h

theorem mem_syslogSink {st : State} {env : Env} {L : Level} {text msg : String}
    {pre : List Effect} {e : Effect} (h : e ∈ (syslogSink st env L text msg pre).effects) :
    e ∈ pre ∨ ((st.sys = true ∧ L ≤ st.maxSyslogLevel) ∧ e = Effect.syslog (syslogSeverity L) text) ∨
    ((st.logFile ≠ "" ∧ L ≤ st.maxFileLevel) ∧
      (e = Effect.fileOpen st.logFile ∨ e = Effect.fileWrite st.logFile msg ∨
        e = Effect.fileClose st.logFile)) := by
  unfold syslogSink at h
  split_ifs at h with hc
  · rcases hs : env.syslogErr with _ | es
    · simp only [hs] at h
      rcases mem_fileSink h with h1 | h1
      · simp only [List.mem_append, List.mem_singleton] at h1
        tauto
      · tauto
    · simp only [hs, List.mem_append, List.mem_singleton] at h
      tauto
  · rcases mem_fileSink h with h1 | h1 <;> tauto

theorem mem_consoleSink {st : State} {env : Env} {L : Level} {text msg : String}
    {e : Effect} (h : e ∈ (consoleSink st env L text msg).effects) :
    (L ≤ st.maxConsoleLevel ∧
      e = (if L ≤ L_warning then Effect.stderr msg else Effect.stdout msg)) ∨
    ((st.sys = true ∧ L ≤ st.maxSyslogLevel) ∧ e = Effect.syslog (syslogSeverity L) text) ∨
    ((st.logFile ≠ "" ∧ L ≤ st.maxFileLevel) ∧
      (e = Effect.fileOpen st.logFile ∨ e = Effect.fileWrite st.logFile msg ∨
        e = Effect.fileClose st.logFile)) := by
  unfold consoleSink at h
  by_cases hc : L ≤ st.maxConsoleLevel
  · rw [if_pos hc] at h
    rcases hs : env.consoleErr with _ | es
    · simp only [hs] at h
      rcases mem_syslogSink h with h1 | h1
      · simp only [List.mem_singleton] at h1
        exact Or.inl ⟨hc, h1⟩
      · exact Or.inr h1
    · simp only [hs, List.mem_singleton] at h
      exact Or.inl ⟨hc, h⟩
  · rw [if_neg hc] at h
    rcases mem_syslogSink h with h1 | h1
    · simp at h1
    · exact Or.inr h1

theorem line_fileSink (st : State) (env : Env) (L : Level) (msg : String) (pre : List Effect) :
    (fileSink st env L msg pre).line = some msg := by
  unfold fileSink
  split_ifs
  · rcases env.openErr with _ | eo
    · rcases env.writeErr with _ | ew <;> rfl
    · rfl
  · rfl

theorem line_syslogSink (st : State) (env : Env) (L : Level) (text msg : String)
    (pre : List Effect) : (syslogSink st env L text msg pre).line = some msg := by
  unfold syslogSink
  split_ifs
  · rcases env.syslogErr with _ | es
    · exact line_fileSink _ _ _ _ _
    · rfl
  · exact line_fileSink _ _ _ _ _

theorem line_consoleSink (st : State) (env : Env) (L : Level) (text msg : String) :
    (consoleSink st env L text msg).line = some msg := by
  unfold consoleSink
  by_cases hc : L ≤ st.maxConsoleLevel
  · rw [if_pos hc]
    rcases env.consoleErr with _ | es
    · exact line_syslogSink _ _ _ _ _ _
    · rfl
  · rw [if_neg hc]
    exact line_syslogSink _ _ _ _ _ _

/-- The three ways a call of `outputMessage` ends. -/
theorem outputMessage_cases (F : Fmt) (st : State) (env : Env) (pattern : String)
    (args : List Arg) (L : Level) (depth : Nat) :
    (ignored st L ∧ outputMessage F st env pattern args L depth = ⟨st, [], none, none⟩) ∨
    (¬ ignored st L ∧ (checkMessagesLimit st env.now1 env.now2).1 = true ∧
      outputMessage F st env pattern args L depth = ⟨st, [], none, none⟩) ∨
    (¬ ignored st L ∧ (checkMessagesLimit st env.now1 env.now2).1 = false ∧
      outputMessage F st env pattern args L depth =
        consoleSink
          (collapse (checkMessagesLimit st env.now1 env.now2).2 env.stamp
            (getText F args pattern L (shortName (env.Caller depth).1) (env.Caller depth).2)).2
          env L (getText F args pattern L (shortName (env.Caller depth).1) (env.Caller depth).2)
          (collapse (checkMessagesLimit st env.now1 env.now2).2 env.stamp
            (getText F args pattern L (shortName (env.Caller depth).1)
              (env.Caller depth).2)).1) := by
  unfold outputMessage
  by_cases hi : ignored st L
  · exact Or.inl ⟨hi, by rw [if_pos hi]⟩
  · rw [if_neg hi]
    rcases hc : checkMessagesLimit st env.now1 env.now2 with ⟨b, st1⟩
    cases b
    · exact Or.inr (Or.inr ⟨hi, rfl, rfl⟩)
    · refine Or.inr (Or.inl ⟨hi, rfl, ?_⟩)
      have : st1 = st := by
        unfold checkMessagesLimit at hc
        split_ifs at hc <;> simp_all
      simp [this]

/-- Every sink call of `outputMessage` is one of the three the source makes, under the
guard of its sink; the payload of a console or file write is the `line` of the outcome. -/
theorem mem_outputMessage {F : Fmt} {st : State} {env : Env} {pattern : String}
    {args : List Arg} {L : Level} {depth : Nat} {e : Effect}
    (h : e ∈ (outputMessage F st env pattern args L depth).effects) :
    ∃ msg, (outputMessage F st env pattern args L depth).line = some msg ∧
    ((L ≤ st.maxConsoleLevel ∧
      e = (if L ≤ L_warning then Effect.stderr msg else Effect.stdout msg)) ∨
    ((st.sys = true ∧ L ≤ st.maxSyslogLevel) ∧
      e = Effect.syslog (syslogSeverity L)
        (getText F args pattern L (shortName (env.Caller depth).1) (env.Caller depth).2)) ∨
    ((st.logFile ≠ "" ∧ L ≤ st.maxFileLevel) ∧
      (e = Effect.fileOpen st.logFile ∨ e = Effect.fileWrite st.logFile msg ∨
        e = Effect.fileClose st.logFile))) := by
  rcases outputMessage_cases F st env pattern args L depth with ⟨_, h1⟩ | ⟨_, _, h1⟩ | ⟨_, _, h1⟩
  · rw [h1] at h; simp at h
  · rw [h1] at h; simp at h
  · rw [h1] at h ⊢
    refine ⟨_, line_consoleSink _ _ _ _ _, ?_⟩
    have hf := collapse_frame (checkMessagesLimit st env.now1 env.now2).2 env.stamp
      (getText F args pattern L (shortName (env.Caller depth).1) (env.Caller depth).2)
    have hg := checkMessagesLimit_frame st env.now1 env.now2
    have := mem_consoleSink h
    simp only [hf.1, hf.2.1, hf.2.2.1, hf.2.2.2.1, hf.2.2.2.2.2.1, hg.1, hg.2.1, hg.2.2.1,
      hg.2.2.2.1, hg.2.2.2.2.2.1] at this
    exact this


theorem syslog_fileSink (st : State) (env : Env) (L : Level) (msg : String) (pre : List Effect) :
    (fileSink st env L msg pre).effects.filter Effect.isSyslog = pre.filter Effect.isSyslog := by
  unfold fileSink
  split_ifs
  · rcases env.openErr with _ | eo
    · rcases env.writeErr with _ | ew <;> simp [Effect.isSyslog]
    · simp [Effect.isSyslog]
  · rfl

theorem syslog_syslogSink (st : State) (env : Env) (L : Level) (text msg : String)
    (pre : List Effect) :
    (syslogSink st env L text msg pre).effects.filter Effect.isSyslog =
      pre.filter Effect.isSyslog ++
        (if st.sys = true ∧ L ≤ st.maxSyslogLevel then [Effect.syslog (syslogSeverity L) text]
         else []) := by
  unfold syslogSink
  split_ifs with hc
  · rcases env.syslogErr with _ | es
    · simp [syslog_fileSink, Effect.isSyslog]
    · simp [Effect.isSyslog]
  · simp [syslog_fileSink]

theorem syslog_consoleSink (st : State) (env : Env) (L : Level) (text msg : String)
    (hc : L ≤ st.maxConsoleLevel → env.consoleErr = none) :
    (consoleSink st env L text msg).effects.filter Effect.isSyslog =
      (if st.sys = true ∧ L ≤ st.maxSyslogLevel then [Effect.syslog (syslogSeverity L) text]
       else []) := by
  unfold consoleSink
  by_cases h : L ≤ st.maxConsoleLevel
  · rw [if_pos h, hc h]
    simp only [syslog_syslogSink]
    split_ifs <;> simp [Effect.isSyslog]
  · rw [if_neg h]
    simp [syslog_syslogSink]

theorem state_fileSink (st : State) (env : Env) (L : Level) (msg : String) (pre : List Effect) :
    (fileSink st env L msg pre).state = st ∨
    (fileSink st env L msg pre).state = { st with logFile := "" } := by
  unfold fileSink
  split_ifs
  · rcases env.openErr with _ | eo
    · rcases env.writeErr with _ | ew
      · exact Or.inl rfl
      · exact Or.inr rfl
    · exact Or.inr rfl
  · exact Or.inl rfl

theorem state_syslogSink (st : State) (env : Env) (L : Level) (text msg : String)
    (pre : List Effect) :
    (syslogSink st env L text msg pre).state = st ∨
    (syslogSink st env L text msg pre).state = { st with logFile := "" } := by
  unfold syslogSink
  split_ifs
  · rcases env.syslogErr with _ | es
    · exact state_fileSink _ _ _ _ _
    · exact Or.inl rfl
  · exact state_fileSink _ _ _ _ _

theorem state_consoleSink (st : State) (env : Env) (L : Level) (text msg : String) :
    (consoleSink st env L text msg).state = st ∨
    (consoleSink st env L text msg).state = { st with logFile := "" } := by
  unfold consoleSink
  by_cases hc : L ≤ st.maxConsoleLevel
  · rw [if_pos hc]
    rcases env.consoleErr with _ | es
    · exact state_syslogSink _ _ _ _ _ _
    · exact Or.inl rfl
  · rw [if_neg hc]
    exact state_syslogSink _ _ _ _ _ _

/-- The fields `outputMessage` never assigns. -/
theorem outputMessage_config (F : Fmt) (st : State) (env : Env) (pattern : String)
    (args : List Arg) (L : Level) (depth : Nat) :
    (outputMessage F st env pattern args L depth).state.sys = st.sys ∧
    (outputMessage F st env pattern args L depth).state.maxConsoleLevel = st.maxConsoleLevel ∧
    (outputMessage F st env pattern args L depth).state.maxSyslogLevel = st.maxSyslogLevel ∧
    (outputMessage F st env pattern args L depth).state.maxFileLevel = st.maxFileLevel ∧
    (outputMessage F st env pattern args L depth).state.maxMessagesPerSecond =
      st.maxMessagesPerSecond := by
  rcases outputMessage_cases F st env pattern args L depth with ⟨_, h1⟩ | ⟨_, _, h1⟩ | ⟨_, _, h1⟩
  · rw [h1]; simp
  · rw [h1]; simp
  · rw [h1]
    have hf := collapse_frame (checkMessagesLimit st env.now1 env.now2).2 env.stamp
      (getText F args pattern L (shortName (env.Caller depth).1) (env.Caller depth).2)
    have hg := checkMessagesLimit_frame st env.now1 env.now2
    rcases state_consoleSink (collapse (checkMessagesLimit st env.now1 env.now2).2 env.stamp
      (getText F args pattern L (shortName (env.Caller depth).1) (env.Caller depth).2)).2 env L
      (getText F args pattern L (shortName (env.Caller depth).1) (env.Caller depth).2)
      (collapse (checkMessagesLimit st env.now1 env.now2).2 env.stamp
      (getText F args pattern L (shortName (env.Caller depth).1) (env.Caller depth).2)).1
      with h | h <;> rw [h] <;> simp only [hf.1, hf.2.1, hf.2.2.1, hf.2.2.2.1, hf.2.2.2.2.1,
        hg.1, hg.2.1, hg.2.2.1, hg.2.2.2.1, hg.2.2.2.2.1, and_self]

/-- The rate-limit and repeat state after a call that got past the pre-check and the limiter. -/
theorem outputMessage_admitted_state (F : Fmt) (st : State) (env : Env) (pattern : String)
    (args : List Arg) (L : Level) (depth : Nat) (hi : ¬ ignored st L)
    (hc : (checkMessagesLimit st env.now1 env.now2).1 = false) :
    (outputMessage F st env pattern args L depth).state.thisSecond =
      (checkMessagesLimit st env.now1 env.now2).2.thisSecond ∧
    (outputMessage F st env pattern args L depth).state.messagesThisSecond =
      (checkMessagesLimit st env.now1 env.now2).2.messagesThisSecond ∧
    (outputMessage F st env pattern args L depth).state.lastMessage =
      getText F args pattern L (shortName (env.Caller depth).1) (env.Caller depth).2 ∧
    (outputMessage F st env pattern args L depth).state.isRepeated =
      (collapse (checkMessagesLimit st env.now1 env.now2).2 env.stamp
        (getText F args pattern L (shortName (env.Caller depth).1)
          (env.Caller depth).2)).2.isRepeated ∧
    (outputMessage F st env pattern args L depth).line =
      some (collapse (checkMessagesLimit st env.now1 env.now2).2 env.stamp
        (getText F args pattern L (shortName (env.Caller depth).1) (env.Caller depth).2)).1 := by
  rcases outputMessage_cases F st env pattern args L depth with ⟨h0, _⟩ | ⟨_, h0, _⟩ | ⟨_, _, h1⟩
  · exact absurd h0 hi
  · rw [hc] at h0; exact absurd h0 (by simp)
  · rw [h1]
    have hf := collapse_frame (checkMessagesLimit st env.now1 env.now2).2 env.stamp
      (getText F args pattern L (shortName (env.Caller depth).1) (env.Caller depth).2)
    have hl : (collapse (checkMessagesLimit st env.now1 env.now2).2 env.stamp
        (getText F args pattern L (shortName (env.Caller depth).1)
          (env.Caller depth).2)).2.lastMessage =
        getText F args pattern L (shortName (env.Caller depth).1) (env.Caller depth).2 := by
      unfold collapse
      split_ifs with h1 h2
      · rfl
      · rfl
      · exact (not_not.mp h1).symm
    refine ⟨?_, ?_, ?_, ?_, line_consoleSink _ _ _ _ _⟩ <;>
    rcases state_consoleSink (collapse (checkMessagesLimit st env.now1 env.now2).2 env.stamp
      (getText F args pattern L (shortName (env.Caller depth).1) (env.Caller depth).2)).2 env L
      (getText F args pattern L (shortName (env.Caller depth).1) (env.Caller depth).2)
      (collapse (checkMessagesLimit st env.now1 env.now2).2 env.stamp
      (getText F args pattern L (shortName (env.Caller depth).1) (env.Caller depth).2)).1
      with h | h <;> rw [h] <;> simp only [hf.2.2.2.2.2.2.1, hf.2.2.2.2.2.2.2, hl]

/-- A call that returns at the pre-check or at the limiter changes nothing. -/
theorem outputMessage_dropped (F : Fmt) (st : State) (env : Env) (pattern : String)
    (args : List Arg) (L : Level) (depth : Nat)
    (h : ignored st L ∨ (checkMessagesLimit st env.now1 env.now2).1 = true) :
    outputMessage F st env pattern args L depth = ⟨st, [], none, none⟩ := by
  rcases outputMessage_cases F st env pattern args L depth with ⟨_, h1⟩ | ⟨_, _, h1⟩ | ⟨h0, h2, _⟩
  · exact h1
  · exact h1
  · rcases h with h | h
    · exact absurd h h0
    · rw [h2] at h; exact absurd h (by simp)

theorem state_logFile_consoleSink (st : State) (env : Env) (L : Level) (text msg : String) :
    (consoleSink st env L text msg).state.logFile = st.logFile ∨
    (consoleSink st env L text msg).state.logFile = "" := by
  rcases state_consoleSink st env L text msg with h | h <;> rw [h] <;> simp

theorem err_fileSink_nofile (st : State) (env : Env) (L : Level) (msg : String)
    (pre : List Effect) (h : st.logFile = "") : (fileSink st env L msg pre).err = none := by
  unfold fileSink
  rw [if_neg (fun hc => hc.1 h)]

theorem err_syslogSink_nofile (st : State) (env : Env) (L : Level) (text msg : String)
    (pre : List Effect) (h : st.logFile = "") :
    (syslogSink st env L text msg pre).err = none ∨
    (syslogSink st env L text msg pre).err = env.syslogErr := by
  unfold syslogSink
  split_ifs
  · rcases hs : env.syslogErr with _ | es
    · exact Or.inl (err_fileSink_nofile _ _ _ _ _ h)
    · exact Or.inr rfl
  · exact Or.inl (err_fileSink_nofile _ _ _ _ _ h)

theorem err_consoleSink_nofile (st : State) (env : Env) (L : Level) (text msg : String)
    (h : st.logFile = "") :
    (consoleSink st env L text msg).err = none ∨
    (consoleSink st env L text msg).err = env.consoleErr ∨
    (consoleSink st env L text msg).err = env.syslogErr := by
  unfold consoleSink
  by_cases hc : L ≤ st.maxConsoleLevel
  · rw [if_pos hc]
    rcases hs : env.consoleErr with _ | es
    · rcases err_syslogSink_nofile st env L text msg
        [if L ≤ L_warning then Effect.stderr msg else Effect.stdout msg] h with h1 | h1
      · exact Or.inl h1
      · exact Or.inr (Or.inr h1)
    · exact Or.inr (Or.inl rfl)
  · rw [if_neg hc]
    rcases err_syslogSink_nofile st env L text msg [] h with h1 | h1
    · exact Or.inl h1
    · exact Or.inr (Or.inr h1)

/-- With no file registered, a call opens no file, returns the error of the console or of
syslog if any, and leaves no file registered. -/
theorem outputMessage_no_file (F : Fmt) (st : State) (env : Env) (pattern : String)
    (args : List Arg) (L : Level) (depth : Nat) (h : st.logFile = "") :
    (∀ e ∈ (outputMessage F st env pattern args L depth).effects, e.isFile = false) ∧
    ((outputMessage F st env pattern args L depth).err = none ∨
      (outputMessage F st env pattern args L depth).err = env.consoleErr ∨
      (outputMessage F st env pattern args L depth).err = env.syslogErr) ∧
    (outputMessage F st env pattern args L depth).state.logFile = "" := by
  refine ⟨?_, ?_, ?_⟩
  · intro e he
    obtain ⟨msg, -, h1⟩ := mem_outputMessage he
    rcases h1 with ⟨_, rfl⟩ | ⟨_, rfl⟩ | ⟨h2, _⟩
    · split_ifs <;> rfl
    · rfl
    · exact absurd h h2.1
  · rcases outputMessage_cases F st env pattern args L depth with ⟨_, h1⟩ | ⟨_, _, h1⟩ | ⟨_, _, h1⟩
    · rw [h1]; exact Or.inl rfl
    · rw [h1]; exact Or.inl rfl
    · rw [h1]
      have hf := collapse_frame (checkMessagesLimit st env.now1 env.now2).2 env.stamp
        (getText F args pattern L (shortName (env.Caller depth).1) (env.Caller depth).2)
      have hg := checkMessagesLimit_frame st env.now1 env.now2
      exact err_consoleSink_nofile _ _ _ _ _ (by rw [hf.2.2.2.2.2.1, hg.2.2.2.2.2.1, h])
  · rcases outputMessage_cases F st env pattern args L depth with ⟨_, h1⟩ | ⟨_, _, h1⟩ | ⟨_, _, h1⟩
    · rw [h1]; exact h
    · rw [h1]; exact h
    · rw [h1]
      have hf := collapse_frame (checkMessagesLimit st env.now1 env.now2).2 env.stamp
        (getText F args pattern L (shortName (env.Caller depth).1) (env.Caller depth).2)
      have hg := checkMessagesLimit_frame st env.now1 env.now2
      rcases state_logFile_consoleSink (collapse (checkMessagesLimit st env.now1 env.now2).2
        env.stamp (getText F args pattern L (shortName (env.Caller depth).1)
          (env.Caller depth).2)).2 env L
        (getText F args pattern L (shortName (env.Caller depth).1) (env.Caller depth).2)
        (collapse (checkMessagesLimit st env.now1 env.now2).2 env.stamp
        (getText F args pattern L (shortName (env.Caller depth).1) (env.Caller depth).2)).1
        with h2 | h2
      · rw [h2, hf.2.2.2.2.2.1, hg.2.2.2.2.2.1, h]
      · exact h2

/-- Calls other than `InitFile` leave an unregistered file unregistered. -/
theorem applyOps_no_file (F : Fmt) (ops : List Op) :
    ∀ st : State, st.logFile = "" → (∀ op ∈ ops, op.isInitFile = false) →
      (applyOps F st ops).logFile = "" := by
  induction ops with
  | nil => intro st h _; exact h
  | cons op ops ih =>
    intro st h hops
    apply ih
    · have hop := hops op (List.mem_cons_self _ _)
      cases op with
      | output d => exact (outputMessage_no_file F st d.env d.pattern d.args d.level d.depth h).2.2
      | initSyslog tag level dial => exact h
      | setSyslogLevel level => exact h
      | initFile file level => simp [Op.isInitFile] at hop
      | setConsoleLevel level => exact h
      | setMaxMessagesPerSecond m => exact h
    · intro op' hop'
      exact hops op' (List.mem_cons_of_mem _ hop')

/-- The file sink when it is reached with a failing open or write. -/
theorem fileSink_failure (st : State) (env : Env) (L : Level) (msg : String) (pre : List Effect)
    (e : Error) (hreg : st.logFile ≠ "") (hL : L ≤ st.maxFileLevel)
    (hfail : env.openErr = some e ∨ (env.openErr = none ∧ env.writeErr = some e)) :
    (fileSink st env L msg pre).err = some e ∧ (fileSink st env L msg pre).state.logFile = "" := by
  unfold fileSink
  rw [if_pos ⟨hreg, hL⟩]
  rcases hfail with h | ⟨h1, h2⟩
  · simp [h]
  · simp [h1, h2]

theorem reach_syslogSink (st : State) (env : Env) (L : Level) (text msg : String)
    (pre : List Effect) (hpre : ∀ e ∈ pre, e.isFile = false) (e : Effect) (he : e.isFile = true)
    (hmem : e ∈ (syslogSink st env L text msg pre).effects) :
    ∃ pre1, syslogSink st env L text msg pre = fileSink st env L msg pre1 := by
  unfold syslogSink at hmem ⊢
  split_ifs at hmem ⊢ with hc
  · rcases hs : env.syslogErr with _ | es
    · exact ⟨_, rfl⟩
    · simp only [hs, List.mem_append, List.mem_singleton] at hmem
      rcases hmem with h | h
      · rw [hpre e h] at he; exact absurd he (by simp)
      · rw [h] at he; exact absurd he (by simp [Effect.isFile])
  · exact ⟨_, rfl⟩

theorem reach_consoleSink (st : State) (env : Env) (L : Level) (text msg : String)
    (e : Effect) (he : e.isFile = true) (hmem : e ∈ (consoleSink st env L text msg).effects) :
    ∃ pre1, consoleSink st env L text msg = fileSink st env L msg pre1 := by
  unfold consoleSink at hmem ⊢
  by_cases hc : L ≤ st.maxConsoleLevel
  · rw [if_pos hc] at hmem ⊢
    rcases hs : env.consoleErr with _ | es
    · simp only [hs] at hmem ⊢
      refine reach_syslogSink st env L text msg _ ?_ e he hmem
      intro e1 he1
      simp only [List.mem_singleton] at he1
      rw [he1]; split_ifs <;> rfl
    · simp only [hs, List.mem_singleton] at hmem
      rw [hmem] at he
      split_ifs at he <;> exact absurd he (by simp [Effect.isFile])
  · rw [if_neg hc] at hmem ⊢
    exact reach_syslogSink st env L text msg [] (by simp) e he hmem

theorem ignored_congr {st st1 : State} {L : Level}
    (h1 : st1.maxConsoleLevel = st.maxConsoleLevel) (h2 : st1.maxSyslogLevel = st.maxSyslogLevel)
    (h3 : st1.maxFileLevel = st.maxFileLevel) : ignored st1 L ↔ ignored st L := by
  unfold ignored
  rw [h1, h2, h3]

/-- The limiter inside one clock second `s`: `c` messages got through so far (`c = 0` when
the stored second is not `s` yet). The dispatch at position `i` that passes the pre-check is
let through iff fewer than `N` passed the pre-check and the limiter before it. -/
theorem limiter_window (F : Fmt) (st0 : State) (N s : Int) (hN : 1 ≤ N) :
    ∀ (ds : List Dispatch) (st : State) (c : Int),
      st.maxMessagesPerSecond = N →
      st.maxConsoleLevel = st0.maxConsoleLevel → st.maxSyslogLevel = st0.maxSyslogLevel →
      st.maxFileLevel = st0.maxFileLevel →
      ((c = 0 ∧ st.thisSecond ≠ s) ∨
        (1 ≤ c ∧ c ≤ N ∧ st.thisSecond = s ∧ st.messagesThisSecond = c)) →
      (∀ d ∈ ds, d.env.now1 = s ∧ d.env.now2 = s) →
      ∀ (i : Nat) (d : Dispatch) (o : Outcome), ds[i]? = some d →
        (runDispatches F st ds)[i]? = some o → ¬ ignored st0 d.level →
        (c + ((ds.take i).countP fun d1 => !decide (ignored st0 d1.level) : Nat) < N →
          o.line ≠ none) ∧
        (N ≤ c + ((ds.take i).countP fun d1 => !decide (ignored st0 d1.level) : Nat) →
          o.line = none ∧ o.effects = [] ∧ o.err = none) := by
  intro ds
  induction ds with
  | nil => intro st c _ _ _ _ _ _ i d o hd; simp at hd
  | cons d0 ds ih =>
    intro st c hmax ht1 ht2 ht3 hinv hclock i d o hd ho hpass
    have hc0 := hclock d0 (List.mem_cons_self _ _)
    have hclock1 : ∀ d ∈ ds, d.env.now1 = s ∧ d.env.now2 = s :=
      fun d hd => hclock d (List.mem_cons_of_mem _ hd)
    cases i with
    | zero =>
      simp only [List.getElem?_cons_zero, Option.some.injEq] at hd
      simp only [runDispatches, List.getElem?_cons_zero, Option.some.injEq] at ho
      subst hd
      subst ho
      have hpass1 : ¬ ignored st d0.level := fun h => hpass ((ignored_congr ht1 ht2 ht3).mp h)
      simp only [List.take_zero, List.countP_nil, Nat.cast_zero, add_zero]
      unfold Dispatch.run
      constructor
      · intro hlt
        have hadm : (checkMessagesLimit st d0.env.now1 d0.env.now2).1 = false := by
          unfold checkMessagesLimit
          rw [hc0.1, hc0.2]
          split_ifs <;> first | rfl | omega
        rw [(outputMessage_admitted_state F st d0.env d0.pattern d0.args d0.level d0.depth
          hpass1 hadm).2.2.2.2]
        simp
      · intro hge
        have hdrop : (checkMessagesLimit st d0.env.now1 d0.env.now2).1 = true := by
          unfold checkMessagesLimit
          rw [hc0.1, hc0.2]
          split_ifs <;> first | rfl | omega
        rw [outputMessage_dropped F st d0.env d0.pattern d0.args d0.level d0.depth
          (Or.inr hdrop)]
        exact ⟨rfl, rfl, rfl⟩
    | succ i =>
      simp only [List.getElem?_cons_succ] at hd
      simp only [runDispatches, List.getElem?_cons_succ] at ho
      have hcfg := outputMessage_config F st d0.env d0.pattern d0.args d0.level d0.depth
      simp only [List.take_succ_cons, List.countP_cons]
      by_cases hig : ignored st0 d0.level
      · have hst : (d0.run F st).state = st := by
          unfold Dispatch.run
          rw [outputMessage_dropped F st d0.env d0.pattern d0.args d0.level d0.depth
            (Or.inl ((ignored_congr ht1 ht2 ht3).mpr hig))]
        rw [hst] at ho
        have := ih st c hmax ht1 ht2 ht3 hinv hclock1 i d o hd ho hpass
        simpa [hig] using this
      · have hpass1 : ¬ ignored st d0.level := fun h => hig ((ignored_congr ht1 ht2 ht3).mp h)
        by_cases hlt : c < N
        · have hadm : (checkMessagesLimit st d0.env.now1 d0.env.now2).1 = false := by
            unfold checkMessagesLimit
            rw [hc0.1, hc0.2]
            split_ifs <;> first | rfl | omega
          have hst := outputMessage_admitted_state F st d0.env d0.pattern d0.args d0.level
            d0.depth hpass1 hadm
          have hlim : (checkMessagesLimit st d0.env.now1 d0.env.now2).2.thisSecond = s ∧
              (checkMessagesLimit st d0.env.now1 d0.env.now2).2.messagesThisSecond = c + 1 := by
            unfold checkMessagesLimit
            rw [hc0.1, hc0.2]
            split_ifs <;> simp <;> omega
          have := ih (d0.run F st).state (c + 1) (hcfg.2.2.2.2.trans hmax)
            (hcfg.2.1.trans ht1) (hcfg.2.2.1.trans ht2) (hcfg.2.2.2.1.trans ht3)
            (Or.inr ⟨by omega, by omega, hst.1.trans hlim.1, hst.2.1.trans hlim.2⟩)
            hclock1 i d o hd ho hpass
          simp only [hig, decide_False, Bool.not_false, if_true, Nat.cast_add, Nat.cast_one]
          constructor
          · intro h; exact this.1 (by omega)
          · intro h; exact this.2 (by omega)
        · have hdrop : (checkMessagesLimit st d0.env.now1 d0.env.now2).1 = true := by
            unfold checkMessagesLimit
            rw [hc0.1, hc0.2]
            split_ifs <;> first | rfl | omega
          have hst : (d0.run F st).state = st := by
            unfold Dispatch.run
            rw [outputMessage_dropped F st d0.env d0.pattern d0.args d0.level d0.depth
              (Or.inr hdrop)]
          rw [hst] at ho
          have := ih st c hmax ht1 ht2 ht3 hinv hclock1 i d o hd ho hpass
          simp only [hig, decide_False, Bool.not_false, if_true, Nat.cast_add, Nat.cast_one]
          constructor
          · intro h; omega
          · intro h; exact this.2 (by omega)

theorem runDispatches_append (F : Fmt) (as bs : List Dispatch) :
    ∀ st : State, runDispatches F st (as ++ bs) =
      runDispatches F st as ++ runDispatches F (stateAfter F st as) bs := by
  induction as with
  | nil => intro st; rfl
  | cons a as ih => intro st; simp [runDispatches, stateAfter, ih]

/-- A call that produced a line: the line is what the collapser makes of the repeat state
before the call, and the repeat state after it. -/
theorem admitted_line (F : Fmt) (st : State) (d : Dispatch) (h : (d.run F st).line ≠ none) :
    (d.run F st).line = some (collapse st d.env.stamp (d.text F)).1 ∧
    (d.run F st).state.lastMessage = d.text F ∧
    (d.run F st).state.isRepeated = (collapse st d.env.stamp (d.text F)).2.isRepeated := by
  unfold Dispatch.run at h ⊢
  rcases outputMessage_cases F st d.env d.pattern d.args d.level d.depth with
    ⟨_, h1⟩ | ⟨_, _, h1⟩ | ⟨hi, hc, _⟩
  · rw [h1] at h; exact absurd rfl h
  · rw [h1] at h; exact absurd rfl h
  · have hst := outputMessage_admitted_state F st d.env d.pattern d.args d.level d.depth hi hc
    have hg := checkMessagesLimit_frame st d.env.now1 d.env.now2
    have hcol : ∀ (s1 s2 : State) (stamp text : String), s1.lastMessage = s2.lastMessage →
        s1.isRepeated = s2.isRepeated →
        (collapse s1 stamp text).1 = (collapse s2 stamp text).1 ∧
        (collapse s1 stamp text).2.isRepeated = (collapse s2 stamp text).2.isRepeated := by
      intro s1 s2 stamp text e1 e2
      unfold collapse
      rw [e1, e2]
      split_ifs <;> exact ⟨rfl, rfl⟩
    have hc2 := hcol (checkMessagesLimit st d.env.now1 d.env.now2).2 st d.env.stamp (d.text F)
      hg.2.2.2.2.2.2.1 hg.2.2.2.2.2.2.2
    unfold Dispatch.text at hc2 ⊢
    exact ⟨by rw [hst.2.2.2.2, hc2.1], hst.2.2.1, by rw [hst.2.2.2.1, hc2.2]⟩

/-- A run of calls with the stored text: each is collapsed to `.`. -/
theorem repeat_run (F : Fmt) (t : String) :
    ∀ (ds : List Dispatch) (st : State), st.lastMessage = t → (∀ d ∈ ds, d.text F = t) →
      (∀ o ∈ runDispatches F st ds, o.line ≠ none) →
      (runDispatches F st ds).map Outcome.line = List.replicate ds.length (some ".") ∧
      (stateAfter F st ds).lastMessage = t ∧
      (ds ≠ [] → (stateAfter F st ds).isRepeated = true) := by
  intro ds
  induction ds with
  | nil => intro st h _ _; exact ⟨rfl, h, fun h => absurd rfl h⟩
  | cons d ds ih =>
    intro st hlast htext hadm
    have hd := admitted_line F st d (hadm _ (by simp [runDispatches]))
    have ht : d.text F = t := htext d (List.mem_cons_self _ _)
    have hcol : collapse st d.env.stamp (d.text F) = (".", { st with isRepeated := true }) := by
      unfold collapse
      rw [if_neg (by rw [ht, hlast]; simp)]
    rw [hcol] at hd
    have := ih (d.run F st).state (hd.2.1.trans ht)
      (fun d1 h1 => htext d1 (List.mem_cons_of_mem _ h1))
      (fun o ho => hadm o (by simp [runDispatches, ho]))
    refine ⟨?_, this.2.1, fun _ => ?_⟩
    · simp only [runDispatches, List.map_cons, List.length_cons, List.replicate_succ, hd.1,
        this.1]
    · by_cases hds : ds = []
      · subst hds
        exact hd.2.2
      · exact this.2.2 hds

/-- The payload of a console write and of a file write is the line of the call. -/
theorem payload_is_line (F : Fmt) (st : State) (d : Dispatch) (m : String) :
    (Effect.stderr m ∈ (d.run F st).effects → (d.run F st).line = some m) ∧
    (Effect.stdout m ∈ (d.run F st).effects → (d.run F st).line = some m) ∧
    (∀ p, Effect.fileWrite p m ∈ (d.run F st).effects → (d.run F st).line = some m) := by
  unfold Dispatch.run
  refine ⟨fun h => ?_, fun h => ?_, fun p h => ?_⟩ <;>
  · obtain ⟨msg, hl, h1⟩ := mem_outputMessage h
    rw [hl]
    rcases h1 with ⟨_, h2⟩ | ⟨_, h2⟩ | ⟨_, h2 | h2 | h2⟩
    · split_ifs at h2 <;> simp at h2 <;> simp [h2]
    · simp at h2
    · simp at h2
    · simp at h2 <;> simp [h2]
    · simp at h2

theorem starRun_sound (cls : Char → Bool) (k : Nat → List Char → Caps → Option Caps)
    (c res : Caps) : ∀ (s : List Char) (p : Nat), starRun cls p s c k = some res →
      ∃ m s1, s = m ++ s1 ∧ (∀ x ∈ m, cls x = true) ∧ k (p + m.length) s1 c = some res := by
  intro s
  induction s with
  | nil => intro p h; exact ⟨[], [], rfl, by simp, by simpa [starRun] using h⟩
  | cons x xs ih =>
    intro p h
    unfold starRun at h
    by_cases hx : cls x = true
    · rw [if_pos hx] at h
      rcases hr : starRun cls (p + 1) xs c k with _ | r
      · rw [hr] at h
        exact ⟨[], x :: xs, rfl, by simp, by simpa using h⟩
      · rw [hr] at h
        simp only [Option.some.injEq] at h
        subst h
        obtain ⟨m, s1, hs, hm, hk⟩ := ih (p + 1) hr
        refine ⟨x :: m, s1, by rw [hs]; rfl, ?_, ?_⟩
        · intro y hy
          rcases List.mem_cons.mp hy with rfl | hy
          · exact hx
          · exact hm y hy
        · rw [List.length_cons, ← hk]; congr 1; omega
    · rw [if_neg hx] at h
      exact ⟨[], x :: xs, rfl, by simp, by simpa using h⟩

theorem starRun_greedy (cls : Char → Bool) (k : Nat → List Char → Caps → Option Caps)
    (hk : ∀ p s c, k p s c ≠ none) (c : Caps) : ∀ (s : List Char) (p : Nat),
      starRun cls p s c k = k (p + (s.takeWhile cls).length) (s.dropWhile cls) c := by
  intro s
  induction s with
  | nil => intro p; simp [starRun]
  | cons x xs ih =>
    intro p
    unfold starRun
    by_cases hx : cls x = true
    · rw [if_pos hx, ih (p + 1)]
      rcases hr : k (p + 1 + (xs.takeWhile cls).length) (xs.dropWhile cls) c with _ | r
      · exact absurd hr (hk _ _ _)
      · simp only [List.takeWhile_cons, hx, if_true, List.length_cons, List.dropWhile_cons]
        rw [← hr]; congr 1; omega
    · rw [if_neg hx]
      simp [List.takeWhile_cons, List.dropWhile_cons, hx]

/-- A rune list matches a pattern word letter by letter under case folding. -/
theorem word_sound (U : UnicodeTables) (k : Nat → List Char → Caps → Option Caps)
    (c res : Caps) : ∀ (w : List Char) (s : List Char) (p : Nat),
      (Re.word w).run U p s c k = some res →
      ∃ m s1, s = m ++ s1 ∧ List.Forall₂ (fun a x => foldEq a x = true) w m ∧
        k (p + m.length) s1 c = some res := by
  intro w
  induction w with
  | nil => intro s p h; exact ⟨[], s, rfl, List.Forall₂.nil, by simpa [Re.word, Re.run] using h⟩
  | cons a as ih =>
    intro s p h
    have hchr : ∀ (k1 : Nat → List Char → Caps → Option Caps),
        (Re.chr a).run U p s c k1 = some res →
        ∃ x xs, s = x :: xs ∧ foldEq a x = true ∧ k1 (p + 1) xs c = some res := by
      intro k1 h1
      unfold Re.run at h1
      rcases s with _ | ⟨x, xs⟩
      · simp at h1
      · by_cases hf : foldEq a x = true
        · simp only [hf, if_true] at h1
          exact ⟨x, xs, rfl, hf, h1⟩
        · simp [hf] at h1
    rcases as with _ | ⟨b, bs⟩
    · obtain ⟨x, xs, hs, hf, hk⟩ := hchr k h
      exact ⟨[x], xs, by rw [hs]; rfl, List.Forall₂.cons hf List.Forall₂.nil, hk⟩
    · have h2 : (Re.chr a).run U p s c (fun p1 s1 c1 => (Re.word (b :: bs)).run U p1 s1 c1 k)
          = some res := h
      obtain ⟨x, xs, hs, hf, hk⟩ := hchr _ h2
      obtain ⟨m, s1, hs1, hm, hk1⟩ := ih xs (p + 1) hk
      refine ⟨x :: m, s1, by rw [hs, hs1]; rfl, List.Forall₂.cons hf hm, ?_⟩
      rw [List.length_cons, ← hk1]; congr 1; omega

theorem alts_words_sound (U : UnicodeTables) (k : Nat → List Char → Caps → Option Caps)
    (c res : Caps) (s : List Char) (p : Nat) : ∀ (ws : List (List Char)), ws ≠ [] →
      (Re.alts (ws.map Re.word)).run U p s c k = some res →
      ∃ w ∈ ws, ∃ m s1, s = m ++ s1 ∧ List.Forall₂ (fun a x => foldEq a x = true) w m ∧
        k (p + m.length) s1 c = some res := by
  intro ws
  induction ws with
  | nil => intro h; exact absurd rfl h
  | cons w ws ih =>
    intro _ h
    rcases ws with _ | ⟨w2, ws2⟩
    · obtain ⟨m, s1, h1, h2, h3⟩ := word_sound U k c res w s p h
      exact ⟨w, List.mem_cons_self _ _, m, s1, h1, h2, h3⟩
    · have h2 : (Re.alt (Re.word w) (Re.alts ((w2 :: ws2).map Re.word))).run U p s c k =
          some res := h
      unfold Re.run at h2
      rcases hr : (Re.word w).run U p s c k with _ | r
      · rw [hr] at h2
        obtain ⟨w1, hw1, rest⟩ := ih (by simp) h2
        exact ⟨w1, List.mem_cons_of_mem _ hw1, rest⟩
      · rw [hr] at h2
        simp only [Option.some.injEq] at h2
        subst h2
        obtain ⟨m, s1, h1, h2, h3⟩ := word_sound U k c r w s p hr
        exact ⟨w, List.mem_cons_self _ _, m, s1, h1, h2, h3⟩

/-- An expression that starts with `^` matches at position 0 only. -/
theorem findFrom_bol (U : UnicodeTables) (r : Re) : ∀ (s : List Char) (p : Nat),
    findFrom U (Re.cat Re.bol r) (p + 1) s = none := by
  intro s
  induction s with
  | nil => intro p; simp [findFrom, Re.run]
  | cons x xs ih => intro p; unfold findFrom; simp [Re.run, ih]

theorem run_cat (U : UnicodeTables) (a b : Re) (p : Nat) (s : List Char) (c : Caps)
    (k : Nat → List Char → Caps → Option Caps) :
    (Re.cat a b).run U p s c k = a.run U p s c (fun p1 s1 c1 => b.run U p1 s1 c1 k) := rfl

theorem run_bol (U : UnicodeTables) (p : Nat) (s : List Char) (c : Caps)
    (k : Nat → List Char → Caps → Option Caps) :
    Re.bol.run U p s c k = if p = 0 then k p s c else none := rfl

theorem run_group (U : UnicodeTables) (i : Nat) (a : Re) (p : Nat) (s : List Char) (c : Caps)
    (k : Nat → List Char → Caps → Option Caps) :
    (Re.group i a).run U p s c k =
      a.run U p s c (fun p1 s1 c1 => k p1 s1 (c1.set i (s.take (p1 - p)))) := rfl

theorem run_starNot (U : UnicodeTables) (items : List ClassItem) (p : Nat) (s : List Char)
    (c : Caps) (k : Nat → List Char → Caps → Option Caps) :
    (Re.starNot items).run U p s c k = starRun (notIn U items) p s c k := rfl

theorem run_opt (U : UnicodeTables) (a : Re) (p : Nat) (s : List Char) (c : Caps)
    (k : Nat → List Char → Caps → Option Caps) :
    (Re.opt a).run U p s c k =
      match a.run U p s c k with
      | some r => some r
      | none => k p s c := rfl

theorem run_plusNot (U : UnicodeTables) (items : List ClassItem) (p : Nat) (s : List Char)
    (c : Caps) (k : Nat → List Char → Caps → Option Caps) :
    (Re.plusNot items).run U p s c k =
      match s with
      | [] => none
      | x :: xs => if notIn U items x then starRun (notIn U items) (p + 1) xs c k else none :=
  rfl

theorem chr_sound (U : UnicodeTables) (a : Char) (p : Nat) (s : List Char) (c res : Caps)
    (k : Nat → List Char → Caps → Option Caps) (h : (Re.chr a).run U p s c k = some res) :
    ∃ x xs, s = x :: xs ∧ foldEq a x = true ∧ k (p + 1) xs c = some res := by
  unfold Re.run at h
  rcases s with _ | ⟨x, xs⟩
  · simp at h
  · by_cases hf : foldEq a x = true
    · simp only [hf, if_true] at h
      exact ⟨x, xs, rfl, hf, h⟩
    · simp [hf] at h

theorem opt_chr_sound (U : UnicodeTables) (a : Char) (p : Nat) (s : List Char) (c res : Caps)
    (k : Nat → List Char → Caps → Option Caps)
    (h : (match (Re.chr a).run U p s c k with
      | some r => some r
      | none => k p s c) = some res) :
    ∃ pl s3, s = pl ++ s3 ∧ (pl = [] ∨ ∃ x, pl = [x] ∧ foldEq a x = true) ∧
      k (p + pl.length) s3 c = some res := by
  rcases hr : (Re.chr a).run U p s c k with _ | r
  · rw [hr] at h
    exact ⟨[], s, rfl, Or.inl rfl, h⟩
  · rw [hr] at h
    simp only [Option.some.injEq] at h
    subst h
    obtain ⟨x, xs, hs, hf, hk⟩ := chr_sound U a p s c r k hr
    exact ⟨[x], xs, hs, Or.inr ⟨x, rfl, hf⟩, hk⟩

theorem plusNot_greedy (U : UnicodeTables) (items : List ClassItem) (p : Nat) (s : List Char)
    (c res : Caps) (k : Nat → List Char → Caps → Option Caps) (hk : ∀ p s c, k p s c ≠ none)
    (h : (Re.plusNot items).run U p s c k = some res) :
    ∃ seps rest, s = seps ++ rest ∧ seps ≠ [] ∧ (∀ x ∈ seps, notIn U items x = true) ∧
      (∀ x, rest.head? = some x → notIn U items x = false) ∧
      k (p + seps.length) rest c = some res := by
  rw [run_plusNot] at h
  rcases s with _ | ⟨y, ys⟩
  · simp at h
  · by_cases hy : notIn U items y = true
    · simp only [hy, if_true] at h
      rw [starRun_greedy _ _ hk] at h
      refine ⟨y :: ys.takeWhile (notIn U items), ys.dropWhile (notIn U items), ?_, by simp, ?_,
        ?_, ?_⟩
      · rw [List.cons_append, List.takeWhile_append_dropWhile]
      · intro x hx
        rcases List.mem_cons.mp hx with rfl | hx
        · exact hy
        · exact List.mem_takeWhile_imp hx
      · intro x hx
        have := List.head?_dropWhile_not (notIn U items) ys
        rw [hx] at this
        simpa using this
      · rw [List.length_cons, ← h]; congr 1; omega
    · simp [hy] at h

/-- The level pattern on a buffer: a match has the shape `LevelMatch`. -/
theorem msgLevelCheck_run (U : UnicodeTables) (buf : List Char) (res : Caps)
    (k0 : Nat → List Char → Caps → Option Caps)
    (hk0 : ∀ p s c, k0 p s c = some (c.set 0 (buf.take p)))
    (h : msgLevelCheck.run U 0 buf [[], [], []] k0 = some res) :
    LevelMatch U buf res := by
  simp only [msgLevelCheck, run_cat, run_bol, run_group, run_starNot, if_true] at h
  obtain ⟨lead, s1, hs1, hlead, h⟩ := starRun_sound _ _ _ _ _ _ h
  obtain ⟨w, hw, word, s2, hs2, hword, h⟩ := alts_words_sound U _ _ _ _ _ levelWords
    (by simp [levelWords]) h
  simp only [run_opt] at h
  obtain ⟨pl, s3, hs3, hpl, h⟩ := opt_chr_sound U _ _ _ _ _ _ h
  obtain ⟨seps, rest, hs4, hne, hseps, hrest, h⟩ := plusNot_greedy U _ _ _ _ _ _
    (by intro _ _ _; simp [hk0]) h
  have hsplit : buf = lead ++ word ++ pl ++ seps ++ rest := by
    rw [hs1, hs2, hs3, hs4]; simp
  refine LevelMatch.intro lead word pl seps rest w hsplit hlead hw hword hpl hne hseps hrest ?_
  rw [hk0] at h
  simp only [Option.some.injEq] at h
  rw [← h]
  have e1 : List.take (0 + lead.length + word.length - (0 + lead.length)) s1 = word := by
    rw [hs2]; simp
  have e2 : ∀ n, n = 0 + lead.length + word.length + pl.length + seps.length →
      List.take n buf = lead ++ word ++ pl ++ seps := by
    intro n hn
    rw [hsplit]
    have : n = (lead ++ word ++ pl ++ seps).length := by rw [hn]; simp; omega
    rw [this, List.take_left']
    rfl
  rw [e1, e2 _ rfl, e2 _ (by omega)]
  rfl

/-- What `FindSubmatch` returns for the level pattern: nil, or three submatches of the
shape `LevelMatch`. -/
theorem FindSubmatch_msgLevelCheck (U : UnicodeTables) (buf : List Char) :
    FindSubmatch U msgLevelCheck buf = [] ∨
    LevelMatch U buf (FindSubmatch U msgLevelCheck buf) := by
  unfold FindSubmatch
  rcases hb : buf with _ | ⟨x, xs⟩
  · unfold findFrom
    rcases hr : msgLevelCheck.run U 0 [] [[], [], []] (fun _ _ c => some (c.set 0 [])) with
      _ | r
    · exact Or.inl rfl
    · exact Or.inr (msgLevelCheck_run U [] r _ (by intro _ _ _; simp) hr)
  · unfold findFrom
    rcases hr : msgLevelCheck.run U 0 (x :: xs) [[], [], []]
        (fun p1 _ c => some (c.set 0 ((x :: xs).take (p1 - 0)))) with _ | r
    · left
      simp only []
      have := findFrom_bol U (Re.group 1
        (Re.cat (Re.starNot nonLetter)
          (Re.cat (Re.group 2 (Re.alts (levelWords.map Re.word)))
            (Re.cat (Re.opt (Re.chr 's')) (Re.plusNot separator))))) xs 0
      rw [show msgLevelCheck = Re.cat Re.bol (Re.group 1
        (Re.cat (Re.starNot nonLetter)
          (Re.cat (Re.group 2 (Re.alts (levelWords.map Re.word)))
            (Re.cat (Re.opt (Re.chr 's')) (Re.plusNot separator))))) from rfl]
      rw [this]
    · right
      exact msgLevelCheck_run U (x :: xs) r _ (by intro _ _ _; simp) hr

theorem notIn_congr (U V : UnicodeTables) (items : List ClassItem) (x : Char)
    (h : U.isL x = V.isL x ∧ U.isM x = V.isM x) : notIn U items x = notIn V items x := by
  have : ∀ i : ClassItem, i.has U x = i.has V x := by
    intro i
    cases i <;> simp [ClassItem.has, h.1, h.2]
  unfold notIn
  simp only [this]

theorem starRun_congr (f g : Char → Bool) (c : Caps) :
    ∀ (s : List Char) (p : Nat) (k k1 : Nat → List Char → Caps → Option Caps),
      (∀ x ∈ s, f x = g x) → (∀ p1 s1 c1, s1 <:+ s → k p1 s1 c1 = k1 p1 s1 c1) →
      starRun f p s c k = starRun g p s c k1 := by
  intro s
  induction s with
  | nil => intro p k k1 _ hk; simp [starRun, hk _ _ _ (List.suffix_refl _)]
  | cons x xs ih =>
    intro p k k1 hf hk
    unfold starRun
    rw [hf x (List.mem_cons_self _ _), hk _ _ _ (List.suffix_refl _),
      ih (p + 1) k k1 (fun y hy => hf y (List.mem_cons_of_mem _ hy))
        (fun p1 s1 c1 hs => hk p1 s1 c1 (hs.trans (List.suffix_cons _ _)))]

/-- The matcher reads the Unicode tables at the runes of its input only. -/
theorem run_congr (U V : UnicodeTables) : ∀ (r : Re) (p : Nat) (s : List Char) (c : Caps)
    (k k1 : Nat → List Char → Caps → Option Caps),
    (∀ x ∈ s, U.isL x = V.isL x ∧ U.isM x = V.isM x) →
    (∀ p1 s1 c1, s1 <:+ s → k p1 s1 c1 = k1 p1 s1 c1) →
    r.run U p s c k = r.run V p s c k1 := by
  intro r
  induction r with
  | bol => intro p s c k k1 _ hk; simp [Re.run, hk _ _ _ (List.suffix_refl _)]
  | empty => intro p s c k k1 _ hk; simp [Re.run, hk _ _ _ (List.suffix_refl _)]
  | chr a =>
    intro p s c k k1 _ hk
    rcases s with _ | ⟨x, xs⟩
    · rfl
    · simp [Re.run, hk _ _ _ (List.suffix_cons x xs)]
  | cat a b iha ihb =>
    intro p s c k k1 hU hk
    rw [run_cat, run_cat]
    apply iha p s c _ _ hU
    intro p1 s1 c1 hs
    apply ihb p1 s1 c1 k k1
    · intro x hx
      exact hU x (hs.subset hx)
    · intro p2 s2 c2 hs2
      exact hk p2 s2 c2 (hs2.trans hs)
  | alt a b iha ihb =>
    intro p s c k k1 hU hk
    unfold Re.run
    rw [iha p s c k k1 hU hk, ihb p s c k k1 hU hk]
  | opt a iha =>
    intro p s c k k1 hU hk
    unfold Re.run
    rw [iha p s c k k1 hU hk, hk _ _ _ (List.suffix_refl _)]
  | starNot items =>
    intro p s c k k1 hU hk
    rw [run_starNot, run_starNot]
    exact starRun_congr _ _ c s p k k1 (fun x hx => notIn_congr U V items x (hU x hx)) hk
  | plusNot items =>
    intro p s c k k1 hU hk
    rw [run_plusNot, run_plusNot]
    rcases s with _ | ⟨x, xs⟩
    · rfl
    · simp only []
      rw [notIn_congr U V items x (hU x (List.mem_cons_self _ _)),
        starRun_congr (notIn U items) (notIn V items) c xs (p + 1) k k1
          (fun y hy => notIn_congr U V items y (hU y (List.mem_cons_of_mem _ hy)))
          (fun p1 s1 c1 hs => hk p1 s1 c1 (hs.trans (List.suffix_cons _ _)))]
  | group i a iha =>
    intro p s c k k1 hU hk
    rw [run_group, run_group]
    apply iha p s c _ _ hU
    intro p1 s1 c1 hs
    exact hk p1 s1 _ hs

theorem findFrom_congr (U V : UnicodeTables) (re : Re) : ∀ (s : List Char) (p : Nat),
    (∀ x ∈ s, U.isL x = V.isL x ∧ U.isM x = V.isM x) →
    findFrom U re p s = findFrom V re p s := by
  intro s
  induction s with
  | nil =>
    intro p hU
    unfold findFrom
    exact run_congr U V re p [] _ _ _ hU (fun _ _ _ _ => rfl)
  | cons x xs ih =>
    intro p hU
    unfold findFrom
    rw [run_congr U V re p (x :: xs) _ _ _ hU (fun _ _ _ _ => rfl),
      ih (p + 1) (fun y hy => hU y (List.mem_cons_of_mem _ hy))]

/-- On an ASCII buffer every choice of Unicode tables finds the same submatches. -/
theorem FindSubmatch_ascii (U : UnicodeTables) (re : Re) (buf : List Char)
    (h : ∀ x ∈ buf, x.val < 128) :
    FindSubmatch U re buf = FindSubmatch asciiTables re buf := by
  unfold FindSubmatch
  rw [findFrom_congr U asciiTables re buf 0 (fun x hx =>
    ⟨(U.ascii_L x (h x hx)).trans (asciiTables.ascii_L x (h x hx)).symm,
     (U.ascii_M x (h x hx)).trans (asciiTables.ascii_M x (h x hx)).symm⟩)]

theorem replaceFirst_append (m rest : List Char) : replaceFirst (m ++ rest) m [] = rest := by
  unfold replaceFirst
  rw [if_pos (by simp)]
  simp

theorem levelWords_head {w : List Char} (hw : w ∈ levelWords) :
    ∃ a as, w = a :: as ∧ a ∈ ['f', 'a', 'c', 'e', 'w', 'n', 'i', 'd'] := by
  simp only [levelWords, List.mem_cons, List.mem_singleton, List.not_mem_nil, or_false] at hw
  rcases hw with rfl | rfl | rfl | rfl | rfl | rfl | rfl | rfl | rfl | rfl | rfl | rfl | rfl <;>
    exact ⟨_, _, rfl, by decide⟩

theorem foldEq_toLower {a x : Char} (h : foldEq a x = true) (hs : a ≠ 's') (hk : a ≠ 'k') :
    x.toLower = a := by
  unfold foldEq at h
  simpa [hs, hk] using h

/-- What lines 183-207 of `Write` compute when the pattern matches. -/
theorem stripLevel_match (U : UnicodeTables) (buf : List Char)
    (h : FindSubmatch U msgLevelCheck buf ≠ []) :
    ∃ lead word plural seps rest w a as x xs,
      buf = lead ++ word ++ plural ++ seps ++ rest ∧
      (∀ y ∈ lead, notIn U nonLetter y = true) ∧
      w ∈ levelWords ∧ List.Forall₂ (fun a x => foldEq a x = true) w word ∧
      (plural = [] ∨ ∃ y, plural = [y] ∧ foldEq 's' y = true) ∧
      seps ≠ [] ∧ (∀ y ∈ seps, notIn U separator y = true) ∧
      (∀ y, rest.head? = some y → notIn U separator y = false) ∧
      w = a :: as ∧ word = x :: xs ∧ x.toLower = a ∧
      a ∈ ['f', 'a', 'c', 'e', 'w', 'n', 'i', 'd'] ∧
      FindSubmatch U msgLevelCheck buf =
        [lead ++ word ++ plural ++ seps, lead ++ word ++ plural ++ seps, word] ∧
      stripLevel U buf = some (rest, letterLevel L_notice a) := by
  rcases FindSubmatch_msgLevelCheck U buf with h0 | h1
  · exact absurd h0 h
  · obtain ⟨lead, word, plural, seps, rest, w, hsplit, hlead, hw, hword, hpl, hne, hseps, hrest,
      hcaps⟩ := h1
    obtain ⟨a, as, hwa, ha⟩ := levelWords_head hw
    rw [hwa] at hword
    rcases word with _ | ⟨x, xs⟩
    · cases hword
    · have hax : foldEq a x = true := by
        cases hword with
        | cons h1 _ => exact h1
      have hxa : x.toLower = a := by
        refine foldEq_toLower hax ?_ ?_ <;>
        · intro he
          rw [he] at ha
          revert ha
          decide
      refine ⟨lead, x :: xs, plural, seps, rest, w, a, as, x, xs, hsplit, hlead, hw, ?_, hpl, hne,
        hseps, hrest, hwa, rfl, hxa, ha, hcaps, ?_⟩
      · rw [hwa]; exact hword
      · unfold stripLevel
        simp only [hcaps, List.length_cons, List.length_nil, if_true, List.getD_cons_succ,
          List.getD_cons_zero, hxa]
        rw [hsplit, replaceFirst_append]

theorem toLower_alpha (x a : Char) (h : x.toLower = a) (ha : a.isLower = true) :
    x.isAlpha = true ∧ x.val < 128 := by
  unfold Char.toLower at h
  simp only [Char.toNat] at h
  simp only [Char.isAlpha, Char.isUpper, Char.isLower, Bool.or_eq_true, Bool.and_eq_true,
    decide_eq_true_eq] at ha ⊢
  simp only [UInt32.le_def, UInt32.lt_def, ge_iff_le, BitVec.le_def, BitVec.lt_def] at ha ⊢
  have ha1 : 97 ≤ a.val.toNat ∧ a.val.toNat ≤ 122 := ha
  show (65 ≤ x.val.toNat ∧ x.val.toNat ≤ 90 ∨ 97 ≤ x.val.toNat ∧ x.val.toNat ≤ 122) ∧
    x.val.toNat < 128
  split_ifs at h with hc
  · omega
  · subst h
    omega

/-- An ASCII letter is in neither class of the pattern. -/
theorem letter_notIn (U : UnicodeTables) (x : Char) (h : x.isAlpha = true ∧ x.val < 128) :
    notIn U nonLetter x = false ∧ notIn U separator x = false := by
  have hL : U.isL x = true := by rw [U.ascii_L x h.2]; exact h.1
  constructor <;> simp [notIn, nonLetter, separator, ClassItem.has, hL]

theorem levelWords_letters {w : List Char} (hw : w ∈ levelWords) :
    ∀ a ∈ w, a.isLower = true ∧ a ≠ 's' ∧ a ≠ 'k' := by
  revert w
  decide

theorem spells_of_forall₂ : ∀ (w m : List Char),
    List.Forall₂ (fun a x => foldEq a x = true) w m → spells w m = true := by
  intro w m h
  induction h with
  | nil => rfl
  | cons h1 _ ih => simp [spells, h1, ih]

/-- The runes that spell a level word are ASCII letters. -/
theorem word_letters (U : UnicodeTables) : ∀ (w m : List Char),
    (∀ a ∈ w, a.isLower = true ∧ a ≠ 's' ∧ a ≠ 'k') →
    List.Forall₂ (fun a x => foldEq a x = true) w m →
    ∀ x ∈ m, notIn U nonLetter x = false := by
  intro w m hw h
  induction h with
  | nil => intro x hx; simp at hx
  | @cons a x as xs h1 _ ih =>
    intro y hy
    rcases List.mem_cons.mp hy with rfl | hy
    · have ha := hw a (List.mem_cons_self _ _)
      exact (letter_notIn U y (toLower_alpha y a (foldEq_toLower h1 ha.2.1 ha.2.2) ha.1)).1
    · exact ih (fun b hb => hw b (List.mem_cons_of_mem _ hb)) y hy

theorem dropWhile_append_all (p : Char → Bool) : ∀ (l1 l2 : List Char),
    (∀ x ∈ l1, p x = true) → (l1 ++ l2).dropWhile p = l2.dropWhile p := by
  intro l1
  induction l1 with
  | nil => intro l2 _; rfl
  | cons x xs ih =>
    intro l2 h
    rw [List.cons_append, List.dropWhile_cons, if_pos (h x (List.mem_cons_self _ _))]
    exact ih l2 (fun y hy => h y (List.mem_cons_of_mem _ hy))

theorem takeWhile_append_all (p : Char → Bool) : ∀ (l1 l2 : List Char),
    (∀ x ∈ l1, p x = true) → (l1 ++ l2).takeWhile p = l1 ++ l2.takeWhile p := by
  intro l1
  induction l1 with
  | nil => intro l2 _; rfl
  | cons x xs ih =>
    intro l2 h
    rw [List.cons_append, List.takeWhile_cons, if_pos (h x (List.mem_cons_self _ _)),
      ih l2 (fun y hy => h y (List.mem_cons_of_mem _ hy))]
    rfl

/-- A separator is no letter, mark or digit. -/
theorem separator_nonLetter (U : UnicodeTables) (y : Char) (h : notIn U separator y = true) :
    notIn U nonLetter y = true := by
  simp only [notIn, separator, nonLetter, List.any_cons, List.any_nil, ClassItem.has,
    Bool.or_false, Bool.not_eq_true', Bool.or_eq_false_iff] at h ⊢
  exact ⟨h.1, h.2.1, h.2.2.1⟩

/-- A line the level pattern matches leads with a level word, in the spec's words. -/
theorem leads_of_match (U : UnicodeTables) (buf : List Char)
    (h : FindSubmatch U msgLevelCheck buf ≠ []) : leadsWithLevel U buf = true := by
  obtain ⟨lead, word, plural, seps, rest, w, a, as, x, xs, hsplit, hlead, hw, hword, hpl, hne,
    hseps, -, -, hx, -, -, -, -⟩ := stripLevel_match U buf h
  have hwl := word_letters U w word (levelWords_letters hw) hword
  have hxP : notIn U nonLetter x = false := hwl x (by rw [hx]; exact List.mem_cons_self _ _)
  obtain ⟨y0, ys, hys⟩ : ∃ y0 ys, seps = y0 :: ys := by
    rcases seps with _ | ⟨y0, ys⟩
    · exact absurd rfl hne
    · exact ⟨y0, ys, rfl⟩
  have hy0 : notIn U separator y0 = true := hseps y0 (by rw [hys]; exact List.mem_cons_self _ _)
  have hy0P : notIn U nonLetter y0 = true := separator_nonLetter U y0 hy0
  have hafter : buf.dropWhile (notIn U nonLetter) = word ++ (plural ++ (seps ++ rest)) := by
    rw [hsplit]
    simp only [List.append_assoc]
    rw [dropWhile_append_all _ lead _ hlead, hx, List.cons_append, List.dropWhile_cons,
      if_neg (by rw [hxP]; simp)]
  have hwQ : ∀ y ∈ word, (fun z => !notIn U nonLetter z) y = true := by
    intro y hy
    simp [hwl y hy]
  have hspell : spells w word = true := spells_of_forall₂ w word hword
  unfold leadsWithLevel
  simp only [hafter]
  rw [takeWhile_append_all _ word _ hwQ, dropWhile_append_all _ word _ hwQ]
  rcases hpl with hp | ⟨y, hp, hy⟩
  · subst hp
    rw [hys]
    simp only [List.nil_append, List.cons_append, List.takeWhile_cons, hy0P, Bool.not_true,
      Bool.false_eq_true, if_false, List.append_nil, List.dropWhile_cons, hy0,
      Bool.and_true]
    unfold isLevelWord
    rw [List.any_eq_true]
    exact ⟨w, hw, by simp [hspell]⟩
  · subst hp
    rw [hys]
    by_cases hyP : notIn U nonLetter y = true
    · have hysep : notIn U separator y = true := by
        have hcase : y.toLower = 's' ∨ y.val = 0x17F := by
          unfold foldEq at hy
          simpa using hy
        rcases hcase with hc | hc
        · have := (letter_notIn U y (toLower_alpha y 's' hc (by decide))).1
          rw [this] at hyP
          exact absurd hyP (by simp)
        · have h1 : y ≠ '_' := by rintro rfl; revert hc; decide
          have h2 : y ≠ '/' := by rintro rfl; revert hc; decide
          have h3 : y ≠ '-' := by rintro rfl; revert hc; decide
          simp only [notIn, separator, nonLetter, List.any_cons, List.any_nil, ClassItem.has,
            Bool.or_false, Bool.not_eq_true', Bool.or_eq_false_iff, decide_eq_false_iff_not]
            at hyP ⊢
          exact ⟨hyP.1, hyP.2.1, hyP.2.2, h1, h2, h3⟩
      simp only [List.cons_append, List.nil_append, List.takeWhile_cons, hyP, Bool.not_true,
        Bool.false_eq_true, if_false, List.append_nil, List.dropWhile_cons, hysep,
        Bool.and_true]
      unfold isLevelWord
      rw [List.any_eq_true]
      exact ⟨w, hw, by simp [hspell]⟩
    · have hyQ : notIn U nonLetter y = false := by simpa using hyP
      simp only [List.cons_append, List.nil_append, List.takeWhile_cons, hyQ, Bool.not_false,
        if_true, hy0P, Bool.not_true, Bool.false_eq_true, if_false, List.dropWhile_cons, hy0,
        Bool.and_true]
      unfold isLevelWord
      rw [List.any_eq_true]
      refine ⟨w, hw, ?_⟩
      simp [hspell, hy]

theorem toDigitsCore_eq : ∀ (n fuel : Nat) (ds : List Char), n < fuel →
    Nat.toDigitsCore 10 fuel n ds =
      (if n < 10 then [Nat.digitChar n]
       else Nat.toDigits 10 (n / 10) ++ [Nat.digitChar (n % 10)]) ++ ds := by
  intro n
  induction n using Nat.strong_induction_on with
  | _ n ih =>
    intro fuel ds hf
    rcases fuel with _ | f
    · omega
    · unfold Nat.toDigitsCore
      simp only []
      by_cases hn : n < 10
      · rw [if_pos (by omega), if_pos hn, Nat.mod_eq_of_lt hn]
        rfl
      · rw [if_neg (by omega), if_neg hn]
        have h1 : n / 10 < n := by omega
        rw [ih (n / 10) h1 f _ (by omega)]
        have h2 : Nat.toDigits 10 (n / 10) =
            (if n / 10 < 10 then [Nat.digitChar (n / 10)]
             else Nat.toDigits 10 (n / 10 / 10) ++ [Nat.digitChar (n / 10 % 10)]) := by
          show Nat.toDigitsCore 10 (n / 10 + 1) (n / 10) [] = _
          rw [ih (n / 10) h1 _ _ (by omega)]
          simp
        rw [h2]
        simp

theorem toDigits_step (n : Nat) :
    Nat.toDigits 10 n =
      if n < 10 then [Nat.digitChar n]
      else Nat.toDigits 10 (n / 10) ++ [Nat.digitChar (n % 10)] := by
  unfold Nat.toDigits
  rw [toDigitsCore_eq n (n + 1) [] (by omega)]
  simp [Nat.toDigits]

theorem digitChar_inj : ∀ a b : Nat, a < 10 → b < 10 → Nat.digitChar a = Nat.digitChar b →
    a = b := by
  intro a b ha hb
  interval_cases a <;> interval_cases b <;> decide

theorem digitChar_plain (a : Nat) (ha : a < 10) :
    Nat.digitChar a ≠ ':' ∧ Nat.digitChar a ≠ '-' := by
  interval_cases a <;> decide

theorem toDigits_ne_nil (n : Nat) : Nat.toDigits 10 n ≠ [] := by
  rw [toDigits_step]
  split_ifs <;> simp

theorem toDigits_plain : ∀ (n : Nat), ∀ c ∈ Nat.toDigits 10 n, c ≠ ':' ∧ c ≠ '-' := by
  intro n
  induction n using Nat.strong_induction_on with
  | _ n ih =>
    intro c hc
    rw [toDigits_step] at hc
    split_ifs at hc with hn
    · simp only [List.mem_singleton] at hc
      rw [hc]; exact digitChar_plain n hn
    · simp only [List.mem_append, List.mem_singleton] at hc
      rcases hc with hc | hc
      · exact ih (n / 10) (by omega) c hc
      · rw [hc]; exact digitChar_plain _ (Nat.mod_lt _ (by omega))

theorem toDigits_inj : ∀ (n m : Nat), Nat.toDigits 10 n = Nat.toDigits 10 m → n = m := by
  intro n
  induction n using Nat.strong_induction_on with
  | _ n ih =>
    intro m h
    rw [toDigits_step n, toDigits_step m] at h
    by_cases hn : n < 10 <;> by_cases hm : m < 10
    · rw [if_pos hn, if_pos hm] at h
      exact digitChar_inj n m hn hm (by simpa using h)
    · rw [if_pos hn, if_neg hm] at h
      have := congrArg List.length h
      simp only [List.length_singleton, List.length_append] at this
      have := List.length_pos.mpr (toDigits_ne_nil (m / 10))
      omega
    · rw [if_neg hn, if_pos hm] at h
      have := congrArg List.length h
      simp only [List.length_singleton, List.length_append] at this
      have := List.length_pos.mpr (toDigits_ne_nil (n / 10))
      omega
    · rw [if_neg hn, if_neg hm] at h
      have h1 := List.append_inj' h rfl
      have h2 := ih (n / 10) (by omega) (m / 10) h1.1
      have h3 := digitChar_inj (n % 10) (m % 10) (Nat.mod_lt _ (by omega))
        (Nat.mod_lt _ (by omega)) (by simpa using h1.2)
      omega

/-- Decimal rendering (`%d`) has no colon in it and tells integers apart. -/
theorem toString_int_plain (n : Int) : ':' ∉ (toString n).data := by
  rcases n with k | k
  · show ':' ∉ Nat.toDigits 10 k
    intro h
    exact (toDigits_plain k _ h).1 rfl
  · show ':' ∉ ("-" ++ Nat.repr (k + 1)).data
    rw [String.data_append]
    show ':' ∉ ['-'] ++ Nat.toDigits 10 (k + 1)
    intro h
    simp only [List.singleton_append, List.mem_cons] at h
    rcases h with h | h
    · exact absurd h (by decide)
    · exact (toDigits_plain _ _ h).1 rfl

theorem toString_int_inj (n m : Int) (h : toString n = toString m) : n = m := by
  have hd := congrArg String.data h
  rcases n with k | k <;> rcases m with j | j
  · have h1 : Nat.toDigits 10 k = Nat.toDigits 10 j := hd
    rw [toDigits_inj k j h1]
  · have h1 : Nat.toDigits 10 k = ['-'] ++ Nat.toDigits 10 (j + 1) := by
      have : (toString (Int.negSucc j)).data = ("-" ++ Nat.repr (j + 1)).data := rfl
      rw [this, String.data_append] at hd
      exact hd
    have : '-' ∈ Nat.toDigits 10 k := by rw [h1]; simp
    exact absurd rfl (toDigits_plain k _ this).2
  · have h1 : ['-'] ++ Nat.toDigits 10 (k + 1) = Nat.toDigits 10 j := by
      have : (toString (Int.negSucc k)).data = ("-" ++ Nat.repr (k + 1)).data := rfl
      rw [this, String.data_append] at hd
      exact hd
    have : '-' ∈ Nat.toDigits 10 j := by rw [← h1]; simp
    exact absurd rfl (toDigits_plain j _ this).2
  · have h1 : ['-'] ++ Nat.toDigits 10 (k + 1) = ['-'] ++ Nat.toDigits 10 (j + 1) := by
      have e1 : (toString (Int.negSucc k)).data = ("-" ++ Nat.repr (k + 1)).data := rfl
      have e2 : (toString (Int.negSucc j)).data = ("-" ++ Nat.repr (j + 1)).data := rfl
      rw [e1, e2, String.data_append, String.data_append] at hd
      exact hd
    have h2 := toDigits_inj _ _ (List.append_cancel_left h1)
    have : k = j := by omega
    rw [this]

theorem split_first (c : Char) : ∀ (x x1 y y1 : List Char), c ∉ x → c ∉ x1 →
    x ++ c :: y = x1 ++ c :: y1 → x = x1 ∧ y = y1 := by
  intro x
  induction x with
  | nil =>
    intro x1 y y1 _ hx1 h
    rcases x1 with _ | ⟨a, as⟩
    · simpa using h
    · simp only [List.nil_append, List.cons_append, List.cons.injEq] at h
      exact absurd (by rw [h.1]; exact List.mem_cons_self _ _) hx1
  | cons a as ih =>
    intro x1 y y1 hx hx1 h
    rcases x1 with _ | ⟨b, bs⟩
    · simp only [List.nil_append, List.cons_append, List.cons.injEq] at h
      exact absurd (by rw [← h.1]; exact List.mem_cons_self _ _) hx
    · simp only [List.cons_append, List.cons.injEq] at h
      obtain ⟨h1, h2⟩ := ih bs y y1 (fun hc => hx (List.mem_cons_of_mem _ hc))
        (fun hc => hx1 (List.mem_cons_of_mem _ hc)) h.2
      exact ⟨by rw [h.1, h1], h2⟩

theorem split_last (c : Char) (x x1 y y1 : List Char) (hy : c ∉ y) (hy1 : c ∉ y1)
    (h : x ++ c :: y = x1 ++ c :: y1) : x = x1 ∧ y = y1 := by
  have hr := congrArg List.reverse h
  simp only [List.reverse_append, List.reverse_cons, List.append_assoc, List.singleton_append]
    at hr
  obtain ⟨h1, h2⟩ := split_first c y.reverse y1.reverse x.reverse x1.reverse
    (by simpa using hy) (by simpa using hy1) hr
  exact ⟨List.reverse_injective h2, List.reverse_injective h1⟩

/-- The rendered text tells the eight levels, the file names and the lines apart. -/
theorem getText_inj (F : Fmt) (a1 a2 : List Arg) (p1 p2 : String) (l1 l2 : Level)
    (f1 f2 : String) (n1 n2 : Int) (hl1 : l1 ≤ L_debug) (hl2 : l2 ≤ L_debug)
    (hm : messageOf F a1 p1 = messageOf F a2 p2)
    (h : getText F a1 p1 l1 f1 n1 = getText F a2 p2 l2 f2 n2) :
    l1 = l2 ∧ f1 = f2 ∧ n1 = n2 := by
  have hd := congrArg String.data h
  unfold getText at hd
  simp only [String.data_append, hm] at hd
  have hd1 := List.append_cancel_right (List.append_cancel_right (List.append_cancel_right hd))
  rw [List.append_assoc, List.append_assoc _ [':'], List.singleton_append,
    List.singleton_append] at hd1
  obtain ⟨h1, h2⟩ := split_last ':' _ _ _ _ (toString_int_plain n1) (toString_int_plain n2) hd1
  have hn : n1 = n2 := toString_int_inj n1 n2 (String.ext h2)
  have hl1' : l1 ≤ 7 := hl1
  have hl2' : l2 ≤ 7 := hl2
  have key : l1 = l2 ∧ f1.data = f2.data := by
    interval_cases l1 <;> interval_cases l2 <;>
      simp [Level.String] at h1 <;> exact ⟨rfl, h1⟩
  exact ⟨key.1, String.ext key.2, hn⟩

/-- A rendered text is longer than the collapsed marker. -/
theorem line_ne_dot (a b : String) (F : Fmt) (d : Dispatch) : a ++ b ++ d.text F ≠ "." := by
  intro h
  have hl := congrArg String.length h
  unfold Dispatch.text getText at hl
  simp only [String.length_append] at hl
  have h1 : "[".length = 1 := rfl
  have h2 : ".".length = 1 := rfl
  have h3 : "\n".length = 1 := rfl
  omega

/-- A call that got past the pre-check and the limiter is the run of the sinks on the
collapsed line. -/
theorem outputMessage_admitted_eq (F : Fmt) (st : State) (env : Env) (pattern : String)
    (args : List Arg) (L : Level) (depth : Nat) (hi : ¬ ignored st L)
    (hc : (checkMessagesLimit st env.now1 env.now2).1 = false) :
    ∃ st2 : State,
      st2.sys = st.sys ∧ st2.maxConsoleLevel = st.maxConsoleLevel ∧
      st2.maxSyslogLevel = st.maxSyslogLevel ∧ st2.maxFileLevel = st.maxFileLevel ∧
      st2.logFile = st.logFile ∧
      outputMessage F st env pattern args L depth =
        consoleSink st2 env L
          (getText F args pattern L (shortName (env.Caller depth).1) (env.Caller depth).2)
          (collapse (checkMessagesLimit st env.now1 env.now2).2 env.stamp
            (getText F args pattern L (shortName (env.Caller depth).1)
              (env.Caller depth).2)).1 := by
  rcases outputMessage_cases F st env pattern args L depth with ⟨h0, _⟩ | ⟨_, h0, _⟩ | ⟨_, _, h1⟩
  · exact absurd h0 hi
  · rw [hc] at h0; exact absurd h0 (by simp)
  · have hf := collapse_frame (checkMessagesLimit st env.now1 env.now2).2 env.stamp
      (getText F args pattern L (shortName (env.Caller depth).1) (env.Caller depth).2)
    have hg := checkMessagesLimit_frame st env.now1 env.now2
    exact ⟨_, hf.1.trans hg.1, hf.2.1.trans hg.2.1, hf.2.2.1.trans hg.2.2.1,
      hf.2.2.2.1.trans hg.2.2.2.1, hf.2.2.2.2.2.1.trans hg.2.2.2.2.2.1, h1⟩

theorem console_fileSink (st : State) (env : Env) (L : Level) (msg : String)
    (pre : List Effect) :
    (fileSink st env L msg pre).effects.filter Effect.isConsole =
      pre.filter Effect.isConsole := by
  unfold fileSink
  split_ifs
  · rcases env.openErr with _ | eo
    · rcases env.writeErr with _ | ew <;> simp [Effect.isConsole]
    · simp [Effect.isConsole]
  · rfl

theorem console_syslogSink (st : State) (env : Env) (L : Level) (text msg : String)
    (pre : List Effect) :
    (syslogSink st env L text msg pre).effects.filter Effect.isConsole =
      pre.filter Effect.isConsole := by
  unfold syslogSink
  split_ifs
  · rcases env.syslogErr with _ | es
    · simp [console_fileSink, Effect.isConsole]
    · simp [Effect.isConsole]
  · exact console_fileSink _ _ _ _ _

/-- The console calls of the sinks: one, when the level passes the console threshold. -/
theorem console_consoleSink (st : State) (env : Env) (L : Level) (text msg : String) :
    (consoleSink st env L text msg).effects.filter Effect.isConsole =
      (if L ≤ st.maxConsoleLevel then
        [if L ≤ L_warning then Effect.stderr msg else Effect.stdout msg]
       else []) := by
  unfold consoleSink
  by_cases h : L ≤ st.maxConsoleLevel
  · rw [if_pos h, if_pos h]
    rcases env.consoleErr with _ | ec
    · simp only [console_syslogSink]
      split_ifs <;> simp [Effect.isConsole]
    · simp only []
      split_ifs <;> simp [Effect.isConsole]
  · rw [if_neg h, if_neg h]
    simp [console_syslogSink]

/-- The sinks when the console write fails. -/
theorem consoleSink_fail (st : State) (env : Env) (L : Level) (text msg : String) (e : Error)
    (hL : L ≤ st.maxConsoleLevel) (he : env.consoleErr = some e) :
    consoleSink st env L text msg =
      ⟨st, [if L ≤ L_warning then Effect.stderr msg else Effect.stdout msg], some e,
        some msg⟩ := by
  unfold consoleSink
  rw [if_pos hL, he]

theorem level_split (n : Nat) (h : n ≤ 7) :
    (n ≤ 4 ↔ n = 0 ∨ n = 1 ∨ n = 2 ∨ n = 3 ∨ n = 4) ∧ (¬ n ≤ 4 ↔ n = 5 ∨ n = 6 ∨ n = 7) := by
  omega

theorem level_string_fatal (l : Level) (h : 8 ≤ l) : Level.String l = "Fatal" := by
  unfold Level.String
  split <;> first | rfl | exact absurd h (by decide)

/-- With no syslog connection and no file registered, a level above the console threshold
reaches no sink. -/
theorem consoleSink_silent (st : State) (env : Env) (L : Level) (text msg : String)
    (hc : st.maxConsoleLevel < L) (hs : st.sys = false) (hf : st.logFile = "") :
    consoleSink st env L text msg = ⟨st, [], none, some msg⟩ := by
  unfold consoleSink syslogSink fileSink
  rw [if_neg (Nat.not_le.mpr hc), if_neg (by simp [hs]), if_neg (by simp [hf])]

/-- The sinks when every call before the file succeeds: all three are reached. -/
theorem consoleSink_reach (st : State) (env : Env) (L : Level) (text msg : String)
    (hc : L ≤ st.maxConsoleLevel) :
    (if L ≤ L_warning then Effect.stderr msg else Effect.stdout msg) ∈
      (consoleSink st env L text msg).effects ∧
    (env.consoleErr = none → st.sys = true → L ≤ st.maxSyslogLevel →
      Effect.syslog (syslogSeverity L) text ∈ (consoleSink st env L text msg).effects) ∧
    (env.consoleErr = none → (st.sys = true → env.syslogErr = none) → st.logFile ≠ "" →
      L ≤ st.maxFileLevel →
      Effect.fileOpen st.logFile ∈ (consoleSink st env L text msg).effects) := by
  have hfile : ∀ pre, st.logFile ≠ "" → L ≤ st.maxFileLevel →
      Effect.fileOpen st.logFile ∈ (fileSink st env L msg pre).effects := by
    intro pre h1 h2
    unfold fileSink
    rw [if_pos ⟨h1, h2⟩]
    rcases env.openErr with _ | eo
    · rcases env.writeErr with _ | ew <;> simp
    · simp
  have hpre : ∀ pre (x : Effect), x ∈ pre → x ∈ (fileSink st env L msg pre).effects := by
    intro pre x hx
    unfold fileSink
    split_ifs
    · rcases env.openErr with _ | eo
      · rcases env.writeErr with _ | ew <;> simp [hx]
      · simp [hx]
    · exact hx
  have hpre2 : ∀ pre (x : Effect), x ∈ pre → x ∈ (syslogSink st env L text msg pre).effects := by
    intro pre x hx
    unfold syslogSink
    split_ifs
    · rcases env.syslogErr with _ | es
      · exact hpre _ x (by simp [hx])
      · simp [hx]
    · exact hpre _ x hx
  unfold consoleSink
  rw [if_pos hc]
  simp only []
  generalize (if L ≤ L_warning then Effect.stderr msg else Effect.stdout msg) = ev
  refine ⟨?_, ?_, ?_⟩
  · rcases env.consoleErr with _ | ec
    · exact hpre2 _ _ (by simp)
    · simp
  · intro h1 h2 h3
    rw [h1]
    simp only []
    unfold syslogSink
    rw [if_pos ⟨h2, h3⟩]
    rcases env.syslogErr with _ | es
    · exact hpre _ _ (by simp)
    · simp
  · intro h1 h2 h3 h4
    rw [h1]
    simp only []
    unfold syslogSink
    by_cases hs : st.sys = true ∧ L ≤ st.maxSyslogLevel
    · rw [if_pos hs, h2 hs.1]
      exact hfile _ h3 h4
    · rw [if_neg hs]
      exact hfile _ h3 h4

theorem written_fileSink (st : State) (env : Env) (L : Level) (msg : String)
    (pre : List Effect) (hreg : st.logFile ≠ "") (hL : L ≤ st.maxFileLevel)
    (ho : env.openErr = none) (hw : env.writeErr = none) :
    (fileSink st env L msg pre).effects.filterMap Effect.written =
      pre.filterMap Effect.written ++ [msg] ∧
    (fileSink st env L msg pre).state = st := by
  unfold fileSink
  rw [if_pos ⟨hreg, hL⟩, ho, hw]
  simp [Effect.written]

theorem written_syslogSink (st : State) (env : Env) (L : Level) (text msg : String)
    (pre : List Effect) (hreg : st.logFile ≠ "") (hL : L ≤ st.maxFileLevel)
    (hs : env.syslogErr = none) (ho : env.openErr = none) (hw : env.writeErr = none) :
    (syslogSink st env L text msg pre).effects.filterMap Effect.written =
      pre.filterMap Effect.written ++ [msg] ∧
    (syslogSink st env L text msg pre).state = st := by
  unfold syslogSink
  rw [hs]
  split_ifs
  · have := written_fileSink st env L msg (pre ++ [Effect.syslog (syslogSeverity L) text])
      hreg hL ho hw
    simpa [Effect.written] using this
  · exact written_fileSink st env L msg pre hreg hL ho hw

/-- The sinks when every call succeeds and console and file take the level: the line is
written to the file once and the state stays. -/
theorem written_consoleSink (st : State) (env : Env) (L : Level) (text msg : String)
    (hreg : st.logFile ≠ "") (hL : L ≤ st.maxFileLevel)
    (hc : env.consoleErr = none) (hs : env.syslogErr = none) (ho : env.openErr = none)
    (hw : env.writeErr = none) :
    (consoleSink st env L text msg).effects.filterMap Effect.written = [msg] ∧
    (consoleSink st env L text msg).state = st := by
  unfold consoleSink
  rw [hc]
  by_cases h : L ≤ st.maxConsoleLevel
  · rw [if_pos h]
    simp only []
    have := written_syslogSink st env L text msg
      [if L ≤ L_warning then Effect.stderr msg else Effect.stdout msg] hreg hL hs ho hw
    refine ⟨?_, this.2⟩
    rw [this.1]
    split_ifs <;> simp [Effect.written]
  · rw [if_neg h]
    have := written_syslogSink st env L text msg [] hreg hL hs ho hw
    simpa using this

/-- One call with no limit, console and file at `Debug`, every sink call succeeding: the
line of the collapser is written to the file, and the configuration stays. -/
theorem run_all_ok (F : Fmt) (st : State) (d : Dispatch)
    (hreg : st.logFile ≠ "") (hfl : st.maxFileLevel = L_debug)
    (hcl : st.maxConsoleLevel = L_debug) (hmax : st.maxMessagesPerSecond < 1)
    (hlev : d.level ≤ L_debug)
    (hc : d.env.consoleErr = none) (hs : d.env.syslogErr = none) (ho : d.env.openErr = none)
    (hw : d.env.writeErr = none) :
    (d.run F st).effects.filterMap Effect.written = [(collapse st d.env.stamp (d.text F)).1] ∧
    (d.run F st).state.logFile = st.logFile ∧
    (d.run F st).state.maxFileLevel = st.maxFileLevel ∧
    (d.run F st).state.maxConsoleLevel = st.maxConsoleLevel ∧
    (d.run F st).state.maxMessagesPerSecond = st.maxMessagesPerSecond ∧
    (d.run F st).state.lastMessage = d.text F ∧
    (d.run F st).state.isRepeated = (collapse st d.env.stamp (d.text F)).2.isRepeated := by
  have hi : ¬ ignored st d.level := by
    intro h
    have := h.1
    rw [hcl] at this
    exact Nat.not_lt.mpr hlev this
  have hadm : (checkMessagesLimit st d.env.now1 d.env.now2).1 = false := by
    unfold checkMessagesLimit
    rw [if_pos hmax]
  obtain ⟨st2, -, -, -, h4, h5, heq⟩ := outputMessage_admitted_eq F st d.env d.pattern d.args
    d.level d.depth hi hadm
  have hcfg := outputMessage_config F st d.env d.pattern d.args d.level d.depth
  have hwr := written_consoleSink st2 d.env d.level
    (getText F d.args d.pattern d.level (shortName (d.env.Caller d.depth).1)
      (d.env.Caller d.depth).2)
    (collapse (checkMessagesLimit st d.env.now1 d.env.now2).2 d.env.stamp
      (getText F d.args d.pattern d.level (shortName (d.env.Caller d.depth).1)
        (d.env.Caller d.depth).2)).1
    (by rw [h5]; exact hreg) (by rw [h4, hfl]; exact hlev) hc hs ho hw
  have hline : (d.run F st).line ≠ none := by
    unfold Dispatch.run
    rw [heq, line_consoleSink]
    simp
  have hal := admitted_line F st d hline
  have hl2 : (d.run F st).line = some (collapse (checkMessagesLimit st d.env.now1 d.env.now2).2
      d.env.stamp (getText F d.args d.pattern d.level (shortName (d.env.Caller d.depth).1)
        (d.env.Caller d.depth).2)).1 := by
    unfold Dispatch.run
    rw [heq, line_consoleSink]
  have hsame := hl2.symm.trans hal.1
  refine ⟨?_, ?_, hcfg.2.2.2.1, hcfg.2.1, hcfg.2.2.2.2, hal.2.1, hal.2.2⟩
  · show (outputMessage F st d.env d.pattern d.args d.level d.depth).effects.filterMap
      Effect.written = _
    rw [heq, hwr.1]
    exact congrArg (fun x => [x]) (Option.some.inj hsame)
  · show (outputMessage F st d.env d.pattern d.args d.level d.depth).state.logFile = _
    rw [heq, hwr.2, h5]

/-- A run of calls, each with a rendered text other than the one before it: every line is
written to the file in full, the timestamp and the text. -/
theorem full_run (F : Fmt) : ∀ (ds : List Dispatch) (st : State),
    st.logFile ≠ "" → st.maxFileLevel = L_debug → st.maxConsoleLevel = L_debug →
    st.maxMessagesPerSecond < 1 → st.isRepeated = false →
    List.Chain (fun a b => a ≠ b) st.lastMessage (ds.map (Dispatch.text F)) →
    (∀ d ∈ ds, d.level ≤ L_debug ∧ d.env.consoleErr = none ∧ d.env.syslogErr = none ∧
      d.env.openErr = none ∧ d.env.writeErr = none) →
    fileLines (runDispatches F st ds) = ds.map fun d => d.env.stamp ++ d.text F := by
  intro ds
  induction ds with
  | nil => intro st _ _ _ _ _ _ _; rfl
  | cons d ds ih =>
    intro st hreg hfl hcl hmax hrep hchain hok
    have hd := hok d (List.mem_cons_self _ _)
    obtain ⟨h1, h2, h3, h4, h5, h6, h7⟩ := run_all_ok F st d hreg hfl hcl hmax hd.1 hd.2.1
      hd.2.2.1 hd.2.2.2.1 hd.2.2.2.2
    simp only [List.map_cons, List.chain_cons] at hchain
    have hcol : collapse st d.env.stamp (d.text F) =
        (d.env.stamp ++ d.text F, { st with lastMessage := d.text F }) := by
      unfold collapse
      rw [if_pos (fun h => hchain.1 h.symm), hrep]
      simp
    rw [hcol] at h1 h7
    have := ih (d.run F st).state (by rw [h2]; exact hreg) (by rw [h3]; exact hfl)
      (by rw [h4]; exact hcl) (by rw [h5]; exact hmax) (by rw [h7]; exact hrep)
      (by rw [h6]; exact hchain.2) (fun d1 h => hok d1 (List.mem_cons_of_mem _ h))
    simp only [runDispatches, fileLines, List.map_cons, h1, this, List.singleton_append]


theorem text_ne_of_line (F : Fmt) (a1 a2 : List Arg) (p1 p2 : String) (l1 l2 : Level)
    (f : String) (n1 n2 : Int) (hl1 : l1 ≤ L_debug) (hl2 : l2 ≤ L_debug)
    (hm : messageOf F a1 p1 = messageOf F a2 p2) (hn : n1 ≠ n2) :
    getText F a1 p1 l1 f n1 ≠ getText F a2 p2 l2 f n2 :=
  fun h => hn (getText_inj F a1 a2 p1 p2 l1 l2 f f n1 n2 hl1 hl2 hm h).2.2

theorem messageOf_format (F : Fmt) (msg : String) : messageOf F [Arg.str msg] "%s" = msg := by
  unfold messageOf
  rw [if_neg (by decide)]
  exact F.sprintf_s msg

theorem messageOf_plain (F : Fmt) (msg : String) : messageOf F [Arg.str msg] "" = msg := by
  unfold messageOf
  rw [if_pos rfl]
  exact F.sprint_str msg

/-- In a sequence of dispatches, one stopped by the pre-check returns nil and calls no sink. -/
theorem runDispatches_ignored (F : Fmt) (st0 : State) :
    ∀ (ds : List Dispatch) (st : State),
      st.maxConsoleLevel = st0.maxConsoleLevel → st.maxSyslogLevel = st0.maxSyslogLevel →
      st.maxFileLevel = st0.maxFileLevel →
      ∀ (i : Nat) (d : Dispatch) (o : Outcome), ds[i]? = some d →
        (runDispatches F st ds)[i]? = some o → ignored st0 d.level →
        o.line = none ∧ o.effects = [] ∧ o.err = none := by
  intro ds
  induction ds with
  | nil => intro st _ _ _ i d o hd; simp at hd
  | cons d0 ds ih =>
    intro st ht1 ht2 ht3 i d o hd ho hig
    cases i with
    | zero =>
      simp only [List.getElem?_cons_zero, Option.some.injEq] at hd
      simp only [runDispatches, List.getElem?_cons_zero, Option.some.injEq] at ho
      subst hd
      subst ho
      unfold Dispatch.run
      rw [outputMessage_dropped F st d0.env d0.pattern d0.args d0.level d0.depth
        (Or.inl ((ignored_congr ht1 ht2 ht3).mpr hig))]
      exact ⟨rfl, rfl, rfl⟩
    | succ i =>
      simp only [List.getElem?_cons_succ] at hd
      simp only [runDispatches, List.getElem?_cons_succ] at ho
      have hcfg := outputMessage_config F st d0.env d0.pattern d0.args d0.level d0.depth
      exact ih (d0.run F st).state (hcfg.2.1.trans ht1) (hcfg.2.2.1.trans ht2)
        (hcfg.2.2.2.1.trans ht3) i d o hd ho hig

/-- What `TrimSpace` does: the input is a run of white space, the result, and a run of white
space, and the result neither starts nor ends with white space. This fixes the result: it is
the input without its longest white-space prefix and suffix. -/
theorem TrimSpace_spec (s : List Char) :
    ∃ ws1 ws2, s = ws1 ++ TrimSpace s ++ ws2 ∧
      (∀ c ∈ ws1, isSpace c = true) ∧ (∀ c ∈ ws2, isSpace c = true) ∧
      (∀ c, (TrimSpace s).head? = some c → isSpace c = false) ∧
      (∀ c, (TrimSpace s).getLast? = some c → isSpace c = false) := by
  have hb : ∀ l : List Char, ∀ c, (l.dropWhile isSpace).head? = some c → isSpace c = false := by
    intro l c hc
    have := List.head?_dropWhile_not isSpace l
    rw [hc] at this
    simpa using this
  have h2 : (s.dropWhile isSpace) =
      TrimSpace s ++ ((s.dropWhile isSpace).reverse.takeWhile isSpace).reverse := by
    unfold TrimSpace
    rw [← List.reverse_append, List.takeWhile_append_dropWhile, List.reverse_reverse]
  refine ⟨s.takeWhile isSpace, ((s.dropWhile isSpace).reverse.takeWhile isSpace).reverse,
    ?_, ?_, ?_, ?_, ?_⟩
  · rw [List.append_assoc, ← h2, List.takeWhile_append_dropWhile]
  · intro c hc
    exact List.mem_takeWhile_imp hc
  · intro c hc
    exact List.mem_takeWhile_imp (List.mem_reverse.mp hc)
  · intro c hc
    apply hb s c
    rw [h2]
    cases ht : TrimSpace s with
    | nil => rw [ht] at hc; simp at hc
    | cons x xs => rw [ht] at hc; simpa using hc
  · intro c hc
    apply hb (s.dropWhile isSpace).reverse c
    unfold TrimSpace at hc
    rw [List.getLast?_reverse] at hc
    exact hc

/-! ## The claims -/

/-- C1. For every state, level and sink: a sink whose threshold is more severe than the
level (`T < L`) gets no call from `outputMessage` at that level; and a call on a sink happens
only when `L ≤ T` for that sink's threshold and, for syslog and file, the sink is active
(`sys != nil`, `logFile != ""`). -/
theorem C1_sink_threshold (F : Fmt) (st : State) (env : Env) (pattern : String)
    (args : List Arg) (L : Level) (depth : Nat) :
    (st.maxConsoleLevel < L →
      ∀ e ∈ (outputMessage F st env pattern args L depth).effects, e.isConsole = false) ∧
    (st.maxSyslogLevel < L →
      ∀ e ∈ (outputMessage F st env pattern args L depth).effects, e.isSyslog = false) ∧
    (st.maxFileLevel < L →
      ∀ e ∈ (outputMessage F st env pattern args L depth).effects, e.isFile = false) ∧
    (∀ e ∈ (outputMessage F st env pattern args L depth).effects,
      (e.isConsole = true → L ≤ st.maxConsoleLevel) ∧
      (e.isSyslog = true → L ≤ st.maxSyslogLevel ∧ st.sys = true) ∧
      (e.isFile = true → L ≤ st.maxFileLevel ∧ st.logFile ≠ "")) := by
  have key : ∀ e ∈ (outputMessage F st env pattern args L depth).effects,
      (e.isConsole = true → L ≤ st.maxConsoleLevel) ∧
      (e.isSyslog = true → L ≤ st.maxSyslogLevel ∧ st.sys = true) ∧
      (e.isFile = true → L ≤ st.maxFileLevel ∧ st.logFile ≠ "") := by
    intro e he
    obtain ⟨msg, -, h⟩ := mem_outputMessage he
    rcases h with ⟨h1, rfl⟩ | ⟨h1, rfl⟩ | ⟨h1, rfl | rfl | rfl⟩
    · refine ⟨fun _ => h1, ?_, ?_⟩ <;> split_ifs <;> simp [Effect.isSyslog, Effect.isFile]
    · exact ⟨by simp [Effect.isConsole], fun _ => ⟨h1.2, h1.1⟩, by simp [Effect.isFile]⟩
    · exact ⟨by simp [Effect.isConsole], by simp [Effect.isSyslog], fun _ => ⟨h1.2, h1.1⟩⟩
    · exact ⟨by simp [Effect.isConsole], by simp [Effect.isSyslog], fun _ => ⟨h1.2, h1.1⟩⟩
    · exact ⟨by simp [Effect.isConsole], by simp [Effect.isSyslog], fun _ => ⟨h1.2, h1.1⟩⟩
  refine ⟨fun hT e he => ?_, fun hT e he => ?_, fun hT e he => ?_, key⟩
  · by_contra hc
    have := (key e he).1 (by simpa using hc)
    exact Nat.not_lt.mpr this hT
  · by_contra hc
    have := ((key e he).2.1 (by simpa using hc)).1
    exact Nat.not_lt.mpr this hT
  · by_contra hc
    have := ((key e he).2.2 (by simpa using hc)).1
    exact Nat.not_lt.mpr this hT

/-- C2 (as stated, refuted). In the state left by two identical calls (`isRepeated` set), the
stored text differs from that of `Notice("std")` at line 40; two such calls and one from
line 42, all let through, give a first line that starts with a newline, not the bare
timestamped line the claim gives. -/
theorem C2_repeat_collapsing_counterexample :
    repeatedState.lastMessage ≠ (callAt L_notice 40 "std").text goFmt ∧
    (callAt L_notice 42 "std").text goFmt ≠ (callAt L_notice 40 "std").text goFmt ∧
    (runDispatches goFmt repeatedState
      [callAt L_notice 40 "std", callAt L_notice 40 "std", callAt L_notice 42 "std"]).map
        Outcome.line =
      [some "\n2020-02-21 12:34:56 [Notice] log_test.go:40 - std\n", some ".",
       some "\n2020-02-21 12:34:56 [Notice] log_test.go:42 - std\n"] ∧
    (runDispatches goFmt repeatedState
      [callAt L_notice 40 "std", callAt L_notice 40 "std", callAt L_notice 42 "std"]).map
        Outcome.line ≠
      [some ((callAt L_notice 40 "std").env.stamp ++ (callAt L_notice 40 "std").text goFmt),
       some ".",
       some ("\n" ++ (callAt L_notice 42 "std").env.stamp ++
         (callAt L_notice 42 "std").text goFmt)] := by
  decide

/-- C2 (amended). For `k ≥ 1`: when `k+1` consecutive calls that are let through have the
same rendered text `t`, different from the stored text, and are followed by a call let through
with another rendered text, the lines produced are, in order: the timestamp and `t`, with a
newline before the timestamp when `isRepeated` was set before the run (the call before was a
collapsed repeat) and bare when it was not; then `k` times `.`; then a newline, the timestamp
and the other text. Every console write and file write of a call carries its line. -/
theorem C2_repeat_collapsing (F : Fmt) (st : State) (d0 : Dispatch) (ds : List Dispatch)
    (d1 : Dispatch) (t : String) (hk : 1 ≤ ds.length)
    (ht0 : d0.text F = t) (hts : ∀ d ∈ ds, d.text F = t) (ht1 : d1.text F ≠ t)
    (hst : st.lastMessage ≠ t)
    (hadm : ∀ o ∈ runDispatches F st (d0 :: ds ++ [d1]), o.line ≠ none) :
    (runDispatches F st (d0 :: ds ++ [d1])).map Outcome.line =
      some ((if st.isRepeated then "\n" else "") ++ d0.env.stamp ++ t) ::
        (List.replicate ds.length (some ".") ++ [some ("\n" ++ d1.env.stamp ++ d1.text F)]) ∧
    (∀ (st1 : State) (d : Dispatch) (m : String),
      (Effect.stderr m ∈ (d.run F st1).effects → (d.run F st1).line = some m) ∧
      (Effect.stdout m ∈ (d.run F st1).effects → (d.run F st1).line = some m) ∧
      (∀ p, Effect.fileWrite p m ∈ (d.run F st1).effects → (d.run F st1).line = some m)) := by
  refine ⟨?_, payload_is_line F⟩
  have hrun : runDispatches F st (d0 :: ds ++ [d1]) =
      d0.run F st :: (runDispatches F (d0.run F st).state ds ++
        [d1.run F (stateAfter F (d0.run F st).state ds)]) := by
    show runDispatches F st (d0 :: (ds ++ [d1])) = _
    simp [runDispatches, runDispatches_append]
  rw [hrun] at hadm ⊢
  have h0 := admitted_line F st d0 (hadm _ (by simp))
  have hcol0 : (collapse st d0.env.stamp (d0.text F)).1 =
      (if st.isRepeated then "\n" else "") ++ d0.env.stamp ++ t := by
    unfold collapse
    rw [ht0, if_pos (fun h => hst h.symm)]
    split_ifs <;> simp
  have hrep := repeat_run F t ds (d0.run F st).state (h0.2.1.trans ht0) hts
    (fun o ho => hadm o (by simp [ho]))
  have h1 := admitted_line F (stateAfter F (d0.run F st).state ds) d1 (hadm _ (by simp))
  have hne : ds ≠ [] := by
    intro h; rw [h] at hk; simp at hk
  have hcol1 : (collapse (stateAfter F (d0.run F st).state ds) d1.env.stamp (d1.text F)).1 =
      "\n" ++ d1.env.stamp ++ d1.text F := by
    unfold collapse
    rw [hrep.2.1, if_pos ht1, hrep.2.2 hne]
    simp
  simp only [List.map_cons, List.map_append, List.map_nil, h0.1, hcol0, hrep.1, h1.1, hcol1]

/-- Witness for C2 (amended), `TestCaptureStdLog`: four `std` lines from line 40 and one
from line 42, in the state the test sets up. -/
theorem C2_repeat_collapsing_witness :
    (runDispatches goFmt testState
      (callAt L_notice 40 "std" :: [callAt L_notice 40 "std", callAt L_notice 40 "std",
        callAt L_notice 40 "std"] ++ [callAt L_notice 42 "std"])).map Outcome.line =
      [some "2020-02-21 12:34:56 [Notice] log_test.go:40 - std\n", some ".", some ".", some ".",
       some "\n2020-02-21 12:34:56 [Notice] log_test.go:42 - std\n"] :=
  (C2_repeat_collapsing goFmt testState (callAt L_notice 40 "std")
    [callAt L_notice 40 "std", callAt L_notice 40 "std", callAt L_notice 40 "std"]
    (callAt L_notice 42 "std") "[Notice] log_test.go:40 - std\n" (by decide) (by decide)
    (by intro d hd
        simp only [List.mem_cons, List.mem_singleton, List.not_mem_nil, or_false, or_self] at hd
        rw [hd]; decide)
    (by decide) (by decide) (by decide)).1

/-- C3 (as stated, refuted). With all three thresholds at `Error`, at most one message per
second, a stored second other than 100 and every clock reading 100, the calls `Debug`,
`Error`, `Error` give: the first message stopped by the pre-check (not let through, nothing
written), the second let through and written to the three sinks, the third dropped. So the
first `N = 1` messages are not the ones let through, and a later one is not dropped. -/
theorem C3_rate_limiter_counterexample :
    strictState.maxMessagesPerSecond = 1 ∧ strictState.thisSecond ≠ 100 ∧
    (∀ d ∈ mixedCalls, d.env.now1 = 100 ∧ d.env.now2 = 100) ∧
    (runDispatches goFmt strictState mixedCalls).map Outcome.line =
      [none, some "2020-02-21 12:34:56 [Error] log_test.go:41 - b\n", none] ∧
    (runDispatches goFmt strictState mixedCalls).map Outcome.effects =
      [[],
       [Effect.stderr "2020-02-21 12:34:56 [Error] log_test.go:41 - b\n",
        Effect.syslog (syslogSeverity L_error) "[Error] log_test.go:41 - b\n",
        Effect.fileOpen "/tmp/app.log",
        Effect.fileWrite "/tmp/app.log" "2020-02-21 12:34:56 [Error] log_test.go:41 - b\n",
        Effect.fileClose "/tmp/app.log"],
       []] ∧
    (runDispatches goFmt strictState mixedCalls).map (fun o => o.line.isSome) ≠
      [true, false, false] := by
  decide

/-- C3 (amended). Rate limiter. With `maxMessagesPerSecond = N ≥ 1`, every clock reading equal
to `s` and a stored second different from `s`, in a sequence of dispatches: a dispatch that
passes the pre-check is let through when fewer than `N` dispatches before it passed the
pre-check (the first `N` messages that reach the limiter), and is dropped otherwise, and a
dropped one returns nil and calls no sink; a dispatch stopped by the pre-check is not let
through, returns nil, calls no sink, and is not counted. And a dispatch past the pre-check,
made with a maximum of at least 1, whose two clock readings give one second different from
the stored one is let through whatever the count was, and leaves the count at 1 and that
second stored. -/
theorem C3_rate_limiter (F : Fmt) (st : State) (N s : Int) (ds : List Dispatch)
    (hN : 1 ≤ N) (hmax : st.maxMessagesPerSecond = N) (hs : st.thisSecond ≠ s)
    (hclock : ∀ d ∈ ds, d.env.now1 = s ∧ d.env.now2 = s) :
    (∀ (i : Nat) (d : Dispatch) (o : Outcome), ds[i]? = some d →
      (runDispatches F st ds)[i]? = some o → ¬ ignored st d.level →
      ((((ds.take i).countP fun d1 => !decide (ignored st d1.level) : Nat) : Int) < N →
        o.line ≠ none) ∧
      (N ≤ (((ds.take i).countP fun d1 => !decide (ignored st d1.level) : Nat) : Int) →
        o.line = none ∧ o.effects = [] ∧ o.err = none)) ∧
    (∀ (st1 : State) (d : Dispatch), 1 ≤ st1.maxMessagesPerSecond → ¬ ignored st1 d.level →
      d.env.now1 ≠ st1.thisSecond → d.env.now2 = d.env.now1 →
      (d.run F st1).line ≠ none ∧ (d.run F st1).state.messagesThisSecond = 1 ∧
      (d.run F st1).state.thisSecond = d.env.now1) ∧
    (∀ (i : Nat) (d : Dispatch) (o : Outcome), ds[i]? = some d →
      (runDispatches F st ds)[i]? = some o → ignored st d.level →
      o.line = none ∧ o.effects = [] ∧ o.err = none) := by
  refine ⟨?_, ?_, ?_⟩
  · intro i d o hd ho hpass
    have := limiter_window F st N s hN ds st 0 hmax rfl rfl rfl (Or.inl ⟨rfl, hs⟩) hclock
      i d o hd ho hpass
    simpa using this
  · intro st1 d hmax1 hpass hne heq
    have hlim : checkMessagesLimit st1 d.env.now1 d.env.now2 =
        (false, { st1 with thisSecond := d.env.now1, messagesThisSecond := 1 }) := by
      unfold checkMessagesLimit
      rw [if_neg (by omega), if_pos (fun h => hne h.symm), heq]
    have hst := outputMessage_admitted_state F st1 d.env d.pattern d.args d.level d.depth hpass
      (by rw [hlim])
    unfold Dispatch.run
    refine ⟨?_, ?_, ?_⟩
    · rw [hst.2.2.2.2]; simp
    · rw [hst.2.1, hlim]
    · rw [hst.1, hlim]
  · intro i d o hd ho hig
    exact runDispatches_ignored F st ds st rfl rfl rfl i d o hd ho hig

/-- Witness for C3, `TestSetMaxMessagesPerSecond`: with a maximum of 2, `Info(1)`, `Info(2)`
and `Info(3)` made in one second give two timestamped lines and a dropped third call. -/
theorem C3_rate_limiter_witness :
    ((outputMessage goFmt (stateAfter goFmt limitedState (limitedCalls.take 2)) (envAt 100 59) ""
        [Arg.int 3] L_info 2).line = none ∧
      (outputMessage goFmt (stateAfter goFmt limitedState (limitedCalls.take 2)) (envAt 100 59) ""
        [Arg.int 3] L_info 2).effects = [] ∧
      (outputMessage goFmt (stateAfter goFmt limitedState (limitedCalls.take 2)) (envAt 100 59) ""
        [Arg.int 3] L_info 2).err = none) ∧
    (runDispatches goFmt limitedState limitedCalls).map Outcome.line =
      [some "2020-02-21 12:34:56 [Info] log_test.go:57 - 1\n",
       some "2020-02-21 12:34:56 [Info] log_test.go:58 - 2\n", none] :=
  ⟨((C3_rate_limiter goFmt limitedState testMax 100 limitedCalls (by decide) rfl (by decide)
      (by intro d hd
          simp only [limitedCalls, List.mem_cons, List.mem_singleton, List.not_mem_nil, or_false] at hd
          rcases hd with rfl | rfl | rfl <;> exact ⟨rfl, rfl⟩)).1 2 (infoCall 100 59 3) _
      rfl rfl (by decide)).2 (by decide), by decide⟩

/-- C4. The foreign-stream adapter when the level pattern matches. The line is some leading
non-letters, a level word (in any case), an optional `s`, a longest non-empty run of
separators, and a rest; the rest is a run of white space, a text that neither starts nor ends
with white space, and a run of white space (which fixes the text: the rest without its
longest white-space prefix and suffix, the value of `TrimSpace`); `Write` dispatches, through
`outputMessage` with an empty pattern and depth 4, that text as the one string argument, at
the level the `switch` gives for the lower-cased first letter of the level word (`f` Fatal,
`a` Alert, `c` Critical, `e` Error, `w` Warning, `n` Notice, `i` Info, `d` Debug). Whatever
the Unicode tables, `ERROR: disk full` is dispatched at `Error` with the text `disk full`, so
is the same line ending in a line feed, and a line reading `[warn]`, a tab, `low disk`, a
blank and a carriage return with a line feed is dispatched at `Warning` with the text
`low disk`. -/
theorem C4_adapter_matching (U : UnicodeTables) (F : Fmt) (st : State) (env : Env)
    (buf : List Char) (h : FindSubmatch U msgLevelCheck buf ≠ []) :
    (∃ lead word plural seps rest w a as x xs,
      buf = lead ++ word ++ plural ++ seps ++ rest ∧
      (∀ y ∈ lead, notIn U nonLetter y = true) ∧
      w ∈ levelWords ∧ List.Forall₂ (fun a x => foldEq a x = true) w word ∧
      (plural = [] ∨ ∃ y, plural = [y] ∧ foldEq 's' y = true) ∧
      seps ≠ [] ∧ (∀ y ∈ seps, notIn U separator y = true) ∧
      (∀ y, rest.head? = some y → notIn U separator y = false) ∧
      w = a :: as ∧ word = x :: xs ∧ x.toLower = a ∧
      a ∈ ['f', 'a', 'c', 'e', 'w', 'n', 'i', 'd'] ∧
      (∃ ws1 text ws2, rest = ws1 ++ text ++ ws2 ∧
        (∀ c ∈ ws1, isSpace c = true) ∧ (∀ c ∈ ws2, isSpace c = true) ∧
        (∀ c, text.head? = some c → isSpace c = false) ∧
        (∀ c, text.getLast? = some c → isSpace c = false) ∧
        TrimSpace rest = text ∧
        Write U F st env buf = some
          ⟨outputMessage F st env "" [Arg.str (String.mk text)] (letterLevel L_notice a) 4,
            if letterLevel L_notice a = L_fatal then none
            else some (byteLen rest,
              (outputMessage F st env "" [Arg.str (String.mk text)]
                (letterLevel L_notice a) 4).err)⟩)) ∧
    (∀ l : Level, letterLevel l 'f' = L_fatal ∧ letterLevel l 'a' = L_alert ∧
      letterLevel l 'c' = L_critical ∧ letterLevel l 'e' = L_error ∧
      letterLevel l 'w' = L_warning ∧ letterLevel l 'n' = L_notice ∧
      letterLevel l 'i' = L_info ∧ letterLevel l 'd' = L_debug) ∧
    Write U F st env "ERROR: disk full".data = some
      ⟨outputMessage F st env "" [Arg.str "disk full"] L_error 4,
        some (9, (outputMessage F st env "" [Arg.str "disk full"] L_error 4).err)⟩ ∧
    Write U F st env "ERROR: disk full\n".data = some
      ⟨outputMessage F st env "" [Arg.str "disk full"] L_error 4,
        some (10, (outputMessage F st env "" [Arg.str "disk full"] L_error 4).err)⟩ ∧
    Write U F st env " [warn]\t low disk \r\n".data = some
      ⟨outputMessage F st env "" [Arg.str "low disk"] L_warning 4,
        some (11, (outputMessage F st env "" [Arg.str "low disk"] L_warning 4).err)⟩ := by
  refine ⟨?_, fun l => ⟨rfl, rfl, rfl, rfl, rfl, rfl, rfl, rfl⟩, ?_, ?_, ?_⟩
  · obtain ⟨lead, word, plural, seps, rest, w, a, as, x, xs, h1, h2, h3, h4, h5, h6, h7, h8, h9,
      h10, h11, h12, -, h14⟩ := stripLevel_match U buf h
    obtain ⟨ws1, ws2, t1, t2, t3, t4, t5⟩ := TrimSpace_spec rest
    refine ⟨lead, word, plural, seps, rest, w, a, as, x, xs, h1, h2, h3, h4, h5, h6, h7, h8, h9,
      h10, h11, h12, ws1, TrimSpace rest, ws2, t1, t2, t3, t4, t5, rfl, ?_⟩
    unfold Write
    rw [h14]
    simp only []
    split_ifs <;> rfl
  · have hm : FindSubmatch U msgLevelCheck "ERROR: disk full".data =
        ["ERROR: ".data, "ERROR: ".data, "ERROR".data] := by
      rw [FindSubmatch_ascii U _ _ (by decide)]
      decide
    unfold Write stripLevel
    rw [hm]
    rfl
  · have hm : FindSubmatch U msgLevelCheck "ERROR: disk full\n".data =
        ["ERROR: ".data, "ERROR: ".data, "ERROR".data] := by
      rw [FindSubmatch_ascii U _ _ (by decide)]
      decide
    unfold Write stripLevel
    rw [hm]
    rfl
  · have hm : FindSubmatch U msgLevelCheck " [warn]\t low disk \r\n".data =
        [" [warn]\t ".data, " [warn]\t ".data, "warn".data] := by
      rw [FindSubmatch_ascii U _ _ (by decide)]
      decide
    unfold Write stripLevel
    rw [hm]
    rfl

/-- Witness for C4: the line `ERROR: disk full` with its line feed, as the standard logger
hands it over, with the ASCII tables; the line feed is trimmed from the text. -/
theorem C4_adapter_matching_witness :
    FindSubmatch asciiTables msgLevelCheck "ERROR: disk full\n".data ≠ [] ∧
    Write asciiTables goFmt testState (envAt 100 40) "ERROR: disk full\n".data = some
      ⟨outputMessage goFmt testState (envAt 100 40) "" [Arg.str "disk full"] L_error 4,
        some (10, (outputMessage goFmt testState (envAt 100 40) "" [Arg.str "disk full"]
          L_error 4).err)⟩ :=
  ⟨by decide,
   (C4_adapter_matching asciiTables goFmt testState (envAt 100 40) "ERROR: disk full\n".data
    (by decide)).2.2.2.1⟩

/-- C5. The foreign-stream adapter when the pattern does not match. A line whose first
letter-or-digit run is not a level word (optionally pluralised) followed by a separator is
not matched by the level pattern; the line is a run of white space, a text that neither
starts nor ends with white space, and a run of white space (which fixes the text: the line
without its longest white-space prefix and suffix, the value of `TrimSpace`), and `Write`
dispatches that text at the default level `Notice` and returns the length of the line; a
level word later in the line changes nothing. Whatever the Unicode tables,
`something error occurred` is dispatched at `Notice` with its full text, and so is the same
line with two blanks before it and a carriage return and line feed after it, without them. -/
theorem C5_adapter_default (U : UnicodeTables) (F : Fmt) (st : State) (env : Env)
    (buf : List Char) (h : leadsWithLevel U buf = false) :
    FindSubmatch U msgLevelCheck buf = [] ∧
    (∃ ws1 text ws2, buf = ws1 ++ text ++ ws2 ∧
      (∀ c ∈ ws1, isSpace c = true) ∧ (∀ c ∈ ws2, isSpace c = true) ∧
      (∀ c, text.head? = some c → isSpace c = false) ∧
      (∀ c, text.getLast? = some c → isSpace c = false) ∧
      TrimSpace buf = text ∧
      Write U F st env buf = some
        ⟨outputMessage F st env "" [Arg.str (String.mk text)] L_notice 4,
          some (byteLen buf,
            (outputMessage F st env "" [Arg.str (String.mk text)] L_notice 4).err)⟩) ∧
    Write U F st env "something error occurred".data = some
      ⟨outputMessage F st env "" [Arg.str "something error occurred"] L_notice 4,
        some (24,
          (outputMessage F st env "" [Arg.str "something error occurred"] L_notice 4).err)⟩ ∧
    Write U F st env "  something error occurred\r\n".data = some
      ⟨outputMessage F st env "" [Arg.str "something error occurred"] L_notice 4,
        some (28,
          (outputMessage F st env "" [Arg.str "something error occurred"] L_notice 4).err)⟩ := by
  have hno : FindSubmatch U msgLevelCheck buf = [] := by
    by_contra hc
    rw [leads_of_match U buf hc] at h
    exact absurd h (by simp)
  refine ⟨hno, ?_, ?_, ?_⟩
  · obtain ⟨ws1, ws2, t1, t2, t3, t4, t5⟩ := TrimSpace_spec buf
    refine ⟨ws1, TrimSpace buf, ws2, t1, t2, t3, t4, t5, rfl, ?_⟩
    unfold Write stripLevel
    rw [hno]
    rfl
  · have hm : FindSubmatch U msgLevelCheck "something error occurred".data = [] := by
      rw [FindSubmatch_ascii U _ _ (by decide)]
      decide
    unfold Write stripLevel
    rw [hm]
    rfl
  · have hm : FindSubmatch U msgLevelCheck "  something error occurred\r\n".data = [] := by
      rw [FindSubmatch_ascii U _ _ (by decide)]
      decide
    unfold Write stripLevel
    rw [hm]
    rfl

/-- Witness for C5: the line `something error occurred` between two blanks and a carriage
return with a line feed, with the ASCII tables; the white space is trimmed from the text. -/
theorem C5_adapter_default_witness :
    leadsWithLevel asciiTables "  something error occurred\r\n".data = false ∧
    Write asciiTables goFmt testState (envAt 100 40) "  something error occurred\r\n".data = some
      ⟨outputMessage goFmt testState (envAt 100 40) "" [Arg.str "something error occurred"]
          L_notice 4,
        some (28, (outputMessage goFmt testState (envAt 100 40) ""
            [Arg.str "something error occurred"] L_notice 4).err)⟩ :=
  ⟨by decide,
   (C5_adapter_default asciiTables goFmt testState (envAt 100 40)
    "  something error occurred\r\n".data (by decide)).2.2.2⟩

/-- C6. Pre-check frame: when the level is more verbose than all three thresholds,
`outputMessage` returns nil, calls no sink, and leaves the whole package state, so the
rate-limit state and the repeat state, as it was. -/
theorem C6_precheck_frame (F : Fmt) (st : State) (env : Env) (pattern : String)
    (args : List Arg) (L : Level) (depth : Nat)
    (h : L > st.maxConsoleLevel ∧ L > st.maxSyslogLevel ∧ L > st.maxFileLevel) :
    (outputMessage F st env pattern args L depth).err = none ∧
    (outputMessage F st env pattern args L depth).effects = [] ∧
    (outputMessage F st env pattern args L depth).state = st ∧
    (outputMessage F st env pattern args L depth).state.thisSecond = st.thisSecond ∧
    (outputMessage F st env pattern args L depth).state.messagesThisSecond =
      st.messagesThisSecond ∧
    (outputMessage F st env pattern args L depth).state.lastMessage = st.lastMessage ∧
    (outputMessage F st env pattern args L depth).state.isRepeated = st.isRepeated := by
  have : outputMessage F st env pattern args L depth = ⟨st, [], none, none⟩ := by
    unfold outputMessage
    rw [if_pos (show ignored st L from h)]
  simp [this]

/-- Witness for C6: `Debug("x")` in a state whose three thresholds are `Error`. -/
theorem C6_precheck_frame_witness :
    (L_debug > quietState.maxConsoleLevel ∧ L_debug > quietState.maxSyslogLevel ∧
      L_debug > quietState.maxFileLevel) ∧
    (outputMessage goFmt quietState (envAt 5 40) "" [Arg.str "x"] L_debug 2).effects = [] ∧
    (outputMessage goFmt quietState (envAt 5 40) "" [Arg.str "x"] L_debug 2).state =
      quietState :=
  ⟨by decide,
   (C6_precheck_frame goFmt quietState (envAt 5 40) "" [Arg.str "x"] L_debug 2 (by decide)).2.1,
   (C6_precheck_frame goFmt quietState (envAt 5 40) "" [Arg.str "x"] L_debug 2 (by decide)).2.2.1⟩

/-- C7. File sink disablement. When a file path is registered, the level passes the file
threshold and the call gets to open the file: if the open fails, or the open succeeds and the
write fails, with error `e`, then `outputMessage` returns `e` and sets `logFile` to the empty
string. After that, whatever calls follow that are not `InitFile` (dispatches, the other
setters, `InitSyslog`), no `outputMessage` call opens, writes or closes a file, the error it
returns is nil or the error of its console or syslog call, and `logFile` stays empty. -/
theorem C7_file_sink_disablement (F : Fmt) (st : State) (d : Dispatch) (e : Error)
    (hreg : st.logFile ≠ "") (hL : d.level ≤ st.maxFileLevel)
    (hopen : Effect.fileOpen st.logFile ∈ (d.run F st).effects)
    (hfail : d.env.openErr = some e ∨ (d.env.openErr = none ∧ d.env.writeErr = some e)) :
    (d.run F st).err = some e ∧ (d.run F st).state.logFile = "" ∧
    ∀ ops : List Op, (∀ op ∈ ops, op.isInitFile = false) → ∀ d1 : Dispatch,
      (∀ e1 ∈ (d1.run F (applyOps F (d.run F st).state ops)).effects, e1.isFile = false) ∧
      ((d1.run F (applyOps F (d.run F st).state ops)).err = none ∨
        (d1.run F (applyOps F (d.run F st).state ops)).err = d1.env.consoleErr ∨
        (d1.run F (applyOps F (d.run F st).state ops)).err = d1.env.syslogErr) ∧
      (d1.run F (applyOps F (d.run F st).state ops)).state.logFile = "" := by
  have hfst : (d.run F st).err = some e ∧ (d.run F st).state.logFile = "" := by
    unfold Dispatch.run at hopen ⊢
    rcases outputMessage_cases F st d.env d.pattern d.args d.level d.depth with
      ⟨_, h1⟩ | ⟨_, _, h1⟩ | ⟨_, _, h1⟩
    · rw [h1] at hopen; simp at hopen
    · rw [h1] at hopen; simp at hopen
    · rw [h1] at hopen ⊢
      have hf := collapse_frame (checkMessagesLimit st d.env.now1 d.env.now2).2 d.env.stamp
        (getText F d.args d.pattern d.level (shortName (d.env.Caller d.depth).1)
          (d.env.Caller d.depth).2)
      have hg := checkMessagesLimit_frame st d.env.now1 d.env.now2
      obtain ⟨pre1, hp⟩ := reach_consoleSink _ _ _ _ _ _ (by rfl) hopen
      rw [hp]
      exact fileSink_failure _ _ _ _ _ e (by rw [hf.2.2.2.2.2.1, hg.2.2.2.2.2.1]; exact hreg)
        (by rw [hf.2.2.2.1, hg.2.2.2.1]; exact hL) hfail
  refine ⟨hfst.1, hfst.2, ?_⟩
  intro ops hops d1
  exact outputMessage_no_file F _ d1.env d1.pattern d1.args d1.level d1.depth
    (applyOps_no_file F ops _ hfst.2 hops)

/-- The call `Error("x")` of the witness of C7: the open of the log file fails. -/
theorem C7_file_sink_disablement_witness :
    (failedOpenCall.run goFmt testState).err = some "is a directory" ∧
    (failedOpenCall.run goFmt testState).state.logFile = "" ∧
    (failedOpenCall.run goFmt (applyOps goFmt (failedOpenCall.run goFmt testState).state
      [Op.setConsoleLevel L_info, Op.output failedOpenCall])).effects =
        [Effect.stderr "."] :=
  ⟨(C7_file_sink_disablement goFmt testState failedOpenCall "is a directory" (by decide) (by decide)
      (by decide) (Or.inl rfl)).1,
   (C7_file_sink_disablement goFmt testState failedOpenCall "is a directory" (by decide) (by decide)
      (by decide) (Or.inl rfl)).2.1, by decide⟩

/-- C8 (code as written). `SetSyslogLevel(level)` leaves the syslog threshold as it was and
assigns the console threshold: it is the same function as `SetConsoleLevel`. After
`InitSyslog("testLogApp", L_warning)` and `SetSyslogLevel(L_error)`, as in `TestSyslog`, the
syslog threshold is still `Warning` and the console threshold has become `Error`. -/
theorem C8_SetSyslogLevel_sets_console :
    (∀ (st : State) (level : Level),
      (SetSyslogLevel st level).maxSyslogLevel = st.maxSyslogLevel ∧
      (SetSyslogLevel st level).maxConsoleLevel = level ∧
      SetSyslogLevel st level = SetConsoleLevel st level) ∧
    (SetSyslogLevel (InitSyslog State.init "testLogApp" L_warning none).1 L_error).maxSyslogLevel
      = L_warning ∧
    (SetSyslogLevel (InitSyslog State.init "testLogApp" L_warning none).1 L_error).maxConsoleLevel
      = L_error ∧
    (InitSyslog State.init "testLogApp" L_warning none).1.maxConsoleLevel = L_debug :=
  ⟨fun _ _ => ⟨rfl, rfl, rfl⟩, rfl, rfl, rfl⟩

/-- C9 (as stated, refuted). After `Debug("test")` from line 82, the same call from line 82
and then `Debug("test")` from line 83 are two consecutive calls let through, with the same
message text and different call sites; the first of them is not written in full, it is
collapsed to `.`, and the second has a newline before its timestamp. And a `Level` value
outside the eight, 8, renders as `L_fatal` does, so the text does not tell them apart. -/
theorem C9_call_site_key_counterexample :
    messageOf goFmt (callAt L_debug 82 "test").args (callAt L_debug 82 "test").pattern =
      messageOf goFmt (callAt L_debug 83 "test").args (callAt L_debug 83 "test").pattern ∧
    ((callAt L_debug 82 "test").env.Caller 2).2 ≠ ((callAt L_debug 83 "test").env.Caller 2).2 ∧
    (runDispatches goFmt afterDebug [callAt L_debug 82 "test", callAt L_debug 83 "test"]).map
      Outcome.line =
      [some ".", some "\n2020-02-21 12:34:56 [Debug] log_test.go:83 - test\n"] ∧
    (runDispatches goFmt afterDebug [callAt L_debug 82 "test", callAt L_debug 83 "test"]).map
      Outcome.line ≠
      [some ((callAt L_debug 82 "test").env.stamp ++ (callAt L_debug 82 "test").text goFmt),
       some ((callAt L_debug 83 "test").env.stamp ++ (callAt L_debug 83 "test").text goFmt)] ∧
    getText goFmt [Arg.str "test"] "" 8 "log_test.go" 82 =
      getText goFmt [Arg.str "test"] "" L_fatal "log_test.go" 82 := by
  decide

/-- C9 (amended). The rendered text `[LevelName] file:line - message` is injective in the
call site: for one message text, two calls that differ in level (among the eight levels),
short file name or line have different rendered texts. Hence, of two consecutive calls let
through with the same message text and different level or call site, the second is never
collapsed: its line is its timestamp and its own rendered text, after a newline exactly when
`isRepeated` is set after the first; and when the first does not repeat the stored text it is
written in full too (after a newline if `isRepeated` was set before it) and the second gets
no newline. -/
theorem C9_call_site_key (F : Fmt) (st : State) (d1 d2 : Dispatch)
    (hl1 : d1.level ≤ L_debug) (hl2 : d2.level ≤ L_debug)
    (hm : messageOf F d1.args d1.pattern = messageOf F d2.args d2.pattern)
    (hdiff : d1.level ≠ d2.level ∨
      shortName (d1.env.Caller d1.depth).1 ≠ shortName (d2.env.Caller d2.depth).1 ∨
      (d1.env.Caller d1.depth).2 ≠ (d2.env.Caller d2.depth).2)
    (hadm : ∀ o ∈ runDispatches F st [d1, d2], o.line ≠ none) :
    d1.text F ≠ d2.text F ∧
    d2.text F = "[" ++ Level.String d2.level ++ "] " ++ shortName (d2.env.Caller d2.depth).1 ++
      ":" ++ toString (d2.env.Caller d2.depth).2 ++ " - " ++ messageOf F d2.args d2.pattern ++
      "\n" ∧
    (d2.run F (d1.run F st).state).line =
      some ((if (d1.run F st).state.isRepeated then "\n" else "") ++ d2.env.stamp ++
        d2.text F) ∧
    (d2.run F (d1.run F st).state).line ≠ some "." ∧
    (d1.text F ≠ st.lastMessage →
      (d1.run F st).line =
        some ((if st.isRepeated then "\n" else "") ++ d1.env.stamp ++ d1.text F) ∧
      (d2.run F (d1.run F st).state).line = some (d2.env.stamp ++ d2.text F)) := by
  have hne : d1.text F ≠ d2.text F := by
    intro h
    obtain ⟨h1, h2, h3⟩ := getText_inj F d1.args d2.args d1.pattern d2.pattern d1.level d2.level
      _ _ _ _ hl1 hl2 hm h
    rcases hdiff with hd | hd | hd
    · exact hd h1
    · exact hd h2
    · exact hd h3
  have ha1 := admitted_line F st d1 (hadm _ (by simp [runDispatches]))
  have ha2 := admitted_line F (d1.run F st).state d2 (hadm _ (by simp [runDispatches]))
  have hcol : ∀ (s : State) (stamp text : String), text ≠ s.lastMessage →
      (collapse s stamp text).1 = (if s.isRepeated then "\n" else "") ++ stamp ++ text ∧
      (collapse s stamp text).2.isRepeated = false := by
    intro s stamp text hx
    unfold collapse
    rw [if_pos hx]
    split_ifs with hr <;> simp [hr]
  have h2 := hcol (d1.run F st).state d2.env.stamp (d2.text F)
    (by rw [ha1.2.1]; exact fun h => hne h.symm)
  refine ⟨hne, rfl, by rw [ha2.1, h2.1], ?_, ?_⟩
  · rw [ha2.1, h2.1]
    intro h
    exact line_ne_dot _ _ F d2 (Option.some.inj h)
  · intro hfresh
    have h1 := hcol st d1.env.stamp (d1.text F) hfresh
    refine ⟨by rw [ha1.1, h1.1], ?_⟩
    rw [ha2.1, h2.1, ha1.2.2, h1.2]
    simp

/-- Witness for C9 (amended): the first two calls of `TestInterfaces`, `Debugf("%s", "test")`
on line 81 and `Debug("test")` on line 82, and then all fourteen: fourteen full lines. -/
theorem C9_call_site_key_witness :
    (callfAt L_debug 81 "test").text goFmt ≠ (callAt L_debug 82 "test").text goFmt ∧
    ((callAt L_debug 82 "test").run goFmt
      ((callfAt L_debug 81 "test").run goFmt testState).state).line =
      some "2020-02-21 12:34:56 [Debug] log_test.go:82 - test\n" ∧
    (runDispatches goFmt testState testInterfacesCalls).map Outcome.line =
      [some "2020-02-21 12:34:56 [Debug] log_test.go:81 - test\n",
       some "2020-02-21 12:34:56 [Debug] log_test.go:82 - test\n",
       some "2020-02-21 12:34:56 [Info] log_test.go:83 - test\n",
       some "2020-02-21 12:34:56 [Info] log_test.go:84 - test\n",
       some "2020-02-21 12:34:56 [Notice] log_test.go:85 - test\n",
       some "2020-02-21 12:34:56 [Notice] log_test.go:86 - test\n",
       some "2020-02-21 12:34:56 [Warning] log_test.go:87 - test\n",
       some "2020-02-21 12:34:56 [Warning] log_test.go:88 - test\n",
       some "2020-02-21 12:34:56 [Error] log_test.go:89 - test\n",
       some "2020-02-21 12:34:56 [Error] log_test.go:90 - test\n",
       some "2020-02-21 12:34:56 [Critical] log_test.go:91 - test\n",
       some "2020-02-21 12:34:56 [Critical] log_test.go:92 - test\n",
       some "2020-02-21 12:34:56 [Alert] log_test.go:93 - test\n",
       some "2020-02-21 12:34:56 [Alert] log_test.go:94 - test\n"] :=
  ⟨(C9_call_site_key goFmt testState (callfAt L_debug 81 "test") (callAt L_debug 82 "test")
      (by decide) (by decide) (by decide) (Or.inr (Or.inr (by decide))) (by decide)).1,
   ((C9_call_site_key goFmt testState (callfAt L_debug 81 "test") (callAt L_debug 82 "test")
      (by decide) (by decide) (by decide) (Or.inr (Or.inr (by decide))) (by decide)).2.2.2.2
      (by decide)).2,
   by decide⟩

/-- C10. Syslog delivery: an admitted dispatch at level `L` with an active syslog
connection, `L` within the syslog threshold and no console write failure makes exactly one
syslog call; its severity is given by the switch of lines 139-158, which sends the eight
levels one-to-one to Emerg, Alert, Crit, Err, Warning, Notice, Info, Debug; its payload is
the rendered text `[LevelName] file:line - message` with no timestamp, whatever line
(a timestamped one or the collapsed `.`) went to console and file. -/
theorem C10_syslog_delivery (F : Fmt) (st : State) (env : Env) (pattern : String)
    (args : List Arg) (L : Level) (depth : Nat)
    (hadm : (checkMessagesLimit st env.now1 env.now2).1 = false)
    (hsys : st.sys = true) (hL : L ≤ st.maxSyslogLevel)
    (hcons : L ≤ st.maxConsoleLevel → env.consoleErr = none) :
    (outputMessage F st env pattern args L depth).effects.filter Effect.isSyslog =
      [Effect.syslog (syslogSeverity L)
        ("[" ++ Level.String L ++ "] " ++ shortName (env.Caller depth).1 ++ ":" ++
          toString (env.Caller depth).2 ++ " - " ++
          (if pattern = "" then F.Sprint args else F.Sprintf pattern args) ++ "\n")] ∧
    (syslogSeverity L_fatal = Severity.Emerg ∧ syslogSeverity L_alert = Severity.Alert ∧
      syslogSeverity L_critical = Severity.Crit ∧ syslogSeverity L_error = Severity.Err ∧
      syslogSeverity L_warning = Severity.Warning ∧ syslogSeverity L_notice = Severity.Notice ∧
      syslogSeverity L_info = Severity.Info ∧ syslogSeverity L_debug = Severity.Debug) ∧
    (∀ a b : Level, a ≤ L_debug → b ≤ L_debug → syslogSeverity a = syslogSeverity b → a = b) := by
  refine ⟨?_, ⟨rfl, rfl, rfl, rfl, rfl, rfl, rfl, rfl⟩, ?_⟩
  · rcases outputMessage_cases F st env pattern args L depth with ⟨hi, _⟩ | ⟨_, hh, _⟩ | ⟨_, _, h1⟩
    · exact absurd hL (Nat.not_le.mpr hi.2.1)
    · rw [hadm] at hh; exact absurd hh (by simp)
    · rw [h1]
      have hf := collapse_frame (checkMessagesLimit st env.now1 env.now2).2 env.stamp
        (getText F args pattern L (shortName (env.Caller depth).1) (env.Caller depth).2)
      have hg := checkMessagesLimit_frame st env.now1 env.now2
      rw [syslog_consoleSink _ _ _ _ _ (by rw [hf.2.1, hg.2.1]; exact hcons)]
      rw [hf.1, hf.2.2.1, hg.1, hg.2.2.1, if_pos ⟨hsys, hL⟩]
      rfl
  · intro a b ha hb
    have ha' : a ≤ 7 := ha
    have hb' : b ≤ 7 := hb
    interval_cases a <;> interval_cases b <;> simp [syslogSeverity]

/-- Witness for C10: a second `Error("x")` from the same line is collapsed to `.` for
console and file, and goes to syslog as `Err` with the full rendered text. -/
theorem C10_syslog_delivery_witness :
    (outputMessage goFmt syslogState (envAt 100 40) "" [Arg.str "x"] L_error 2).effects.filter
      Effect.isSyslog = [Effect.syslog Severity.Err "[Error] log_test.go:40 - x\n"] ∧
    (outputMessage goFmt syslogState (envAt 100 40) "" [Arg.str "x"] L_error 2).line =
      some "." :=
  ⟨(C10_syslog_delivery goFmt syslogState (envAt 100 40) "" [Arg.str "x"] L_error 2
      (by decide) (by decide) (by decide) (fun _ => rfl)).1, by decide⟩

/-- C11. Console write failure is fail-fast: for a call that got past the pre-check and the
limiter and whose level passes the console threshold, when the console write returns the
error `e`, `outputMessage` returns `e`, the console write is its only sink call (no syslog
call, no file open, write or close), and `logFile` is as it was. -/
theorem C11_console_fail_fast (F : Fmt) (st : State) (env : Env) (pattern : String)
    (args : List Arg) (L : Level) (depth : Nat) (e : Error)
    (hadm : (checkMessagesLimit st env.now1 env.now2).1 = false)
    (hL : L ≤ st.maxConsoleLevel) (he : env.consoleErr = some e) :
    (outputMessage F st env pattern args L depth).err = some e ∧
    (∃ msg, (outputMessage F st env pattern args L depth).effects =
      [if L ≤ L_warning then Effect.stderr msg else Effect.stdout msg]) ∧
    (∀ x ∈ (outputMessage F st env pattern args L depth).effects,
      x.isSyslog = false ∧ x.isFile = false) ∧
    (outputMessage F st env pattern args L depth).state.logFile = st.logFile := by
  have hi : ¬ ignored st L := fun h => Nat.not_lt.mpr hL h.1
  obtain ⟨st2, -, h2, -, -, h5, heq⟩ := outputMessage_admitted_eq F st env pattern args L depth
    hi hadm
  rw [heq, consoleSink_fail st2 env L _ _ e (by rw [h2]; exact hL) he]
  refine ⟨rfl, ⟨_, rfl⟩, ?_, h5⟩
  intro x hx
  simp only [List.mem_singleton] at hx
  rw [hx]
  split_ifs <;> exact ⟨rfl, rfl⟩

/-- Witness for C11: `Error("x")` in the state of the tests, the console write failing. -/
theorem C11_console_fail_fast_witness :
    (outputMessage goFmt testState { envAt 100 40 with consoleErr := some "EPIPE" } ""
      [Arg.str "x"] L_error 2).err = some "EPIPE" ∧
    (outputMessage goFmt testState { envAt 100 40 with consoleErr := some "EPIPE" } ""
      [Arg.str "x"] L_error 2).effects =
      [Effect.stderr "2020-02-21 12:34:56 [Error] log_test.go:40 - x\n"] ∧
    (outputMessage goFmt testState { envAt 100 40 with consoleErr := some "EPIPE" } ""
      [Arg.str "x"] L_error 2).state.logFile = "/tmp/logTest1" :=
  ⟨(C11_console_fail_fast goFmt testState { envAt 100 40 with consoleErr := some "EPIPE" } ""
      [Arg.str "x"] L_error 2 "EPIPE" (by decide) (by decide) rfl).1, by decide,
   (C11_console_fail_fast goFmt testState { envAt 100 40 with consoleErr := some "EPIPE" } ""
      [Arg.str "x"] L_error 2 "EPIPE" (by decide) (by decide) rfl).2.2.2⟩

/-- C12. Console stream selection: a call that got past the pre-check and the limiter and
whose level passes the console threshold makes exactly one console call, carrying its line;
it is a write to the error stream when the level is at most `Warning` and a write to the
standard output otherwise. Among the eight levels: the error stream gets the line iff the
level is Fatal, Alert, Critical, Error or Warning, the standard output iff it is Notice,
Info or Debug. -/
theorem C12_console_stream (F : Fmt) (st : State) (env : Env) (pattern : String)
    (args : List Arg) (L : Level) (depth : Nat)
    (hadm : (checkMessagesLimit st env.now1 env.now2).1 = false)
    (hL : L ≤ st.maxConsoleLevel) :
    ∃ msg, (outputMessage F st env pattern args L depth).line = some msg ∧
      (outputMessage F st env pattern args L depth).effects.filter Effect.isConsole =
        [if L ≤ L_warning then Effect.stderr msg else Effect.stdout msg] ∧
      (L ≤ L_debug →
        (Effect.stderr msg ∈ (outputMessage F st env pattern args L depth).effects ↔
          L = L_fatal ∨ L = L_alert ∨ L = L_critical ∨ L = L_error ∨ L = L_warning) ∧
        (Effect.stdout msg ∈ (outputMessage F st env pattern args L depth).effects ↔
          L = L_notice ∨ L = L_info ∨ L = L_debug)) := by
  have hi : ¬ ignored st L := fun h => Nat.not_lt.mpr hL h.1
  obtain ⟨st2, -, h2, -, -, -, heq⟩ := outputMessage_admitted_eq F st env pattern args L depth
    hi hadm
  generalize (collapse (checkMessagesLimit st env.now1 env.now2).2 env.stamp
    (getText F args pattern L (shortName (env.Caller depth).1) (env.Caller depth).2)).1 = msg
    at heq
  have hfil : (outputMessage F st env pattern args L depth).effects.filter Effect.isConsole =
      [if L ≤ L_warning then Effect.stderr msg else Effect.stdout msg] := by
    rw [heq, console_consoleSink, if_pos (by rw [h2]; exact hL)]
  refine ⟨msg, by rw [heq]; exact line_consoleSink _ _ _ _ _, hfil, ?_⟩
  · intro hv
    have key : ∀ x : Effect, x.isConsole = true →
        (x ∈ (outputMessage F st env pattern args L depth).effects ↔
          x = if L ≤ L_warning then Effect.stderr msg else Effect.stdout msg) := by
      intro x hx
      rw [← List.mem_singleton, ← hfil, List.mem_filter]
      simp [hx]
    rw [key (Effect.stderr msg) rfl, key (Effect.stdout msg) rfl]
    have hsplit := level_split L hv
    by_cases hw : L ≤ L_warning
    · rw [if_pos hw]
      exact ⟨⟨fun _ => hsplit.1.mp hw, fun _ => rfl⟩,
        ⟨fun h => by simp at h, fun h => absurd hw (hsplit.2.mpr h)⟩⟩
    · rw [if_neg hw]
      exact ⟨⟨fun h => by simp at h, fun h => absurd (hsplit.1.mpr h) hw⟩,
        ⟨fun _ => hsplit.2.mp hw, fun _ => rfl⟩⟩

/-- Witness for C12: `Warning("x")` goes to the error stream, `Notice("x")` to the standard
output, in the state of the tests. -/
theorem C12_console_stream_witness :
    (∃ msg, (outputMessage goFmt testState (envAt 100 40) "" [Arg.str "x"] L_warning 2).line =
        some msg ∧
      (outputMessage goFmt testState (envAt 100 40) "" [Arg.str "x"] L_warning
        2).effects.filter Effect.isConsole =
        [if L_warning ≤ L_warning then Effect.stderr msg else Effect.stdout msg]) ∧
    (outputMessage goFmt testState (envAt 100 40) "" [Arg.str "x"] L_warning 2).effects.filter
      Effect.isConsole = [Effect.stderr "2020-02-21 12:34:56 [Warning] log_test.go:40 - x\n"] ∧
    (outputMessage goFmt testState (envAt 100 40) "" [Arg.str "x"] L_notice 2).effects.filter
      Effect.isConsole = [Effect.stdout "2020-02-21 12:34:56 [Notice] log_test.go:40 - x\n"] :=
  ⟨(C12_console_stream goFmt testState (envAt 100 40) "" [Arg.str "x"] L_warning 2 (by decide)
      (by decide)).imp fun _ h => ⟨h.1, h.2.1⟩, by decide, by decide⟩

/-- C13 (as stated, refuted). The fourteen calls of `TestInterfaces` in the state the test
sets up (file and console at `Debug`, no rate limit) write fourteen full lines to the file;
the second call of a pair is on the next source line, so it is not collapsed to `.`. -/
theorem C13_end_to_end_counterexample :
    testState.maxFileLevel = L_debug ∧ testState.maxConsoleLevel = L_debug ∧
    testState.maxMessagesPerSecond = 0 ∧
    fileLines (runDispatches goFmt testState testInterfacesCalls) =
      ["2020-02-21 12:34:56 [Debug] log_test.go:81 - test\n",
       "2020-02-21 12:34:56 [Debug] log_test.go:82 - test\n",
       "2020-02-21 12:34:56 [Info] log_test.go:83 - test\n",
       "2020-02-21 12:34:56 [Info] log_test.go:84 - test\n",
       "2020-02-21 12:34:56 [Notice] log_test.go:85 - test\n",
       "2020-02-21 12:34:56 [Notice] log_test.go:86 - test\n",
       "2020-02-21 12:34:56 [Warning] log_test.go:87 - test\n",
       "2020-02-21 12:34:56 [Warning] log_test.go:88 - test\n",
       "2020-02-21 12:34:56 [Error] log_test.go:89 - test\n",
       "2020-02-21 12:34:56 [Error] log_test.go:90 - test\n",
       "2020-02-21 12:34:56 [Critical] log_test.go:91 - test\n",
       "2020-02-21 12:34:56 [Critical] log_test.go:92 - test\n",
       "2020-02-21 12:34:56 [Alert] log_test.go:93 - test\n",
       "2020-02-21 12:34:56 [Alert] log_test.go:94 - test\n"] ∧
    fileLines (runDispatches goFmt testState testInterfacesCalls) ≠
      ["2020-02-21 12:34:56 [Debug] log_test.go:81 - test\n",
       ".",
       "2020-02-21 12:34:56 [Info] log_test.go:83 - test\n",
       ".",
       "2020-02-21 12:34:56 [Notice] log_test.go:85 - test\n",
       ".",
       "2020-02-21 12:34:56 [Warning] log_test.go:87 - test\n",
       ".",
       "2020-02-21 12:34:56 [Error] log_test.go:89 - test\n",
       ".",
       "2020-02-21 12:34:56 [Critical] log_test.go:91 - test\n",
       ".",
       "2020-02-21 12:34:56 [Alert] log_test.go:93 - test\n",
       "."] := by
  decide

/-- C13 (amended). End-to-end scenario: with a file registered, file and console thresholds
at `Debug`, rate limiting disabled, no repeat pending and a stored text other than that of the
first call, every sink call succeeding, the calls of `TestInterfaces` (Debug, Info, Notice,
Warning, Error, Critical, Alert, each a formatted and a plain call with the same message on
consecutive source lines `base`, `base + 1`, ...) write fourteen lines to the file, each a
full line `<timestamp>[LevelName] file:line - message` tagged with the name of its level;
none is collapsed to `.`. -/
theorem C13_end_to_end (F : Fmt) (st : State) (envs : Nat → Env) (msg file : String)
    (base : Int)
    (hreg : st.logFile ≠ "") (hfl : st.maxFileLevel = L_debug)
    (hcl : st.maxConsoleLevel = L_debug) (hmax : st.maxMessagesPerSecond < 1)
    (hrep : st.isRepeated = false)
    (hlast : st.lastMessage ≠
      "[Debug] " ++ shortName file ++ ":" ++ toString base ++ " - " ++ msg ++ "\n")
    (henv : ∀ i : Nat, i < 14 → (envs i).Caller 2 = (file, base + (i : Int)) ∧
      (envs i).consoleErr = none ∧ (envs i).syslogErr = none ∧ (envs i).openErr = none ∧
      (envs i).writeErr = none) :
    fileLines (runDispatches F st (interfacesCalls envs msg)) =
      [fullLine (envs 0).stamp "Debug" (shortName file) base msg,
       fullLine (envs 1).stamp "Debug" (shortName file) (base + 1) msg,
       fullLine (envs 2).stamp "Info" (shortName file) (base + 2) msg,
       fullLine (envs 3).stamp "Info" (shortName file) (base + 3) msg,
       fullLine (envs 4).stamp "Notice" (shortName file) (base + 4) msg,
       fullLine (envs 5).stamp "Notice" (shortName file) (base + 5) msg,
       fullLine (envs 6).stamp "Warning" (shortName file) (base + 6) msg,
       fullLine (envs 7).stamp "Warning" (shortName file) (base + 7) msg,
       fullLine (envs 8).stamp "Error" (shortName file) (base + 8) msg,
       fullLine (envs 9).stamp "Error" (shortName file) (base + 9) msg,
       fullLine (envs 10).stamp "Critical" (shortName file) (base + 10) msg,
       fullLine (envs 11).stamp "Critical" (shortName file) (base + 11) msg,
       fullLine (envs 12).stamp "Alert" (shortName file) (base + 12) msg,
       fullLine (envs 13).stamp "Alert" (shortName file) (base + 13) msg] ∧
    (∀ l ∈ fileLines (runDispatches F st (interfacesCalls envs msg)), l ≠ ".") := by
  have e0 := henv 0 (by omega)
  have e1 := henv 1 (by omega)
  have e2 := henv 2 (by omega)
  have e3 := henv 3 (by omega)
  have e4 := henv 4 (by omega)
  have e5 := henv 5 (by omega)
  have e6 := henv 6 (by omega)
  have e7 := henv 7 (by omega)
  have e8 := henv 8 (by omega)
  have e9 := henv 9 (by omega)
  have e10 := henv 10 (by omega)
  have e11 := henv 11 (by omega)
  have e12 := henv 12 (by omega)
  have e13 := henv 13 (by omega)
  have hf := messageOf_format F msg
  have hp := messageOf_plain F msg
  have htext : (interfacesCalls envs msg).map (Dispatch.text F) =
      [getText F [Arg.str msg] "%s" L_debug (shortName file) base,
       getText F [Arg.str msg] "" L_debug (shortName file) (base + 1),
       getText F [Arg.str msg] "%s" L_info (shortName file) (base + 2),
       getText F [Arg.str msg] "" L_info (shortName file) (base + 3),
       getText F [Arg.str msg] "%s" L_notice (shortName file) (base + 4),
       getText F [Arg.str msg] "" L_notice (shortName file) (base + 5),
       getText F [Arg.str msg] "%s" L_warning (shortName file) (base + 6),
       getText F [Arg.str msg] "" L_warning (shortName file) (base + 7),
       getText F [Arg.str msg] "%s" L_error (shortName file) (base + 8),
       getText F [Arg.str msg] "" L_error (shortName file) (base + 9),
       getText F [Arg.str msg] "%s" L_critical (shortName file) (base + 10),
       getText F [Arg.str msg] "" L_critical (shortName file) (base + 11),
       getText F [Arg.str msg] "%s" L_alert (shortName file) (base + 12),
       getText F [Arg.str msg] "" L_alert (shortName file) (base + 13)] := by
    simp only [interfacesCalls, List.map_cons, List.map_nil, Dispatch.text, formatCall, plainCall,
      e0.1, e1.1, e2.1, e3.1, e4.1, e5.1, e6.1, e7.1, e8.1, e9.1, e10.1, e11.1, e12.1, e13.1]
    simp
  have hfirst : getText F [Arg.str msg] "%s" L_debug (shortName file) base =
      "[Debug] " ++ shortName file ++ ":" ++ toString base ++ " - " ++ msg ++ "\n" := by
    unfold getText
    rw [hf]
    rfl
  have hmain := full_run F (interfacesCalls envs msg) st hreg hfl hcl hmax hrep
    (by
      rw [htext]
      simp only [List.chain_cons, List.Chain.nil, and_true]
      refine ⟨by rw [hfirst]; exact hlast, ?_, ?_, ?_, ?_, ?_, ?_, ?_, ?_, ?_, ?_, ?_, ?_, ?_⟩ <;>
        exact text_ne_of_line F _ _ _ _ _ _ _ _ _ (by decide) (by decide)
          (by first | exact hf.trans hp.symm | exact hp.trans hf.symm) (by omega))
    (by
      intro d hd
      simp only [interfacesCalls, List.mem_cons, List.mem_singleton, List.not_mem_nil,
        or_false] at hd
      rcases hd with rfl | rfl | rfl | rfl | rfl | rfl | rfl | rfl | rfl | rfl | rfl | rfl |
        rfl | rfl
      · exact ⟨Nat.le_of_ble_eq_true rfl, e0.2⟩
      · exact ⟨Nat.le_of_ble_eq_true rfl, e1.2⟩
      · exact ⟨Nat.le_of_ble_eq_true rfl, e2.2⟩
      · exact ⟨Nat.le_of_ble_eq_true rfl, e3.2⟩
      · exact ⟨Nat.le_of_ble_eq_true rfl, e4.2⟩
      · exact ⟨Nat.le_of_ble_eq_true rfl, e5.2⟩
      · exact ⟨Nat.le_of_ble_eq_true rfl, e6.2⟩
      · exact ⟨Nat.le_of_ble_eq_true rfl, e7.2⟩
      · exact ⟨Nat.le_of_ble_eq_true rfl, e8.2⟩
      · exact ⟨Nat.le_of_ble_eq_true rfl, e9.2⟩
      · exact ⟨Nat.le_of_ble_eq_true rfl, e10.2⟩
      · exact ⟨Nat.le_of_ble_eq_true rfl, e11.2⟩
      · exact ⟨Nat.le_of_ble_eq_true rfl, e12.2⟩
      · exact ⟨Nat.le_of_ble_eq_true rfl, e13.2⟩)
  have hlines : fileLines (runDispatches F st (interfacesCalls envs msg)) =
      [fullLine (envs 0).stamp "Debug" (shortName file) base msg,
       fullLine (envs 1).stamp "Debug" (shortName file) (base + 1) msg,
       fullLine (envs 2).stamp "Info" (shortName file) (base + 2) msg,
       fullLine (envs 3).stamp "Info" (shortName file) (base + 3) msg,
       fullLine (envs 4).stamp "Notice" (shortName file) (base + 4) msg,
       fullLine (envs 5).stamp "Notice" (shortName file) (base + 5) msg,
       fullLine (envs 6).stamp "Warning" (shortName file) (base + 6) msg,
       fullLine (envs 7).stamp "Warning" (shortName file) (base + 7) msg,
       fullLine (envs 8).stamp "Error" (shortName file) (base + 8) msg,
       fullLine (envs 9).stamp "Error" (shortName file) (base + 9) msg,
       fullLine (envs 10).stamp "Critical" (shortName file) (base + 10) msg,
       fullLine (envs 11).stamp "Critical" (shortName file) (base + 11) msg,
       fullLine (envs 12).stamp "Alert" (shortName file) (base + 12) msg,
       fullLine (envs 13).stamp "Alert" (shortName file) (base + 13) msg] := by
    rw [hmain]
    simp only [interfacesCalls, List.map_cons, List.map_nil, Dispatch.text, formatCall, plainCall,
      e0.1, e1.1, e2.1, e3.1, e4.1, e5.1, e6.1, e7.1, e8.1, e9.1, e10.1, e11.1, e12.1, e13.1]
    simp only [getText, hf, hp, fullLine, Level.String, Nat.cast_ofNat, Nat.cast_zero, add_zero,
      Nat.cast_one]
  refine ⟨hlines, ?_⟩
  rw [hmain]
  intro l hl
  obtain ⟨d, -, rfl⟩ := List.mem_map.mp hl
  have := line_ne_dot "" d.env.stamp F d
  simpa using this

/-- Witness for C13 (amended): `TestInterfaces` itself, lines 81 to 94 of `log_test.go`,
message `test`, in the state the test sets up. -/
theorem C13_end_to_end_witness :
    fileLines (runDispatches goFmt testState
      (interfacesCalls (fun i => envAt 100 (81 + (i : Int))) "test")) =
      ["2020-02-21 12:34:56 [Debug] log_test.go:81 - test\n",
       "2020-02-21 12:34:56 [Debug] log_test.go:82 - test\n",
       "2020-02-21 12:34:56 [Info] log_test.go:83 - test\n",
       "2020-02-21 12:34:56 [Info] log_test.go:84 - test\n",
       "2020-02-21 12:34:56 [Notice] log_test.go:85 - test\n",
       "2020-02-21 12:34:56 [Notice] log_test.go:86 - test\n",
       "2020-02-21 12:34:56 [Warning] log_test.go:87 - test\n",
       "2020-02-21 12:34:56 [Warning] log_test.go:88 - test\n",
       "2020-02-21 12:34:56 [Error] log_test.go:89 - test\n",
       "2020-02-21 12:34:56 [Error] log_test.go:90 - test\n",
       "2020-02-21 12:34:56 [Critical] log_test.go:91 - test\n",
       "2020-02-21 12:34:56 [Critical] log_test.go:92 - test\n",
       "2020-02-21 12:34:56 [Alert] log_test.go:93 - test\n",
       "2020-02-21 12:34:56 [Alert] log_test.go:94 - test\n"] :=
  (C13_end_to_end goFmt testState (fun i => envAt 100 (81 + (i : Int))) "test"
    "/home/user/go/src/log/log_test.go" 81 (by decide) rfl rfl (by decide) rfl (by decide)
    (fun _ _ => ⟨rfl, rfl, rfl, rfl, rfl⟩)).1

/-- C14. Severity model: the eight level constants are 0 to 7 in the order Fatal, Alert,
Critical, Error, Warning, Notice, Info, Debug, strictly increasing; `String` gives each its
name, so it is injective on the eight levels; every value from 8 on (8..255 for a `uint8`)
renders as `Fatal`. -/
theorem C14_severity_model :
    (L_fatal = 0 ∧ L_alert = 1 ∧ L_critical = 2 ∧ L_error = 3 ∧ L_warning = 4 ∧ L_notice = 5 ∧
      L_info = 6 ∧ L_debug = 7) ∧
    (L_fatal < L_alert ∧ L_alert < L_critical ∧ L_critical < L_error ∧ L_error < L_warning ∧
      L_warning < L_notice ∧ L_notice < L_info ∧ L_info < L_debug) ∧
    (Level.String L_fatal = "Fatal" ∧ Level.String L_alert = "Alert" ∧
      Level.String L_critical = "Critical" ∧ Level.String L_error = "Error" ∧
      Level.String L_warning = "Warning" ∧ Level.String L_notice = "Notice" ∧
      Level.String L_info = "Info" ∧ Level.String L_debug = "Debug") ∧
    (∀ a b : Level, a ≤ L_debug → b ≤ L_debug → Level.String a = Level.String b → a = b) ∧
    (∀ l : Level, 8 ≤ l → Level.String l = "Fatal") := by
  refine ⟨⟨rfl, rfl, rfl, rfl, rfl, rfl, rfl, rfl⟩, by decide,
    ⟨rfl, rfl, rfl, rfl, rfl, rfl, rfl, rfl⟩, ?_, level_string_fatal⟩
  intro a b ha hb
  have ha1 : a ≤ 7 := ha
  have hb1 : b ≤ 7 := hb
  interval_cases a <;> interval_cases b <;> simp [Level.String]

/-- C15 (as stated, refuted). With the stored second 0 and clock readings 5 then 6,
`checkMessagesLimit` compares the stored second with 5 and stores 6. -/
theorem C15_single_clock_sample_counterexample :
    clockState.thisSecond ≠ 5 ∧
    (checkMessagesLimit clockState 5 6).1 = false ∧
    (checkMessagesLimit clockState 5 6).2.thisSecond = 6 ∧
    (checkMessagesLimit clockState 5 6).2.thisSecond ≠ 5 := by
  decide

/-- C15 (amended). The rate limiter reads the clock twice in a call that resets the window:
the boundary check compares the stored second with the first reading, and the second reading
is what is stored in `thisSecond` (the count becomes 1 and the message is let through). The
answer depends on the first reading only; the stored second is the compared one when the two
readings are equal. -/
theorem C15_single_clock_sample (st : State) (now1 now2 : Int)
    (hmax : 1 ≤ st.maxMessagesPerSecond) (hnew : st.thisSecond ≠ now1) :
    (checkMessagesLimit st now1 now2).1 = false ∧
    (checkMessagesLimit st now1 now2).2.thisSecond = now2 ∧
    (checkMessagesLimit st now1 now2).2.messagesThisSecond = 1 ∧
    (now2 = now1 → (checkMessagesLimit st now1 now2).2.thisSecond = now1) ∧
    (∀ (s : State) (a b c : Int), (checkMessagesLimit s a b).1 = (checkMessagesLimit s a c).1) := by
  have h : checkMessagesLimit st now1 now2 =
      (false, { st with thisSecond := now2, messagesThisSecond := 1 }) := by
    unfold checkMessagesLimit
    rw [if_neg (by omega), if_pos hnew]
  rw [h]
  refine ⟨rfl, rfl, rfl, fun h1 => h1, ?_⟩
  intro s a b c
  unfold checkMessagesLimit
  split_ifs <;> rfl

/-- Witness for C15 (amended): stored second 0, readings 5 and 6. -/
theorem C15_single_clock_sample_witness :
    (checkMessagesLimit clockState 5 6).1 = false ∧
    (checkMessagesLimit clockState 5 6).2.thisSecond = 6 ∧
    (checkMessagesLimit clockState 5 6).2.messagesThisSecond = 1 :=
  ⟨(C15_single_clock_sample clockState 5 6 (by decide) (by decide)).1,
   (C15_single_clock_sample clockState 5 6 (by decide) (by decide)).2.1,
   (C15_single_clock_sample clockState 5 6 (by decide) (by decide)).2.2.1⟩

/-- C16. Repeat-state invariant: after a dispatch that got past the pre-check and the rate
limiter, from any state (so from every reachable one), `lastMessage` is the rendered text of
the dispatch, `isRepeated` is true exactly when the line produced was the marker `.`, and
false exactly when it was a timestamped line (the timestamp and the text, after a newline
if a repeat run came before). -/
theorem C16_repeat_state (F : Fmt) (st : State) (d : Dispatch)
    (hadm : (d.run F st).line ≠ none) :
    (d.run F st).state.lastMessage = d.text F ∧
    ((d.run F st).state.isRepeated = true ↔ (d.run F st).line = some ".") ∧
    ((d.run F st).state.isRepeated = false ↔
      ((d.run F st).line = some (d.env.stamp ++ d.text F) ∨
       (d.run F st).line = some ("\n" ++ d.env.stamp ++ d.text F))) ∧
    (∀ ops : List Op, (d.run F (applyOps F State.init ops)).line ≠ none →
      (d.run F (applyOps F State.init ops)).state.lastMessage = d.text F ∧
      ((d.run F (applyOps F State.init ops)).state.isRepeated = true ↔
        (d.run F (applyOps F State.init ops)).line = some ".")) := by
  have main : ∀ s : State, (d.run F s).line ≠ none →
      (d.run F s).state.lastMessage = d.text F ∧
      ((d.run F s).state.isRepeated = true ↔ (d.run F s).line = some ".") ∧
      ((d.run F s).state.isRepeated = false ↔
        ((d.run F s).line = some (d.env.stamp ++ d.text F) ∨
         (d.run F s).line = some ("\n" ++ d.env.stamp ++ d.text F))) := by
    intro s hs
    obtain ⟨h1, h2, h3⟩ := admitted_line F s d hs
    have hd1 : d.env.stamp ++ d.text F ≠ "." := by
      have := line_ne_dot "" d.env.stamp F d
      simpa using this
    have hd2 : "\n" ++ d.env.stamp ++ d.text F ≠ "." := line_ne_dot "\n" d.env.stamp F d
    rw [h1, h3]
    refine ⟨h2, ?_, ?_⟩ <;> unfold collapse <;> split_ifs with ha hb
    · simp [hd2]
    · simp only [Bool.not_eq_true] at hb
      simp [hb, hd1]
    · simp
    · simp
    · simp only [Bool.not_eq_true] at hb
      simp [hb]
    · simp [Ne.symm hd1, Ne.symm hd2]
  exact ⟨(main st hadm).1, (main st hadm).2.1, (main st hadm).2.2,
    fun ops h => ⟨(main _ h).1, (main _ h).2.1⟩⟩

/-- Witness for C16: the second `Notice("std")` from line 40 is collapsed and sets
`isRepeated`; the call from line 42 after it clears it. -/
theorem C16_repeat_state_witness :
    ((callAt L_notice 40 "std").run goFmt
      (stateAfter goFmt testState [callAt L_notice 40 "std"])).state.lastMessage =
      "[Notice] log_test.go:40 - std\n" ∧
    ((callAt L_notice 40 "std").run goFmt
      (stateAfter goFmt testState [callAt L_notice 40 "std"])).state.isRepeated = true ∧
    ((callAt L_notice 42 "std").run goFmt repeatedState).state.isRepeated = false :=
  ⟨(C16_repeat_state goFmt (stateAfter goFmt testState [callAt L_notice 40 "std"])
      (callAt L_notice 40 "std") (by decide)).1,
   (C16_repeat_state goFmt (stateAfter goFmt testState [callAt L_notice 40 "std"])
      (callAt L_notice 40 "std") (by decide)).2.1.mpr (by decide),
   by decide⟩

/-- C17. A message that reaches no sink still changes the state. With the console threshold
at `Error`, no syslog connection, no file registered, the syslog and file thresholds at
`Debug` and rate limiting on, a `Debug` call passes the pre-check (it is compared with the
thresholds of the inactive sinks); when the limiter lets it through it calls no sink and
returns nil, yet the count of the second is incremented (same second) or reset to 1 (new
second), and `lastMessage` becomes its rendered text. -/
theorem C17_silent_message_state (F : Fmt) (st : State) (env : Env) (pattern : String)
    (args : List Arg) (depth : Nat)
    (hcon : st.maxConsoleLevel = L_error) (hsys : st.sys = false) (hfile : st.logFile = "")
    (hsl : st.maxSyslogLevel = L_debug) (_hfl : st.maxFileLevel = L_debug)
    (hmax : 1 ≤ st.maxMessagesPerSecond)
    (hadm : (checkMessagesLimit st env.now1 env.now2).1 = false) :
    ¬ ignored st L_debug ∧
    (outputMessage F st env pattern args L_debug depth).effects = [] ∧
    (outputMessage F st env pattern args L_debug depth).err = none ∧
    (st.thisSecond = env.now1 →
      (outputMessage F st env pattern args L_debug depth).state.messagesThisSecond =
        st.messagesThisSecond + 1) ∧
    (st.thisSecond ≠ env.now1 →
      (outputMessage F st env pattern args L_debug depth).state.messagesThisSecond = 1) ∧
    (outputMessage F st env pattern args L_debug depth).state.lastMessage =
      getText F args pattern L_debug (shortName (env.Caller depth).1) (env.Caller depth).2 := by
  have hi : ¬ ignored st L_debug := by
    intro h
    have := h.2.1
    rw [hsl] at this
    exact Nat.lt_irrefl _ this
  obtain ⟨st2, h1, h2, -, -, h5, heq⟩ := outputMessage_admitted_eq F st env pattern args
    L_debug depth hi hadm
  have hst := outputMessage_admitted_state F st env pattern args L_debug depth hi hadm
  have hsil := consoleSink_silent st2 env L_debug
    (getText F args pattern L_debug (shortName (env.Caller depth).1) (env.Caller depth).2)
    (collapse (checkMessagesLimit st env.now1 env.now2).2 env.stamp
      (getText F args pattern L_debug (shortName (env.Caller depth).1)
        (env.Caller depth).2)).1
    (by rw [h2, hcon]; decide) (h1.trans hsys) (h5.trans hfile)
  refine ⟨hi, by rw [heq, hsil], by rw [heq, hsil], ?_, ?_, hst.2.2.1⟩
  · intro hsame
    rw [hst.2.1]
    unfold checkMessagesLimit at hadm ⊢
    rw [if_neg (by omega), if_neg (by simp [hsame])] at hadm ⊢
    split_ifs at hadm ⊢ with hlt
    rfl
  · intro hnew
    rw [hst.2.1]
    unfold checkMessagesLimit
    rw [if_neg (by omega), if_pos hnew]

/-- Witness for C17: a `Debug("x")` in such a state, one message already counted in the
second: no sink call, the count goes from 1 to 2 and `lastMessage` is replaced. -/
theorem C17_silent_message_state_witness :
    (outputMessage goFmt silentState (envAt 100 40) "" [Arg.str "x"] L_debug 2).effects = [] ∧
    (outputMessage goFmt silentState (envAt 100 40) "" [Arg.str "x"] L_debug
      2).state.messagesThisSecond = silentState.messagesThisSecond + 1 ∧
    (outputMessage goFmt silentState (envAt 100 40) "" [Arg.str "x"] L_debug
      2).state.lastMessage = "[Debug] log_test.go:40 - x\n" ∧
    silentState.lastMessage = "" :=
  ⟨(C17_silent_message_state goFmt silentState (envAt 100 40) "" [Arg.str "x"] 2 rfl rfl rfl rfl
      rfl (by decide) (by decide)).2.1,
   (C17_silent_message_state goFmt silentState (envAt 100 40) "" [Arg.str "x"] 2 rfl rfl rfl rfl
      rfl (by decide) (by decide)).2.2.2.1 rfl,
   by decide, rfl⟩

/-- C18 (code as written). `Write` returns the length of the buffer after the level prefix
was removed: for a line the pattern matches, `ln` is the byte length of the rest, which is
less than the length of the chunk; for `ERROR: disk full` (16 bytes) it returns 9. For a line
the pattern does not match it returns the length of the chunk. -/
theorem C18_write_count :
    (∀ (U : UnicodeTables) (F : Fmt) (st : State) (env : Env),
      (Write U F st env "ERROR: disk full".data).map WriteResult.ret =
        some (some (9, (outputMessage F st env "" [Arg.str "disk full"] L_error 4).err))) ∧
    byteLen "ERROR: disk full".data = 16 ∧
    (∀ (U : UnicodeTables) (F : Fmt) (st : State) (env : Env) (buf : List Char),
      FindSubmatch U msgLevelCheck buf = [] →
      (Write U F st env buf).map WriteResult.ret =
        some (some (byteLen buf,
          (outputMessage F st env "" [Arg.str (String.mk (TrimSpace buf))] L_notice 4).err))) ∧
    (∀ (U : UnicodeTables) (F : Fmt) (st : State) (env : Env) (buf : List Char) (r : WriteResult)
      (n : Nat) (e : Option Error), FindSubmatch U msgLevelCheck buf ≠ [] →
      Write U F st env buf = some r → r.ret = some (n, e) → n < byteLen buf) := by
  refine ⟨?_, by decide, ?_, ?_⟩
  · intro U F st env
    have hm : FindSubmatch U msgLevelCheck "ERROR: disk full".data =
        ["ERROR: ".data, "ERROR: ".data, "ERROR".data] := by
      rw [FindSubmatch_ascii U _ _ (by decide)]
      decide
    unfold Write stripLevel
    rw [hm]
    rfl
  · intro U F st env buf hno
    unfold Write stripLevel
    rw [hno]
    rfl
  · intro U F st env buf r n e hm hw hr
    obtain ⟨lead, word, plural, seps, rest, w, a, as, x, xs, hsplit, -, -, -, -, -, -, -, -, hx, -,
      -, -, hstrip⟩ := stripLevel_match U buf hm
    unfold Write at hw
    rw [hstrip] at hw
    simp only [] at hw
    have hn : n = byteLen rest := by
      split_ifs at hw
      · simp only [Option.some.injEq] at hw
        rw [← hw] at hr
        simp at hr
      · simp only [Option.some.injEq] at hw
        rw [← hw] at hr
        simp only [Option.some.injEq, Prod.mk.injEq] at hr
        exact hr.1.symm
    rw [hn, hsplit, hx]
    simp only [byteLen, List.map_append, List.sum_append, List.map_cons, List.sum_cons]
    have := Char.utf8Size_pos x
    omega

/-- C19. A `Fatal` message is never suppressed by thresholds: whatever the three thresholds,
`L_fatal`, the least `Level`, passes the pre-check and is within the threshold of every sink;
the call returns before the sinks only when the rate limiter is hit; otherwise it writes the
console (error stream), calls syslog when there is a connection and the console write
succeeded, and opens the file when one is registered and the calls before succeeded. -/
theorem C19_fatal_not_suppressed (F : Fmt) (st : State) (env : Env) (pattern : String)
    (args : List Arg) (depth : Nat) :
    ¬ ignored st L_fatal ∧
    (L_fatal ≤ st.maxConsoleLevel ∧ L_fatal ≤ st.maxSyslogLevel ∧ L_fatal ≤ st.maxFileLevel) ∧
    (∀ l : Level, L_fatal ≤ l) ∧
    ((outputMessage F st env pattern args L_fatal depth).line = none ↔
      (checkMessagesLimit st env.now1 env.now2).1 = true) ∧
    (∀ msg, (outputMessage F st env pattern args L_fatal depth).line = some msg →
      Effect.stderr msg ∈ (outputMessage F st env pattern args L_fatal depth).effects ∧
      (env.consoleErr = none → st.sys = true →
        Effect.syslog Severity.Emerg
          (getText F args pattern L_fatal (shortName (env.Caller depth).1)
            (env.Caller depth).2) ∈
          (outputMessage F st env pattern args L_fatal depth).effects) ∧
      (env.consoleErr = none → (st.sys = true → env.syslogErr = none) → st.logFile ≠ "" →
        Effect.fileOpen st.logFile ∈
          (outputMessage F st env pattern args L_fatal depth).effects)) := by
  have hi : ¬ ignored st L_fatal := fun h => Nat.not_lt_zero _ h.1
  refine ⟨hi, ⟨Nat.zero_le _, Nat.zero_le _, Nat.zero_le _⟩, fun l => Nat.zero_le l, ?_, ?_⟩
  · constructor
    · intro hnone
      by_contra hc
      have hc1 : (checkMessagesLimit st env.now1 env.now2).1 = false := by simpa using hc
      have := (outputMessage_admitted_state F st env pattern args L_fatal depth hi hc1).2.2.2.2
      rw [this] at hnone
      exact absurd hnone (by simp)
    · intro hhit
      rw [outputMessage_dropped F st env pattern args L_fatal depth (Or.inr hhit)]
  · intro msg hmsg
    have hc1 : (checkMessagesLimit st env.now1 env.now2).1 = false := by
      by_contra hc
      have hc2 : (checkMessagesLimit st env.now1 env.now2).1 = true := by simpa using hc
      rw [outputMessage_dropped F st env pattern args L_fatal depth (Or.inr hc2)] at hmsg
      exact absurd hmsg (by simp)
    obtain ⟨st2, h1, -, -, -, h5, heq⟩ := outputMessage_admitted_eq F st env pattern args
      L_fatal depth hi hc1
    generalize (collapse (checkMessagesLimit st env.now1 env.now2).2 env.stamp
      (getText F args pattern L_fatal (shortName (env.Caller depth).1)
        (env.Caller depth).2)).1 = m0 at heq
    have hline : (outputMessage F st env pattern args L_fatal depth).line = some m0 := by
      rw [heq]; exact line_consoleSink _ _ _ _ _
    rw [hline] at hmsg
    have hm : m0 = msg := Option.some.inj hmsg
    subst hm
    have hr := consoleSink_reach st2 env L_fatal
      (getText F args pattern L_fatal (shortName (env.Caller depth).1) (env.Caller depth).2)
      m0 (Nat.zero_le _)
    rw [heq]
    refine ⟨hr.1, fun hce hs => ?_, fun hce hse hf => ?_⟩
    · exact hr.2.1 hce (h1.trans hs) (Nat.zero_le _)
    · have := hr.2.2 hce (fun hs => hse (h1.symm.trans hs)) (by rw [h5]; exact hf) (Nat.zero_le _)
      rw [h5] at this
      exact this

end GoLog
